import Mathlib

/-!
# DHCP JSON logger and log-file sinks

A shallow embedding of `JsonDHCPLogger` (output-json-dhcp.c) and of the socket and
file writers of util-logopenfile.c, with the properties the specification states
about them.

Conventions of the embedding:

* a byte buffer is the memory found at its pointer, a function from index to byte,
  together with the declared length kept beside it; every access is recorded, so
  that an access at an index at or past the declared length is visible;
* `uint32_t offset` is a natural number reduced modulo `2 ^ 32` after each update;
* the option loops take a fuel argument and return `none` when it runs out;
* calls into the operating system (send, connect, clock) take their outcomes from
  an `Env` of oracles and are recorded in a trace; the calls of the file writers
  and of the broker client (opening a file, `fwrite`, `time`, `rd_kafka_new`) do the
  same with a `FileEnv`;
* a call that reaches `fclose` of a null pointer, whose behaviour is undefined, does
  not return: its result is `none`;
* constants, macros and helpers of headers that are not among the sources are
  parameters of the functions that use them.
-/

namespace Suricata

/-! ## JSON values (jansson) -/

/-- The bytes of a C string literal. -/
def cstr (s : String) : List Nat := s.toList.map Char.toNat

/-- The JSON values the DHCP logger builds: strings (as bytes), integers and the
array of parameter names. -/
inductive JsonValue where
  | string (s : List Nat)
  | integer (v : Int)
  | array (items : List (List Nat))
  deriving DecidableEq, Repr

/-- An order-preserving JSON object: keys with their values, in insertion order. -/
abbrev JsonObject := List (String × JsonValue)

/-- The keys of an object, in order. -/
def JsonObject.keys (o : JsonObject) : List String := o.map Prod.fst

/-- The object with the value `v` under `key`: a key already present keeps its place and
takes the new value, a new key goes to the end. -/
def jsonObjectSet (o : JsonObject) (key : String) (v : JsonValue) : JsonObject :=
  if o.any (fun kv => kv.1 == key) then
    o.map (fun kv => if kv.1 == key then (key, v) else kv)
  else o ++ [(key, v)]

/-- `json_object_set_new`: the object takes the value under the key; when the value is
`NULL` the call fails and the object stays as it is. -/
def json_object_set_new (o : JsonObject) (key : String) (v : Option JsonValue) : JsonObject :=
  match v with
  | some v => jsonObjectSet o key v
  | none => o

/-- The library's `utf8_check_first`: the number of bytes of the sequence that the byte
`u` starts, 0 when no sequence starts with it (a continuation byte, an overlong
encoding of an ASCII byte, a byte from `0xF5` on). -/
def utf8_check_first (u : Nat) : Nat :=
  if u < 0x80 then 1
  else if u ≤ 0xBF then 0
  else if u = 0xC0 ∨ u = 0xC1 then 0
  else if u ≤ 0xDF then 2
  else if u ≤ 0xEF then 3
  else if u ≤ 0xF4 then 4
  else 0

/-- The loop of `utf8_check_full` over the bytes after the first: each must be a
continuation byte and gives six bits to the code point; `none` when one is not. -/
def utf8Continuation : List Nat → Nat → Option Nat
  | [], value => some value
  | u :: rest, value =>
    if u < 0x80 ∨ 0xBF < u then none
    else utf8Continuation rest ((value <<< 6) + (u &&& 0x3F))

/-- The library's `utf8_check_full` on the `size` bytes at the head of `buffer`: the
continuation bytes are checked, and the code point must be in the Unicode range, no
surrogate half and not an overlong encoding. -/
def utf8_check_full (buffer : List Nat) (size : Nat) : Bool :=
  match buffer with
  | [] => false
  | u :: rest =>
    if size = 2 ∨ size = 3 ∨ size = 4 then
      let first := if size = 2 then u &&& 0x1F else if size = 3 then u &&& 0xF else u &&& 0x7
      match utf8Continuation (rest.take (size - 1)) first with
      | none => false
      | some value =>
        if 0x10FFFF < value then false
        else if 0xD800 ≤ value ∧ value ≤ 0xDFFF then false
        else if (size = 2 ∧ value < 0x80) ∨ (size = 3 ∧ value < 0x800) ∨
            (size = 4 ∧ value < 0x10000) then false
        else true
    else false

/-- The loop of `utf8_check_string`, one unit of fuel for each sequence. -/
def utf8CheckFrom : Nat → List Nat → Bool
  | _, [] => true
  | 0, _ :: _ => false
  | fuel + 1, b :: rest =>
    let count := utf8_check_first b
    if count = 0 then false
    else if count = 1 then utf8CheckFrom fuel rest
    else if rest.length + 1 < count then false
    else if utf8_check_full (b :: rest) count then utf8CheckFrom fuel (rest.drop (count - 1))
    else false

/-- The library's `utf8_check_string`: whether the bytes are valid UTF-8. -/
def utf8_check_string (s : List Nat) : Bool := utf8CheckFrom s.length s

/-- `json_string`: the value is the C string at the pointer, that is the bytes up to
the first NUL; the library returns `NULL` when these bytes are not valid UTF-8.
(A failure of the allocation of the value is not part of the model.) -/
def json_string (s : List Nat) : Option JsonValue :=
  if utf8_check_string (s.takeWhile (fun b => b != 0)) then
    some (JsonValue.string (s.takeWhile (fun b => b != 0)))
  else none

/-- `json_integer` of a C `int`. -/
def json_integer (v : Int) : JsonValue := JsonValue.integer v

/-! ## Memory accesses -/

/-- One `uint8_t` read from the memory at a buffer pointer. -/
def readByte (mem : Nat → Nat) (i : Nat) : Nat := mem i % 256

/-- The bytes `args[0] .. args[len - 1]` of the option at `p`. -/
def readArgs (mem : Nat → Nat) (p len : Nat) : List Nat :=
  (List.range len).map (fun i => readByte mem (p + 2 + i))

/-- The indices of `args[0] .. args[len - 1]` of the option at `p`. -/
def argIndices (p len : Nat) : List Nat := (List.range len).map (fun i => p + 2 + i)

/-- Modelled from the spec: the body of `BytesToString` (util-byte.c) is not among the
sources; it is the copy of the `nbytes` value bytes into a fresh NUL-terminated
string, from which `json_string` then takes the field value. -/
def BytesToString (bytes : List Nat) : List Nat := bytes

/-! ## Formatting -/

/-- One lower-case hexadecimal digit. -/
def hexDigit (d : Nat) : Nat := if d < 10 then 48 + d else 87 + d

/-- The conversion `%02x` of one byte. -/
def hex2 (b : Nat) : List Nat := [hexDigit (b / 16 % 16), hexDigit (b % 16)]

/-- The result of `snprintf(.., "%d.%d.%d.%d", a, b, c, d)` for four bytes. -/
def ipString (a b c d : Nat) : List Nat :=
  cstr (toString a) ++ [46] ++ cstr (toString b) ++ [46] ++ cstr (toString c) ++ [46] ++
    cstr (toString d)

/-- The result of `snprintf(.., "%02x:%02x:%02x:%02x:%02x:%02x", ..)` for six bytes. -/
def macString (a b c d e f : Nat) : List Nat :=
  hex2 a ++ [58] ++ hex2 b ++ [58] ++ hex2 c ++ [58] ++ hex2 d ++ [58] ++ hex2 e ++ [58] ++ hex2 f

/-- The four-byte address of the option at `p` as dotted decimal. -/
def ipOfArgs (mem : Nat → Nat) (p : Nat) : List Nat :=
  ipString (readByte mem (p + 2)) (readByte mem (p + 3)) (readByte mem (p + 4))
    (readByte mem (p + 5))

/-- A 32-bit pattern read as a C `int` (two's complement). -/
def toInt32 (u : Nat) : Int :=
  if u % 2 ^ 32 < 2 ^ 31 then ((u % 2 ^ 32 : Nat) : Int) else ((u % 2 ^ 32 : Nat) : Int) - 2 ^ 32

/-- The expression `(int)args[0]<<24 | (int)args[1]<<16 | (int)args[2]<<8 | (int)args[3]`
of the option at `p`, in wrap-around 32-bit `int` arithmetic. -/
def timeOfArgs (mem : Nat → Nat) (p : Nat) : Int :=
  toInt32 ((readByte mem (p + 2) <<< 24) ||| (readByte mem (p + 3) <<< 16) |||
    (readByte mem (p + 4) <<< 8) ||| readByte mem (p + 5))

/-! ## The option loops of `JsonDHCPLogger` -/

/-- `JsonDHCPOptEnd`: whether the option at `dhcp_opt` carries the terminator code. -/
def JsonDHCPOptEnd (mem : Nat → Nat) (dhcp_opt : Nat) : Bool := readByte mem dhcp_opt == 255

/-- The name appended to the `params` array for one requested parameter code. -/
def paramName (c : Nat) : List (List Nat) :=
  if c = 1 then [cstr "subnet_mask"]
  else if c = 3 then [cstr "router"]
  else if c = 6 then [cstr "dns_server"]
  else if c = 15 then [cstr "domain"]
  else if c = 35 then [cstr "arp_timeout"]
  else if c = 42 then [cstr "ntp_server"]
  else if c = 66 then [cstr "tftp_server_name"]
  else if c = 150 then [cstr "tftp_server_ip"]
  else []

/-- The accesses of the `for (i = 0; i < dhcp_opt->len; i++)` loop of code 55 on the
option at `p`: the length byte before each test, the value byte in each round. -/
def paramReads (p len : Nat) : List Nat :=
  (List.range len).flatMap (fun i => [p + 1, p + 2 + i]) ++ [p + 1]

/-- The `switch` of the request loop on the option at `p`: the object after the fold and
the indices read, the code byte first. `arrayOk` tells whether `json_array()` returns
an array for the option at the given offset. -/
def requestOption (arrayOk : Nat → Bool) (mem : Nat → Nat) (p : Nat) (reqjs : JsonObject) :
    JsonObject × List Nat :=
  let code := readByte mem p
  if code = 53 then
    let a0 := readByte mem (p + 2)
    let s := if a0 = 3 then "request" else if a0 = 8 then "inform" else ""
    (json_object_set_new reqjs "type" (json_string (cstr s)), [p, p + 2])
  else if code = 12 then
    let len := readByte mem (p + 1)
    (json_object_set_new reqjs "host_name" (json_string (BytesToString (readArgs mem p len))),
      [p, p + 1] ++ argIndices p len)
  else if code = 60 then
    let len := readByte mem (p + 1)
    (json_object_set_new reqjs "vendor_class" (json_string (BytesToString (readArgs mem p len))),
      [p, p + 1] ++ argIndices p len)
  else if code = 61 then
    if readByte mem (p + 2) = 1 then
      (json_object_set_new reqjs "client_id"
          (json_string (macString (readByte mem (p + 3)) (readByte mem (p + 4))
            (readByte mem (p + 5)) (readByte mem (p + 6)) (readByte mem (p + 7))
            (readByte mem (p + 8)))),
        [p, p + 2, p + 3, p + 4, p + 5, p + 6, p + 7, p + 8])
    else (reqjs, [p, p + 2])
  else if code = 50 then
    (json_object_set_new reqjs "client_ip" (json_string (ipOfArgs mem p)),
      [p, p + 2, p + 3, p + 4, p + 5])
  else if code = 54 then
    (json_object_set_new reqjs "server_ip" (json_string (ipOfArgs mem p)),
      [p, p + 2, p + 3, p + 4, p + 5])
  else if code = 55 then
    if arrayOk p then
      let len := readByte mem (p + 1)
      (json_object_set_new reqjs "params"
          (JsonValue.array ((readArgs mem p len).flatMap paramName)),
        [p] ++ paramReads p len)
    else (reqjs, [p])
  else (reqjs, [p])

/-- The `switch` of the response loop on the option at `p`. -/
def responseOption (mem : Nat → Nat) (p : Nat) (rspjs : JsonObject) : JsonObject × List Nat :=
  let code := readByte mem p
  if code = 53 then
    let a0 := readByte mem (p + 2)
    let s := if a0 = 5 then "ack" else if a0 = 6 then "nak" else ""
    (json_object_set_new rspjs "type" (json_string (cstr s)), [p, p + 2])
  else if code = 3 then
    (json_object_set_new rspjs "router_ip" (json_string (ipOfArgs mem p)),
      [p, p + 2, p + 3, p + 4, p + 5])
  else if code = 6 then
    (json_object_set_new rspjs "dns_ip" (json_string (ipOfArgs mem p)),
      [p, p + 2, p + 3, p + 4, p + 5])
  else if code = 66 then
    (json_object_set_new rspjs "tftp_ip" (json_string (ipOfArgs mem p)),
      [p, p + 2, p + 3, p + 4, p + 5])
  else if code = 58 then
    (json_object_set_new rspjs "renewal_time" (json_integer (timeOfArgs mem p)),
      [p, p + 2, p + 3, p + 4, p + 5])
  else if code = 59 then
    (json_object_set_new rspjs "rebinding_time" (json_integer (timeOfArgs mem p)),
      [p, p + 2, p + 3, p + 4, p + 5])
  else if code = 51 then
    (json_object_set_new rspjs "lease_time" (json_integer (timeOfArgs mem p)),
      [p, p + 2, p + 3, p + 4, p + 5])
  else if code = 54 then
    (json_object_set_new rspjs "server_ip" (json_string (ipOfArgs mem p)),
      [p, p + 2, p + 3, p + 4, p + 5])
  else if code = 1 then
    (json_object_set_new rspjs "subnet_mask" (json_string (ipOfArgs mem p)),
      [p, p + 2, p + 3, p + 4, p + 5])
  else (rspjs, [p])

/-- The variables of one option loop: the `uint32_t offset`, the index `dhcp_opt` points
at, the direction object, and the indices read so far (oldest first). -/
structure OptCursor where
  offset : Nat
  dhcp_opt : Nat
  js : JsonObject
  reads : List Nat
  deriving DecidableEq, Repr

/-- The amount `2 + (JsonDHCPOptEnd(dhcp_opt) == 0 ? dhcp_opt->len : 0)` added to the
offset after the option at `p`. -/
def optAdvance (mem : Nat → Nat) (p : Nat) : Nat :=
  2 + (if JsonDHCPOptEnd mem p then 0 else readByte mem (p + 1))

/-- The indices read while computing `optAdvance`. -/
def optAdvanceReads (mem : Nat → Nat) (p : Nat) : List Nat :=
  if JsonDHCPOptEnd mem p then [p] else [p, p + 1]

/-- One `for` loop of `JsonDHCPLogger` over a buffer of declared length `len`, from the
test of its condition on: the test reads the code of the option `dhcp_opt` points
at (the one handled last) and compares `offset <= len`; the body moves `dhcp_opt` to
`offset` and runs `fold`; the increment adds `optAdvance` modulo `2 ^ 32`. -/
def optionLoop (fold : (Nat → Nat) → Nat → JsonObject → JsonObject × List Nat)
    (mem : Nat → Nat) (len : Nat) : Nat → OptCursor → Option OptCursor
  | 0, _ => none
  | fuel + 1, s =>
    if JsonDHCPOptEnd mem s.dhcp_opt then some { s with reads := s.reads ++ [s.dhcp_opt] }
    else if len < s.offset then some { s with reads := s.reads ++ [s.dhcp_opt] }
    else
      let p := s.offset
      let r := fold mem p s.js
      optionLoop fold mem len fuel
        { offset := (s.offset + optAdvance mem p) % 2 ^ 32
          dhcp_opt := p
          js := r.1
          reads := s.reads ++ [s.dhcp_opt] ++ r.2 ++ optAdvanceReads mem p }

/-- The state in which both loops start: `offset = 0`, `dhcp_opt` at the start of the
buffer, an empty object. -/
def optStart : OptCursor := { offset := 0, dhcp_opt := 0, js := [], reads := [] }

/-- The request loop (lines 101-208). -/
def requestLoop (arrayOk : Nat → Bool) (mem : Nat → Nat) (len fuel : Nat) : Option OptCursor :=
  optionLoop (requestOption arrayOk) mem len fuel optStart

/-- The response loop (lines 210-308). -/
def responseLoop (mem : Nat → Nat) (len fuel : Nat) : Option OptCursor :=
  optionLoop responseOption mem len fuel optStart

/-! ## `JsonDHCPLogger` -/

/-- The return codes of a logger (`TmEcode`). -/
inductive TmEcode where
  | TM_ECODE_OK
  | TM_ECODE_FAILED
  | TM_ECODE_DONE
  deriving DecidableEq, Repr

/-- The fields of `DHCPTransaction` the logger uses. The buffers are the memory at their
pointers; `request_buffer_len` and `response_buffer_len` are the declared lengths. -/
structure DHCPTransaction where
  tx_id : Nat
  xid : Nat
  request_buffer : Nat → Nat
  request_buffer_len : Nat
  response_buffer : Nat → Nat
  response_buffer_len : Nat
  logged : Nat

/-- The field of `DHCPState` the logger uses: the session's log cursor. The declaration
of the field is not among the sources; the counter is a natural number. -/
structure DHCPState where
  log_id : Nat
  deriving DecidableEq, Repr

/-- The outcomes of the allocations `JsonDHCPLogger` tests: the header
`CreateJSONHeader` returns (absent for `NULL`), the three `json_object()` calls, and
`json_array()` for the code 55 option at a given offset. -/
structure JsonAlloc where
  js : Option JsonObject
  dhcpjs : Bool
  reqjs : Bool
  rspjs : Bool
  parmsjs : Nat → Bool

/-- `ntohl` on a little-endian host: the four bytes of a 32-bit value reversed. -/
def ntohl (x : Nat) : Nat :=
  (x % 256) * 2 ^ 24 + (x / 2 ^ 8 % 256) * 2 ^ 16 + (x / 2 ^ 16 % 256) * 2 ^ 8 + x / 2 ^ 24 % 256

/-- The document handed to the sink: the header with, under `"dhcp"`, the `xid` and the
two direction objects `client` and `server`. -/
structure Document where
  header : JsonObject
  xid : JsonValue
  client : JsonObject
  server : JsonObject
  deriving DecidableEq, Repr

/-- What one call of `JsonDHCPLogger` leaves behind: its return code, the transaction,
the session state, the sink, and the indices read in each buffer. -/
structure LoggerOut (σ : Type) where
  ret : TmEcode
  tx : DHCPTransaction
  state : DHCPState
  sink : σ
  request_reads : List Nat
  response_reads : List Nat

/-- `JsonDHCPLogger`. `OutputJSONBuffer` is the write of a document to the sink (its
return value is not used); `fuel` bounds the rounds of each option loop. -/
def JsonDHCPLogger {σ : Type} (OutputJSONBuffer : Document → σ → σ × Int) (alloc : JsonAlloc)
    (fuel : Nat) (sink : σ) (state : DHCPState) (tx : DHCPTransaction) (tx_id : Nat) :
    Option (LoggerOut σ) :=
  let skip : LoggerOut σ :=
    { ret := TmEcode.TM_ECODE_OK, tx := tx, state := state, sink := sink,
      request_reads := [], response_reads := [] }
  let error : LoggerOut σ :=
    { ret := TmEcode.TM_ECODE_FAILED, tx := tx, state := state, sink := sink,
      request_reads := [], response_reads := [] }
  if state.log_id > tx_id then some skip
  else if tx.logged ≠ 0 then some skip
  else
    match alloc.js with
    | none => some error
    | some js =>
      if !alloc.dhcpjs then some error
      else if !alloc.reqjs then some error
      else if !alloc.rspjs then some error
      else
        match requestLoop alloc.parmsjs tx.request_buffer tx.request_buffer_len fuel with
        | none => none
        | some req =>
          match responseLoop tx.response_buffer tx.response_buffer_len fuel with
          | none => none
          | some rsp =>
            let doc : Document :=
              { header := js, xid := json_integer (ntohl tx.xid), client := req.js,
                server := rsp.js }
            some
              { ret := TmEcode.TM_ECODE_OK
                tx := { tx with logged := 1 }
                state := { state with log_id := state.log_id + 1 }
                sink := (OutputJSONBuffer doc sink).1
                request_reads := req.reads
                response_reads := rsp.reads }

/-! ## Log-file contexts and the socket writer (util-logopenfile.c) -/

/-- The `errno` values `SCLogFileWriteSocket` tells apart; `other` stands for a value
different from the three it names. -/
inductive Errno where
  | EAGAIN
  | EWOULDBLOCK
  | EINTR
  | other (code : Nat)
  deriving DecidableEq, Repr

/-- The outcome of one `send`: a size above -1, or -1 with `errno` set. -/
inductive SendResult where
  | sent (size : Nat)
  | failed (errno : Errno)
  deriving DecidableEq, Repr

/-- The outcome of one run of `SCLogOpenUnixSocketFp`: which of `socket`, `connect`,
`fdopen` failed, or the stream obtained. -/
inductive ConnectResult where
  | socketFailed
  | connectFailed
  | fdopenFailed
  | connected (fp : Nat)
  deriving DecidableEq, Repr

/-- The system calls of the socket writer, as recorded in the trace. -/
inductive SysEvent where
  | fclose (fp : Nat)
  | gettimeofday (tv_sec tv_usec : Nat)
  | openSocket (path : Option String) (sock_type : Nat) (res : ConnectResult)
  | send (fp : Nat) (buffer : List Nat) (flags : Nat) (res : SendResult)
  deriving DecidableEq, Repr

/-- The oracles of the environment: the outcome of the k-th `send`, of the k-th
connection attempt, and the k-th reading of the clock. -/
structure Env where
  sendResult : Nat → SendResult
  connectResult : Nat → ConnectResult
  timeofday : Nat → Nat × Nat

/-- How many calls of each kind were made so far, and the trace of all of them. -/
structure World where
  sends : Nat
  connects : Nat
  clocks : Nat
  trace : List SysEvent
  deriving DecidableEq, Repr

/-- The values of `file_ctx->type`; a context cleared by `LogFileNewCtx` has the first. -/
inductive LogFileType where
  | LOGFILE_TYPE_FILE
  | LOGFILE_TYPE_SYSLOG
  | LOGFILE_TYPE_UNIX_DGRAM
  | LOGFILE_TYPE_UNIX_STREAM
  | LOGFILE_TYPE_REDIS
  | LOGFILE_TYPE_KAFKA
  deriving DecidableEq, Repr

/-- The four flags of `json_flags` that `SCConfLogOpenGeneric` sets and clears. -/
structure JsonFlags where
  JSON_PRESERVE_ORDER : Bool
  JSON_COMPACT : Bool
  JSON_ENSURE_ASCII : Bool
  JSON_ESCAPE_SLASH : Bool
  deriving DecidableEq, Repr

/-- The member `kafka_setup` of `LogFileCtx`; handles are numbers, absent for `NULL`. -/
structure KafkaSetup where
  brokers : Option String
  topic : Option Nat
  conf : Nat
  loglevel : Int
  partition : Int
  tried : Nat
  deriving DecidableEq, Repr

/-- The fields of `LogFileCtx` the writers use. `fp` is the open stream, absent for
`NULL`. The declaration of the structure is not among the sources; its counters are
natural numbers. -/
structure LogFileCtx where
  fp : Option Nat
  is_sock : Bool
  is_regular : Bool
  sock_type : Nat
  send_flags : Nat
  filename : Option String
  filemode : Nat
  reconn_timer : Nat
  dropped : Nat
  rotation_flag : Nat
  flags : Nat
  rotate_time : Nat
  rotate_interval : Nat
  type : LogFileType
  syslog_level : Nat
  json_flags : JsonFlags
  pcie_fp : Option Nat
  kafka : Option Nat
  kafka_setup : KafkaSetup
  deriving DecidableEq, Repr

/-- The context `LogFileNewCtx` returns: every field zero. -/
def LogFileNewCtx : LogFileCtx :=
  { fp := none, is_sock := false, is_regular := false, sock_type := 0, send_flags := 0,
    filename := none, filemode := 0, reconn_timer := 0, dropped := 0, rotation_flag := 0,
    flags := 0, rotate_time := 0, rotate_interval := 0
    type := LogFileType.LOGFILE_TYPE_FILE, syslog_level := 0
    json_flags :=
      { JSON_PRESERVE_ORDER := false, JSON_COMPACT := false, JSON_ENSURE_ASCII := false,
        JSON_ESCAPE_SLASH := false }
    pcie_fp := none, kafka := none
    kafka_setup :=
      { brokers := none, topic := none, conf := 0, loglevel := 0, partition := 0, tried := 0 } }

/-- `SCLogOpenUnixSocketFp`: one connection attempt; the stream on success, `NULL`
when `socket`, `connect` or `fdopen` fails. -/
def SCLogOpenUnixSocketFp (env : Env) (path : Option String) (sock_type : Nat) (w : World) :
    Option Nat × World :=
  let res := env.connectResult w.connects
  let w1 : World :=
    { w with connects := w.connects + 1
             trace := w.trace ++ [SysEvent.openSocket path sock_type res] }
  match res with
  | ConnectResult.connected fp => (some fp, w1)
  | _ => (none, w1)

/-- The value `now` of `SCLogUnixSocketReconnect`: the clock in milliseconds, in
`uint64_t` arithmetic. -/
def nowMsec (tv : Nat × Nat) : Nat := (tv.1 * 1000 % 2 ^ 64 + tv.2 / 1000) % 2 ^ 64

/-- `SCLogUnixSocketReconnect`, with the value of `LOGFILE_RECONN_MIN_TIME` as a
parameter: 1 when the socket is connected on return, otherwise 0. -/
def SCLogUnixSocketReconnect (env : Env) (LOGFILE_RECONN_MIN_TIME : Nat) (log_ctx : LogFileCtx)
    (w : World) : Nat × LogFileCtx × World :=
  let closed : LogFileCtx × World :=
    match log_ctx.fp with
    | some fp =>
      ({ log_ctx with fp := none, reconn_timer := 0 },
        { w with trace := w.trace ++ [SysEvent.fclose fp] })
    | none => (log_ctx, w)
  let ctx1 := closed.1
  let tv := env.timeofday closed.2.clocks
  let w2 : World :=
    { closed.2 with clocks := closed.2.clocks + 1
                    trace := closed.2.trace ++ [SysEvent.gettimeofday tv.1 tv.2] }
  let now := nowMsec tv
  if ctx1.reconn_timer ≠ 0 ∧
      (now + 2 ^ 64 - ctx1.reconn_timer % 2 ^ 64) % 2 ^ 64 < LOGFILE_RECONN_MIN_TIME then
    (0, ctx1, w2)
  else
    let ctx2 := { ctx1 with reconn_timer := now }
    let r := SCLogOpenUnixSocketFp env ctx2.filename ctx2.sock_type w2
    (if r.1.isSome then 1 else 0, { ctx2 with fp := r.1 }, r.2)

/-- The end of `SCLogFileWriteSocket` when `ret` is -1: the event is counted as
dropped. -/
def dropEvent (ctx : LogFileCtx) (w : World) : Option (Int × LogFileCtx × World) :=
  some (-1, { ctx with dropped := ctx.dropped + 1 }, w)

/-- `SCLogFileWriteSocket` from the label `tryagain` on, with the current value of
`tries`; each `goto tryagain` takes one unit of fuel. -/
def SCLogFileWriteSocket_tryagain (env : Env) (LOGFILE_RECONN_MIN_TIME : Nat)
    (buffer : List Nat) : Nat → Nat → LogFileCtx → World → Option (Int × LogFileCtx × World)
  | 0, _, _, _ => none
  | fuel + 1, tries, ctx, w =>
    match ctx.fp with
    | none => dropEvent ctx w
    | some fp =>
      let res := env.sendResult w.sends
      let w1 : World :=
        { w with sends := w.sends + 1
                 trace := w.trace ++ [SysEvent.send fp buffer ctx.send_flags res] }
      match res with
      | SendResult.sent _ => some (0, ctx, w1)
      | SendResult.failed errno =>
        if errno = Errno.EAGAIN ∨ errno = Errno.EWOULDBLOCK then dropEvent ctx w1
        else if errno = Errno.EINTR then
          if tries = 0 then
            SCLogFileWriteSocket_tryagain env LOGFILE_RECONN_MIN_TIME buffer fuel (tries + 1) ctx w1
          else dropEvent ctx w1
        else if tries = 0 then
          let r := SCLogUnixSocketReconnect env LOGFILE_RECONN_MIN_TIME ctx w1
          if r.1 ≠ 0 then
            SCLogFileWriteSocket_tryagain env LOGFILE_RECONN_MIN_TIME buffer fuel (tries + 1)
              r.2.1 r.2.2
          else dropEvent r.2.1 r.2.2
        else dropEvent ctx w1

/-- `SCLogFileWriteSocket`: a reconnection attempt first when there is no stream, then
the code from `tryagain` on with `tries = 0`. -/
def SCLogFileWriteSocket (env : Env) (LOGFILE_RECONN_MIN_TIME : Nat) (fuel : Nat)
    (buffer : List Nat) (ctx : LogFileCtx) (w : World) : Option (Int × LogFileCtx × World) :=
  let r : LogFileCtx × World :=
    if ctx.fp = none ∧ ctx.is_sock = true then
      (SCLogUnixSocketReconnect env LOGFILE_RECONN_MIN_TIME ctx w).2
    else (ctx, w)
  SCLogFileWriteSocket_tryagain env LOGFILE_RECONN_MIN_TIME buffer fuel 0 r.1 r.2

/-- A sequence of `SCLogFileWriteSocket` calls on one sink, one per buffer: the return
values in order and the final state. -/
def socketWrites (env : Env) (LOGFILE_RECONN_MIN_TIME : Nat) (fuel : Nat) :
    List (List Nat) → LogFileCtx → World → Option (List Int × LogFileCtx × World)
  | [], ctx, w => some ([], ctx, w)
  | buffer :: rest, ctx, w =>
    match SCLogFileWriteSocket env LOGFILE_RECONN_MIN_TIME fuel buffer ctx w with
    | none => none
    | some r =>
      match socketWrites env LOGFILE_RECONN_MIN_TIME fuel rest r.2.1 r.2.2 with
      | none => none
      | some rs => some (r.1 :: rs.1, rs.2.1, rs.2.2)

/-! ## Inputs used in the statements -/

/-- The memory that holds the bytes `l` and, behind them, the byte `fill`. -/
def bufferOf (l : List Nat) (fill : Nat) : Nat → Nat := fun i => l.getD i fill

/-- The bytes read from `mem` at the indices below `l.length` are those of `l`. -/
def Holds (mem : Nat → Nat) (l : List Nat) : Prop :=
  ∀ i (h : i < l.length), readByte mem i = l[i]

/-- A sink that keeps the documents handed to it, oldest first. -/
def recordingSink (d : Document) (l : List Document) : List Document × Int := (l ++ [d], 0)

/-- Every tested allocation succeeds; the header is `js`. -/
def JsonAlloc.Succeeds (alloc : JsonAlloc) (js : JsonObject) : Prop :=
  alloc.js = some js ∧ alloc.dhcpjs = true ∧ alloc.reqjs = true ∧ alloc.rspjs = true

/-- The allocation outcomes in which everything succeeds and the header is empty. -/
def allocOk : JsonAlloc :=
  { js := some [], dhcpjs := true, reqjs := true, rspjs := true, parmsjs := fun _ => true }

/-- The request buffer of the host-name scenario: message type 3, host name `s`,
terminator. -/
def hostNameRequest (s : List Nat) : List Nat := [53, 1, 3, 12, s.length] ++ s ++ [255]

/-- A well-formed option record: its code, and its value bytes (`len` is their number). -/
structure DHCPOpt where
  code : Nat
  args : List Nat
  deriving DecidableEq, Repr

/-- The bytes of a sequence of option records: code, length, value, one after the other. -/
def encodeOpts : List DHCPOpt → List Nat
  | [] => []
  | o :: os => o.code :: o.args.length :: (o.args ++ encodeOpts os)

/-- The records of a well-formed buffer: no record carries the terminator code and
every length fits its byte. -/
def WellFormedOpts (os : List DHCPOpt) : Prop :=
  ∀ o ∈ os, o.code ≠ 255 ∧ o.args.length ≤ 255

/-- Whether `json_string` takes the bytes: up to their first NUL they are valid UTF-8. -/
def validText (bytes : List Nat) : Bool :=
  utf8_check_string (bytes.takeWhile (fun b => b != 0))

/-- The field name the request loop maps an option to, from the record and the byte that
follows its length byte: the codes 12 and 60 have a name only when `json_string` takes
the value bytes, the code 61 only when the byte after the length byte is 1. -/
def requestFieldName (o : DHCPOpt) (firstArg : Nat) : Option String :=
  if o.code = 53 then some "type"
  else if o.code = 12 then (if validText o.args then some "host_name" else none)
  else if o.code = 60 then (if validText o.args then some "vendor_class" else none)
  else if o.code = 61 then (if firstArg = 1 then some "client_id" else none)
  else if o.code = 50 then some "client_ip"
  else if o.code = 54 then some "server_ip"
  else if o.code = 55 then some "params"
  else none

/-- The field name the response loop maps an option code to. -/
def responseFieldName (code : Nat) : Option String :=
  if code = 53 then some "type"
  else if code = 3 then some "router_ip"
  else if code = 6 then some "dns_ip"
  else if code = 66 then some "tftp_ip"
  else if code = 58 then some "renewal_time"
  else if code = 59 then some "rebinding_time"
  else if code = 51 then some "lease_time"
  else if code = 54 then some "server_ip"
  else if code = 1 then some "subnet_mask"
  else none

/-- The names mapped from the records `os` of a buffer that continues with the bytes
`after`; `name` maps a record and the byte after its length byte to a field name. -/
def fieldNames (name : DHCPOpt → Nat → Option String) : List DHCPOpt → List Nat → List String
  | [], _ => []
  | o :: os, after =>
    (name o ((o.args ++ encodeOpts os ++ after).headD 0)).toList ++ fieldNames name os after

/-- The names mapped from the request records `os`, the terminator and `tail` behind
them. -/
def requestNames (os : List DHCPOpt) (tail : List Nat) : List String :=
  fieldNames requestFieldName os (255 :: tail)

/-- The names mapped from the response records `os`. -/
def responseNames (os : List DHCPOpt) : List String :=
  os.filterMap (fun o => responseFieldName o.code)

/-- The transaction of the truncated-record scenario: the request buffer declares six
bytes, a host-name record of declared length 250 with four value bytes in the buffer;
the memory behind the buffer holds the byte 65. -/
def truncatedTx : DHCPTransaction :=
  { tx_id := 0, xid := 0
    request_buffer := bufferOf [12, 250, 104, 111, 115, 116] 65, request_buffer_len := 6
    response_buffer := bufferOf [255] 0, response_buffer_len := 1, logged := 0 }

/-- A transaction whose request buffer has the declared length 0. -/
def emptyRequestTx : DHCPTransaction :=
  { tx_id := 0, xid := 0
    request_buffer := bufferOf [] 0, request_buffer_len := 0
    response_buffer := bufferOf [255] 0, response_buffer_len := 1, logged := 0 }

/-- A transaction whose request buffer is one complete record and no terminator. -/
def unterminatedTx : DHCPTransaction :=
  { tx_id := 0, xid := 0
    request_buffer := bufferOf [53, 1, 3] 0, request_buffer_len := 3
    response_buffer := bufferOf [255] 0, response_buffer_len := 1, logged := 0 }

/-- A transaction whose response buffer declares three bytes: a server-address record
of declared length 4 with one value byte in the buffer. -/
def truncatedResponseTx : DHCPTransaction :=
  { tx_id := 0, xid := 0
    request_buffer := bufferOf [255] 0, request_buffer_len := 1
    response_buffer := bufferOf [54, 4, 10] 0, response_buffer_len := 3, logged := 0 }

/-- The transaction of the host-name scenario with the name "host". -/
def hostTx : DHCPTransaction :=
  { tx_id := 0, xid := 0
    request_buffer := bufferOf (hostNameRequest (cstr "host")) 0
    request_buffer_len := (hostNameRequest (cstr "host")).length
    response_buffer := bufferOf [255] 0, response_buffer_len := 1, logged := 0 }

/-- Request records with a client identifier whose first value byte is 0. -/
def clientIdOpts : List DHCPOpt := [{ code := 61, args := [0, 1, 2, 3, 4, 5, 6] }]

/-- A well-formed transaction whose request carries `clientIdOpts`. -/
def clientIdTx : DHCPTransaction :=
  { tx_id := 0, xid := 0
    request_buffer := bufferOf (encodeOpts clientIdOpts ++ [255]) 0
    request_buffer_len := (encodeOpts clientIdOpts ++ [255]).length
    response_buffer := bufferOf [255] 0, response_buffer_len := 1, logged := 0 }

/-- Request records with a host name whose two value bytes, 255 and 254, are not
valid UTF-8. -/
def invalidNameOpts : List DHCPOpt := [{ code := 12, args := [255, 254] }]

/-- A well-formed transaction whose request carries `invalidNameOpts`. -/
def invalidNameTx : DHCPTransaction :=
  { tx_id := 0, xid := 0
    request_buffer := bufferOf (encodeOpts invalidNameOpts ++ [255]) 0
    request_buffer_len := (encodeOpts invalidNameOpts ++ [255]).length
    response_buffer := bufferOf [255] 0, response_buffer_len := 1, logged := 0 }

/-- Request records: a message type, a client identifier of type 1, an unknown code. -/
def sampleRequestOpts : List DHCPOpt :=
  [{ code := 53, args := [3] }, { code := 61, args := [1, 0, 17, 34, 51, 68, 85] },
    { code := 99, args := [7] }]

/-- Response records: a message type, a lease time, an unknown code. -/
def sampleResponseOpts : List DHCPOpt :=
  [{ code := 53, args := [5] }, { code := 51, args := [0, 0, 14, 16] },
    { code := 200, args := [] }]

/-- A well-formed transaction carrying the sample records in both directions. -/
def sampleTx : DHCPTransaction :=
  { tx_id := 4, xid := 305419896
    request_buffer := bufferOf (encodeOpts sampleRequestOpts ++ [255]) 0
    request_buffer_len := (encodeOpts sampleRequestOpts ++ [255]).length
    response_buffer := bufferOf (encodeOpts sampleResponseOpts ++ [255]) 0
    response_buffer_len := (encodeOpts sampleResponseOpts ++ [255]).length
    logged := 0 }

/-! ## Events and outcomes of the socket writer -/

/-- A `send` that failed with `EAGAIN` or `EWOULDBLOCK`. -/
def SysEvent.wouldBlock : SysEvent → Bool
  | SysEvent.send _ _ _ (SendResult.failed Errno.EAGAIN) => true
  | SysEvent.send _ _ _ (SendResult.failed Errno.EWOULDBLOCK) => true
  | _ => false

/-- The stream a `send` event used. -/
def SysEvent.sendHandle : SysEvent → Option Nat
  | SysEvent.send fp _ _ _ => some fp
  | _ => none

/-- Nothing follows a `send` that failed with would-block. -/
def EndsAtWouldBlock : List SysEvent → Prop
  | [] => True
  | ev :: rest => (ev.wouldBlock = true → rest = []) ∧ EndsAtWouldBlock rest

/-- The result `r` of a call started in the world `w`: it returns, nothing follows a
would-block `send` among its events, and after such a `send` the call returned -1,
counted one drop over `base` and kept the stream that `send` used. -/
def DropsAtWouldBlock (base : LogFileCtx) (w : World)
    (r : Option (Int × LogFileCtx × World)) : Prop :=
  ∃ ret ctx' w' evs, r = some (ret, ctx', w') ∧ w'.trace = w.trace ++ evs ∧
    EndsAtWouldBlock evs ∧
    ∀ ev ∈ evs, ev.wouldBlock = true →
      ret = -1 ∧ ctx'.dropped = base.dropped + 1 ∧ ctx'.fp = ev.sendHandle

/-- The result of a call counts the event as dropped exactly when it returns -1. -/
def Accounted (ctx : LogFileCtx) (r : Option (Int × LogFileCtx × World)) : Prop :=
  ∃ ret ctx' w', r = some (ret, ctx', w') ∧
    ((ret = 0 ∧ ctx'.dropped = ctx.dropped) ∨ (ret = -1 ∧ ctx'.dropped = ctx.dropped + 1))

/-- The calls a reconnection makes after a failed `send` on the stream `fp`: the stream is
closed, the clock is read, one connection is attempted. -/
def reconnectEvents (env : Env) (ctx : LogFileCtx) (w : World) (fp : Nat) : List SysEvent :=
  [SysEvent.fclose fp,
    SysEvent.gettimeofday (env.timeofday w.clocks).1 (env.timeofday w.clocks).2,
    SysEvent.openSocket ctx.filename ctx.sock_type (env.connectResult w.connects)]

/-- An environment in which the first `send` fails with `EPIPE` (errno 32), the second
is interrupted, the later ones succeed, and every connection attempt succeeds. -/
def flakyEnv : Env :=
  { sendResult := fun k =>
      if k = 0 then SendResult.failed (Errno.other 32)
      else if k = 1 then SendResult.failed Errno.EINTR else SendResult.sent 5
    connectResult := fun k => ConnectResult.connected (10 + k)
    timeofday := fun k => (100 + k, 0) }

/-- An environment in which every `send` would block. -/
def blockingEnv : Env :=
  { sendResult := fun _ => SendResult.failed Errno.EAGAIN
    connectResult := fun k => ConnectResult.connected (10 + k)
    timeofday := fun k => (100 + k, 0) }

/-- A socket sink connected on the stream 3. -/
def connectedCtx : LogFileCtx := { LogFileNewCtx with fp := some 3, is_sock := true }

/-- The world before any call. -/
def startWorld : World := { sends := 0, connects := 0, clocks := 0, trace := [] }

/-! ## Counting the rounds of an option loop -/

/-- The number of times the body of the loop `optionLoop` runs from the state `s` on: the
same tests and the same update of `offset` and `dhcp_opt`, with one counted for each
run of the body. -/
def optionLoopRounds (mem : Nat → Nat) (len : Nat) : Nat → OptCursor → Option Nat
  | 0, _ => none
  | fuel + 1, s =>
    if JsonDHCPOptEnd mem s.dhcp_opt then some 0
    else if len < s.offset then some 0
    else
      (optionLoopRounds mem len fuel
        { s with offset := (s.offset + optAdvance mem s.offset) % 2 ^ 32
                 dhcp_opt := s.offset }).map (fun k => k + 1)

/-! ## The spacing of connection attempts -/

/-- What a reader of the trace remembers: the time of the last connection attempt (if
any), the last reading of the clock in milliseconds, and whether a stream has been
closed since the last attempt. -/
structure AttemptScan where
  last : Option Nat
  clock : Nat
  closed : Bool
  deriving DecidableEq, Repr

/-- The reader's memory after one more event. -/
def AttemptScan.step (st : AttemptScan) : SysEvent → AttemptScan
  | SysEvent.gettimeofday tv_sec tv_usec => { st with clock := nowMsec (tv_sec, tv_usec) }
  | SysEvent.fclose _ => { st with closed := true }
  | SysEvent.openSocket _ _ _ => { st with last := some st.clock, closed := false }
  | SysEvent.send _ _ _ _ => st

/-- The reader's memory after a list of events. -/
def AttemptScan.run (st : AttemptScan) (evs : List SysEvent) : AttemptScan :=
  evs.foldl AttemptScan.step st

/-- Whether an event respects the spacing: a connection attempt is made at least
`minTime` milliseconds after the attempt before it; with `exemptClose`, an attempt
that follows the closing of a stream is not held to this. -/
def AttemptScan.allows (minTime : Nat) (exemptClose : Bool) (st : AttemptScan) :
    SysEvent → Prop
  | SysEvent.openSocket _ _ _ =>
    (exemptClose = true ∧ st.closed = true) ∨ ∀ t, st.last = some t → t + minTime ≤ st.clock
  | _ => True

/-- Every connection attempt among the events respects the spacing. -/
def SpacedAttempts (minTime : Nat) (exemptClose : Bool) : AttemptScan → List SysEvent → Prop
  | _, [] => True
  | st, ev :: evs =>
    AttemptScan.allows minTime exemptClose st ev ∧
      SpacedAttempts minTime exemptClose (st.step ev) evs

/-- The reader's memory before any event. -/
def AttemptScan.start : AttemptScan := { last := none, clock := 0, closed := false }

/-- The clock of the environment, in milliseconds, never goes back and never reads 0. -/
def ClockAdvances (env : Env) : Prop :=
  (∀ i j, i ≤ j → nowMsec (env.timeofday i) ≤ nowMsec (env.timeofday j)) ∧
    ∀ k, nowMsec (env.timeofday k) ≠ 0

/-- What links the sink and the world to the reader's memory between two calls: no stream
closed since the last attempt, and the time of the last attempt is in `reconn_timer`,
is not 0 and is not after any later reading of the clock. -/
def TimerTracks (env : Env) (ctx : LogFileCtx) (w : World) (st : AttemptScan) : Prop :=
  st.closed = false ∧
    ∀ t, st.last = some t →
      ctx.reconn_timer = t ∧ t ≠ 0 ∧ ∀ k, w.clocks ≤ k → t ≤ nowMsec (env.timeofday k)

/-- An environment in which the first `send` fails with errno 32 and the later ones
succeed, every connection attempt succeeds, and the clock gains one millisecond at each
of the first five readings. -/
def burstEnv : Env :=
  { sendResult := fun k => if k = 0 then SendResult.failed (Errno.other 32) else SendResult.sent 5
    connectResult := fun k => ConnectResult.connected (10 + k)
    timeofday := fun k => (100, 1000 * min k 5) }

/-- A socket sink that has no stream and has made no attempt yet. -/
def unconnectedCtx : LogFileCtx := { LogFileNewCtx with is_sock := true }

/-- The result `r` of a call started in the world `w` with the reader's memory `st`: it
returns, its events respect the spacing (an attempt after a close exempt), and the
sink it leaves is linked to the reader's memory after these events. -/
def KeepsSpacing (env : Env) (minTime : Nat) (st : AttemptScan) (w : World)
    (r : Option (Int × LogFileCtx × World)) : Prop :=
  ∃ ret ctx' w' evs, r = some (ret, ctx', w') ∧ w'.trace = w.trace ++ evs ∧
    SpacedAttempts minTime true st evs ∧ TimerTracks env ctx' w' (st.run evs)

/-! ## Regular files: opening, reopening and writing (util-logopenfile.c) -/

/-- `tolower` on a byte of a C string. -/
def tolower (c : Nat) : Nat := if 65 ≤ c ∧ c ≤ 90 then c + 32 else c

/-- `strcasecmp(a, b) == 0`. -/
def strcasecmpEq (a b : String) : Bool := (cstr a).map tolower == (cstr b).map tolower

/-- Modelled from the spec: `ConfValIsTrue` (conf.c) is not among the sources; a boolean
option such as `append` is true for "1", "yes", "true" and "on", whatever the case of
its letters. -/
def ConfValIsTrue (val : String) : Bool := ["1", "yes", "true", "on"].any (strcasecmpEq val)

/-- Modelled from the spec: `ConfValIsFalse` (conf.c) is not among the sources; a boolean
option is false for "0", "no", "false" and "off", whatever the case of its letters. -/
def ConfValIsFalse (val : String) : Bool := ["0", "no", "false", "off"].any (strcasecmpEq val)

/-- The outcome of one run of `SCLogOpenFileFp`: which of `SCLogFilenameFromPattern`,
`SCLogCreateDirectoryTree`, `fopen` failed, or the stream obtained. -/
inductive OpenFileResult where
  | patternFailed
  | mkdirFailed
  | fopenFailed
  | opened (fp : Nat)
  deriving DecidableEq, Repr

/-- The calls of the file writers and of the broker client, as recorded in the trace.
`fclose` carries the stream it was called on; `openFile` is one run
of `SCLogOpenFileFp` with its path, its append setting, the mode string this gives
`fopen`, and the permission bits. -/
inductive FileEvent where
  | fclose (fp : Nat)
  | openFile (path : String) (append_setting : String) (fopen_mode : String) (mode : Nat)
      (res : OpenFileResult)
  | time (now : Nat)
  | fwrite (fp : Nat) (buffer : List Nat) (ret : Nat)
  | fflush (fp : Nat)
  | rd_kafka_destroy (rk : Nat)
  | rd_kafka_new (conf : Nat) (res : Option Nat)
  deriving DecidableEq, Repr

/-- The oracles of the file side: the outcome of the k-th run of `SCLogOpenFileFp`,
whether the k-th `fwrite` writes its item, the k-th value of `time(NULL)`, and the
outcome of the k-th `rd_kafka_new`. -/
structure FileEnv where
  openResult : Nat → OpenFileResult
  fwriteOk : Nat → Bool
  time : Nat → Nat
  kafkaNew : Nat → Option Nat

/-- How many calls of each kind were made so far on the file side, and their trace. -/
structure FileWorld where
  opens : Nat
  writes : Nat
  times : Nat
  kafkaNews : Nat
  trace : List FileEvent
  deriving DecidableEq, Repr

/-- `SCLogOpenFileFp`: the file name is made from the pattern, the directories are
created, the file is opened with "a" when the append setting is true and with "w"
otherwise; the stream on success, `NULL` on any failure. (The `chmod` that follows a
successful `fopen` does not change the result.) -/
def SCLogOpenFileFp (fenv : FileEnv) (path append_setting : String) (mode : Nat)
    (fw : FileWorld) : Option Nat × FileWorld :=
  let res := fenv.openResult fw.opens
  let fw1 : FileWorld :=
    { fw with opens := fw.opens + 1
              trace := fw.trace ++
                [FileEvent.openFile path append_setting
                  (if ConfValIsTrue append_setting then "a" else "w") mode res] }
  match res with
  | OpenFileResult.opened fp => (some fp, fw1)
  | _ => (none, fw1)

/-- `SCConfLogReopen`: nothing for a sink that is not a regular file, -1 without a file
name; otherwise `fclose(log_ctx->fp)` and `SCLogOpenFileFp` on the file name with the
append setting "yes", -1 when this gives no stream. The pointer is not tested before
`fclose`: on a sink without a stream the call is `fclose(NULL)`, whose behaviour is
undefined (the C library dereferences the pointer and the process dies); the result
is then `none`, the call does not return. -/
def SCConfLogReopen (fenv : FileEnv) (log_ctx : LogFileCtx) (fw : FileWorld) :
    Option (Int × LogFileCtx × FileWorld) :=
  if log_ctx.is_regular = false then some (0, log_ctx, fw)
  else
    match log_ctx.filename with
    | none => some (-1, log_ctx, fw)
    | some filename =>
      match log_ctx.fp with
      | none => none
      | some fp =>
        let fw1 : FileWorld := { fw with trace := fw.trace ++ [FileEvent.fclose fp] }
        let r := SCLogOpenFileFp fenv filename "yes" log_ctx.filemode fw1
        some (if r.1 = none then -1 else 0, { log_ctx with fp := r.1 }, r.2)

/-- The value of `fwrite(buffer, buffer_len, 1, fp)`: the number of items written, which is
1, or 0 on an error and for an item of size 0. -/
def fwriteRet (ok : Bool) (buffer_len : Nat) : Nat :=
  if buffer_len = 0 then 0 else if ok then 1 else 0

/-- The first block of the file part of `SCLogFileWrite`: when the rotation flag is set it
is cleared and `SCConfLogReopen` is called, its value ignored; `none` when that call
does not return. -/
def rotateOnFlag (fenv : FileEnv) (log_ctx : LogFileCtx) (fw : FileWorld) :
    Option (LogFileCtx × FileWorld) :=
  if log_ctx.rotation_flag ≠ 0 then
    match SCConfLogReopen fenv { log_ctx with rotation_flag := 0 } fw with
    | none => none
    | some r => some r.2
  else some (log_ctx, fw)

/-- The second block of the file part of `SCLogFileWrite`, with the value of
`LOGFILE_ROTATE_INTERVAL` as a parameter: for a sink with this flag the time is read,
and when the rotation time has come `SCConfLogReopen` is called, its value ignored,
and the rotation time is put one interval after now; `none` when that call does not
return. -/
def rotateOnInterval (fenv : FileEnv) (LOGFILE_ROTATE_INTERVAL : Nat) (log_ctx : LogFileCtx)
    (fw : FileWorld) : Option (LogFileCtx × FileWorld) :=
  if log_ctx.flags &&& LOGFILE_ROTATE_INTERVAL ≠ 0 then
    let now := fenv.time fw.times
    let fw1 : FileWorld :=
      { fw with times := fw.times + 1, trace := fw.trace ++ [FileEvent.time now] }
    if now ≥ log_ctx.rotate_time then
      match SCConfLogReopen fenv log_ctx fw1 with
      | none => none
      | some r => some ({ r.2.1 with rotate_time := now + r.2.1.rotate_interval }, r.2.2)
    else some (log_ctx, fw1)
  else some (log_ctx, fw)

/-- The part of `SCLogFileWrite` for a sink that is not a socket: the reopening on the
rotation flag, the reopening when the rotation time has come, then `fwrite` and
`fflush` when there is a stream; the value returned is that of `fwrite`, and 0 without
a stream; `none` when a reopening does not return. -/
def SCLogFileWrite_file (fenv : FileEnv) (LOGFILE_ROTATE_INTERVAL : Nat) (buffer : List Nat)
    (log_ctx : LogFileCtx) (fw : FileWorld) : Option (Int × LogFileCtx × FileWorld) :=
  match rotateOnFlag fenv log_ctx fw with
  | none => none
  | some r1 =>
    match rotateOnInterval fenv LOGFILE_ROTATE_INTERVAL r1.1 r1.2 with
    | none => none
    | some r2 =>
      match r2.1.fp with
      | some fp =>
        let ret := fwriteRet (fenv.fwriteOk r2.2.writes) buffer.length
        some ((ret : Int), r2.1,
          { r2.2 with writes := r2.2.writes + 1
                      trace := r2.2.trace ++
                        [FileEvent.fwrite fp buffer ret, FileEvent.fflush fp] })
      | none => some (0, r2.1, r2.2)

/-- `SCLogFileWrite` (under the mutex of the sink): `SCLogFileWriteSocket` for a socket,
the file part otherwise; the value returned is that of the part taken. The result is
`none` when the socket part runs out of fuel or the file part does not return. -/
def SCLogFileWrite (env : Env) (fenv : FileEnv)
    (LOGFILE_RECONN_MIN_TIME LOGFILE_ROTATE_INTERVAL : Nat) (fuel : Nat) (buffer : List Nat)
    (log_ctx : LogFileCtx) (w : World) (fw : FileWorld) :
    Option (Int × LogFileCtx × World × FileWorld) :=
  if log_ctx.is_sock = true then
    match SCLogFileWriteSocket env LOGFILE_RECONN_MIN_TIME fuel buffer log_ctx w with
    | none => none
    | some r => some (r.1, r.2.1, r.2.2, fw)
  else
    match SCLogFileWrite_file fenv LOGFILE_ROTATE_INTERVAL buffer log_ctx fw with
    | none => none
    | some r => some (r.1, r.2.1, w, r.2.2)

/-! ## `LogFileWrite` and the staging buffer -/

/-- A `MemBuffer`: the bytes written so far (`MEMBUFFER_OFFSET` is their number) and the
size of the storage. -/
structure MemBuffer where
  buffer : List Nat
  size : Nat
  deriving DecidableEq, Repr

/-- `MEMBUFFER_OFFSET`. -/
def MEMBUFFER_OFFSET (mb : MemBuffer) : Nat := mb.buffer.length

/-- Modelled from the spec: the macro `MemBufferWriteString` (util-buffer.h) is not among
the sources; it is the `snprintf` of the string into the free space of the buffer: the
string is appended when it fits together with the terminating NUL, and the content is
cut at `size - 1` bytes otherwise. -/
def memBufferWriteString (dst : MemBuffer) (s : List Nat) : MemBuffer :=
  if dst.buffer.length + s.length ≥ dst.size then
    { dst with buffer := (dst.buffer ++ s).take (dst.size - 1) }
  else { dst with buffer := dst.buffer ++ s }

/-- `LogFileWrite`, with the macro `MemBufferWriteString` as a parameter, over a sink
state `σ` on which act the four ways out: `syslog` with the level and the message, the
`Write` function of the context with the bytes and their number, `LogFileWriteRedis`
and `LogFileWriteKafka` likewise. The value returned, the buffer and the sink state
after the call. -/
def LogFileWrite {σ : Type} (MemBufferWriteString : MemBuffer → List Nat → MemBuffer)
    (syslog : Nat → List Nat → σ → σ) (Write : List Nat → Nat → σ → σ)
    (LogFileWriteRedis LogFileWriteKafka : List Nat → Nat → σ → σ) (file_ctx : LogFileCtx)
    (buffer : MemBuffer) (s : σ) : Int × MemBuffer × σ :=
  if file_ctx.type = LogFileType.LOGFILE_TYPE_SYSLOG then
    (0, buffer, syslog file_ctx.syslog_level buffer.buffer s)
  else if file_ctx.type = LogFileType.LOGFILE_TYPE_FILE ∨
      file_ctx.type = LogFileType.LOGFILE_TYPE_UNIX_DGRAM ∨
      file_ctx.type = LogFileType.LOGFILE_TYPE_UNIX_STREAM then
    let b := MemBufferWriteString buffer [10]
    (0, b, Write b.buffer (MEMBUFFER_OFFSET b) s)
  else if file_ctx.type = LogFileType.LOGFILE_TYPE_REDIS then
    (0, buffer, LogFileWriteRedis buffer.buffer (MEMBUFFER_OFFSET buffer) s)
  else if file_ctx.type = LogFileType.LOGFILE_TYPE_KAFKA then
    (0, buffer, LogFileWriteKafka buffer.buffer (MEMBUFFER_OFFSET buffer) s)
  else (0, buffer, s)

/-! ## The broker client: `SCConfLogReopenKafka` -/

/-- `SCConfLogReopenKafka`: the handle, if any, is destroyed; -1 when `tried` is not before
`time(NULL)`; otherwise a new handle is created, -1 when this fails, and on success
the handle is stored and `tried` set to 0. -/
def SCConfLogReopenKafka (fenv : FileEnv) (log_ctx : LogFileCtx) (fw : FileWorld) :
    Int × LogFileCtx × FileWorld :=
  let r1 : LogFileCtx × FileWorld :=
    match log_ctx.kafka with
    | some rk =>
      ({ log_ctx with kafka := none },
        { fw with trace := fw.trace ++ [FileEvent.rd_kafka_destroy rk] })
    | none => (log_ctx, fw)
  let now := fenv.time r1.2.times
  let fw2 : FileWorld :=
    { r1.2 with times := r1.2.times + 1, trace := r1.2.trace ++ [FileEvent.time now] }
  if r1.1.kafka_setup.tried ≥ now then (-1, r1.1, fw2)
  else
    let res := fenv.kafkaNew fw2.kafkaNews
    let fw3 : FileWorld :=
      { fw2 with kafkaNews := fw2.kafkaNews + 1
                 trace := fw2.trace ++ [FileEvent.rd_kafka_new r1.1.kafka_setup.conf res] }
    match res with
    | none => (-1, r1.1, fw3)
    | some rk =>
      (0, { r1.1 with kafka := some rk, kafka_setup := { r1.1.kafka_setup with tried := 0 } },
        fw3)

/-- A sequence of `SCConfLogReopenKafka` calls on one sink: the values returned, in
order, and the final state. -/
def kafkaReopens (fenv : FileEnv) : Nat → LogFileCtx → FileWorld →
    List Int × LogFileCtx × FileWorld
  | 0, ctx, fw => ([], ctx, fw)
  | n + 1, ctx, fw =>
    let r := SCConfLogReopenKafka fenv ctx fw
    let rs := kafkaReopens fenv n r.2.1 r.2.2
    (r.1 :: rs.1, rs.2.1, rs.2.2)

/-! ## `SCConfLogOpenGeneric` -/

/-- The child node `json` of an output section: its four options, absent when not set. -/
structure JsonConf where
  preserve_order : Option String
  compact : Option String
  ensure_ascii : Option String
  escape_slash : Option String
  deriving DecidableEq, Repr

/-- The output section `SCConfLogOpenGeneric` reads: its name and the values of the
children it looks up, absent when not set. -/
structure ConfNode where
  name : String
  filename : Option String
  rotate_interval : Option String
  filetype : Option String
  filemode : Option String
  append : Option String
  json : Option JsonConf
  deriving DecidableEq, Repr

/-- What `SCConfLogOpenGeneric` takes from outside the sources: the log directory,
`PathIsAbsolute`, the constants of the headers, the helpers `SCGetSecondsUntil`,
`SCParseTimeSizeString` and `ByteExtractStringUint32` (in base 8: the value, when the
call returns more than 0), whether `SCStrdup` returns a copy, the run mode, and the
outcomes of `SCLogOpenPcieFp` and `SCConfLogOpenRedis`. -/
structure OpenEnv where
  log_dir : String
  PathIsAbsolute : String → Bool
  PATH_MAX : Nat
  DEFAULT_LOG_FILETYPE : String
  DEFAULT_LOG_MODE_APPEND : String
  SCGetSecondsUntil : String → Nat → Nat
  SCParseTimeSizeString : String → Nat
  ByteExtractStringUint32 : String → Option Nat
  SCStrdup : Bool
  run_mode_offline : Bool
  SOCK_STREAM : Nat
  SOCK_DGRAM : Nat
  MSG_DONTWAIT : Nat
  SCLogOpenPcieFp : Option Nat
  SCConfLogOpenRedis : Int

/-- How a call of `SCConfLogOpenGeneric` ends: the process exits, or the call returns a
value and leaves the context (absent when the pointer was `NULL`) and the worlds. -/
inductive OpenOutcome where
  | exited
  | returned (ret : Int) (log_ctx : Option LogFileCtx) (w : World) (fw : FileWorld)
  deriving DecidableEq, Repr

/-- The path `log_path`: the file name when it is absolute, otherwise the log directory,
a slash and the file name; what `snprintf` keeps of it in `PATH_MAX` bytes. -/
def resolveLogPath (oenv : OpenEnv) (filename : String) : String :=
  if oenv.PathIsAbsolute filename then String.mk (filename.toList.take (oenv.PATH_MAX - 1))
  else String.mk ((oenv.log_dir ++ "/" ++ filename).toList.take (oenv.PATH_MAX - 1))

/-- The block "Rotate log file based on time" of `SCConfLogOpenGeneric`, with the value of
`LOGFILE_ROTATE_INTERVAL` as a parameter; `none` when it calls `exit`. -/
def applyRotateInterval (fenv : FileEnv) (oenv : OpenEnv) (LOGFILE_ROTATE_INTERVAL : Nat)
    (rotate_int : Option String) (log_ctx : LogFileCtx) (fw : FileWorld) :
    Option (LogFileCtx × FileWorld) :=
  match rotate_int with
  | none => some (log_ctx, fw)
  | some rotate_int =>
    let now := fenv.time fw.times
    let fw1 : FileWorld :=
      { fw with times := fw.times + 1, trace := fw.trace ++ [FileEvent.time now] }
    let c1 := { log_ctx with flags := log_ctx.flags ||| LOGFILE_ROTATE_INTERVAL }
    if rotate_int = "minute" then
      some ({ c1 with rotate_time := now + oenv.SCGetSecondsUntil rotate_int now
                      rotate_interval := 60 }, fw1)
    else if rotate_int = "hour" then
      some ({ c1 with rotate_time := now + oenv.SCGetSecondsUntil rotate_int now
                      rotate_interval := 3600 }, fw1)
    else if rotate_int = "day" then
      some ({ c1 with rotate_time := now + oenv.SCGetSecondsUntil rotate_int now
                      rotate_interval := 86400 }, fw1)
    else
      let interval := oenv.SCParseTimeSizeString rotate_int
      if interval = 0 then none
      else some ({ c1 with rotate_interval := interval, rotate_time := now + interval }, fw1)

/-- Whether the block "JSON flags" clears a flag: the child `json` is there, it has the
option, and `ConfValIsFalse` holds of its value. -/
def jsonFlagCleared (json : Option JsonConf) (option : JsonConf → Option String) : Bool :=
  match json with
  | none => false
  | some j =>
    match option j with
    | none => false
    | some v => ConfValIsFalse v

/-- The block "JSON flags": the four flags set, then each cleared as `jsonFlagCleared`
says. -/
def applyJsonFlags (json : Option JsonConf) : JsonFlags :=
  { JSON_PRESERVE_ORDER := !jsonFlagCleared json JsonConf.preserve_order
    JSON_COMPACT := !jsonFlagCleared json JsonConf.compact
    JSON_ENSURE_ASCII := !jsonFlagCleared json JsonConf.ensure_ascii
    JSON_ESCAPE_SLASH := !jsonFlagCleared json JsonConf.escape_slash }

/-- The end of `SCConfLogOpenGeneric`, after the branches on the file type: the path is
copied into `filename` (-1 when `SCStrdup` fails), a socket in live mode gets
`MSG_DONTWAIT`, and the call returns 0. -/
def finishOpen (oenv : OpenEnv) (log_path : String) (log_ctx : LogFileCtx) (w : World)
    (fw : FileWorld) : OpenOutcome :=
  if oenv.SCStrdup = false then
    OpenOutcome.returned (-1) (some { log_ctx with filename := none }) w fw
  else
    let c1 := { log_ctx with filename := some log_path }
    let c2 :=
      if c1.is_sock = true ∧ oenv.run_mode_offline = false then
        { c1 with send_flags := c1.send_flags ||| oenv.MSG_DONTWAIT }
      else c1
    OpenOutcome.returned 0 (some c2) w fw

/-- `SCConfLogOpenGeneric`, in the build with Unix sockets, the JSON library and redis.
(The registration of the rotation flag, for a regular file opened with `rotate` set,
leaves the context as it is.) -/
def SCConfLogOpenGeneric (env : Env) (fenv : FileEnv) (oenv : OpenEnv)
    (LOGFILE_ROTATE_INTERVAL : Nat) (conf : Option ConfNode) (log_ctx : Option LogFileCtx)
    (default_filename : Option String) (rotate : Int) (w : World) (fw : FileWorld) :
    OpenOutcome :=
  match conf, log_ctx, default_filename with
  | some conf, some ctx, some default_filename =>
    if ctx.fp ≠ none then OpenOutcome.returned (-1) (some ctx) w fw
    else
      let filename := conf.filename.getD default_filename
      let log_path := resolveLogPath oenv filename
      match applyRotateInterval fenv oenv LOGFILE_ROTATE_INTERVAL conf.rotate_interval ctx
        fw with
      | none => OpenOutcome.exited
      | some (c1, fw1) =>
        let filetype := conf.filetype.getD oenv.DEFAULT_LOG_FILETYPE
        let c2 :=
          match conf.filemode.bind oenv.ByteExtractStringUint32 with
          | some mode => { c1 with filemode := mode }
          | none => c1
        let append := conf.append.getD oenv.DEFAULT_LOG_MODE_APPEND
        let c3 := { c2 with json_flags := applyJsonFlags conf.json }
        if strcasecmpEq filetype "unix_stream" then
          let r := SCLogOpenUnixSocketFp env (some log_path) oenv.SOCK_STREAM w
          finishOpen oenv log_path
            { c3 with is_sock := true, sock_type := oenv.SOCK_STREAM, fp := r.1 } r.2 fw1
        else if strcasecmpEq filetype "unix_dgram" then
          let r := SCLogOpenUnixSocketFp env (some log_path) oenv.SOCK_DGRAM w
          finishOpen oenv log_path
            { c3 with is_sock := true, sock_type := oenv.SOCK_DGRAM, fp := r.1 } r.2 fw1
        else if strcasecmpEq filetype oenv.DEFAULT_LOG_FILETYPE ∨
            strcasecmpEq filetype "file" then
          let r := SCLogOpenFileFp fenv log_path append c3.filemode fw1
          match r.1 with
          | none => OpenOutcome.returned (-1) (some c3) w r.2
          | some fp =>
            let _registered := rotate
            finishOpen oenv log_path { c3 with fp := some fp, is_regular := true } w r.2
        else if strcasecmpEq filetype "pcie" then
          match oenv.SCLogOpenPcieFp with
          | none => OpenOutcome.returned (-1) (some c3) w fw1
          | some p => finishOpen oenv log_path { c3 with pcie_fp := some p } w fw1
        else if strcasecmpEq filetype "redis" then
          if oenv.SCConfLogOpenRedis < 0 then OpenOutcome.returned (-1) (some c3) w fw1
          else finishOpen oenv log_path { c3 with type := LogFileType.LOGFILE_TYPE_REDIS } w fw1
        else finishOpen oenv log_path c3 w fw1
  | _, _, _ => OpenOutcome.returned (-1) log_ctx w fw

/-! ## Inputs and events of the file side -/

/-- The stream a run of `SCLogOpenFileFp` gives: that of `opened`, none otherwise. -/
def OpenFileResult.stream : OpenFileResult → Option Nat
  | OpenFileResult.opened fp => some fp
  | _ => none

/-- Whether an event is a call of `fwrite`. -/
def FileEvent.isFwrite : FileEvent → Bool
  | FileEvent.fwrite _ _ _ => true
  | _ => false

/-- A file side on which everything succeeds: the k-th opening gives the stream 20 + k,
every `fwrite` writes its item, the time is 1000 and the k-th `rd_kafka_new` gives the
handle 30 + k. -/
def fileEnv : FileEnv :=
  { openResult := fun k => OpenFileResult.opened (20 + k), fwriteOk := fun _ => true
    time := fun _ => 1000, kafkaNew := fun k => some (30 + k) }

/-- The file side of `fileEnv` on which no file can be opened. -/
def noOpenEnv : FileEnv := { fileEnv with openResult := fun _ => OpenFileResult.fopenFailed }

/-- No call made yet on the file side. -/
def startFileWorld : FileWorld := { opens := 0, writes := 0, times := 0, kafkaNews := 0, trace := [] }

/-- A regular-file sink with the stream 5, opened on its file name. -/
def regularCtx : LogFileCtx :=
  { LogFileNewCtx with fp := some 5, is_regular := true
                       filename := some "/var/log/suricata/dhcp.json" }

/-- The sink `regularCtx` with its rotation flag set. -/
def rotatingCtx : LogFileCtx := { regularCtx with rotation_flag := 1 }

/-- The sink `regularCtx` after a reopening that failed: no stream, and `dropped` at 4. -/
def handlelessCtx : LogFileCtx := { regularCtx with fp := none, dropped := 4 }

/-- The sink `handlelessCtx` with its rotation flag set. -/
def rotatingHandlelessCtx : LogFileCtx := { handlelessCtx with rotation_flag := 1 }

/-- An environment in which every `send` delivers its three bytes. -/
def deliveringEnv : Env :=
  { sendResult := fun _ => SendResult.sent 3
    connectResult := fun k => ConnectResult.connected (10 + k)
    timeofday := fun _ => (100, 0) }

/-- An environment in which no connection can be made. -/
def refusingEnv : Env :=
  { deliveringEnv with connectResult := fun _ => ConnectResult.connectFailed }

/-- A broker sink as `SCConfLogOpenKafka` leaves it: a client handle, and `tried` at 0. -/
def kafkaCtx : LogFileCtx :=
  { LogFileNewCtx with
      type := LogFileType.LOGFILE_TYPE_KAFKA, kafka := some 7
      kafka_setup :=
        { brokers := some "127.0.0.1:9092", topic := some 1, conf := 2, loglevel := 6
          partition := 0, tried := 0 } }

/-- The surroundings of `SCConfLogOpenGeneric` in the examples: relative names go under
/var/log/suricata, the default file type is "regular", the only time interval understood is "30s",
and the allocation succeeds. -/
def openEnv : OpenEnv :=
  { log_dir := "/var/log/suricata", PathIsAbsolute := fun s => s.toList.head? == some '/'
    PATH_MAX := 4096, DEFAULT_LOG_FILETYPE := "regular", DEFAULT_LOG_MODE_APPEND := "yes"
    SCGetSecondsUntil := fun _ now => 60 - now % 60
    SCParseTimeSizeString := fun s => if s = "30s" then 30 else 0
    ByteExtractStringUint32 := fun _ => none
    SCStrdup := true, run_mode_offline := false
    SOCK_STREAM := 1, SOCK_DGRAM := 2, MSG_DONTWAIT := 64
    SCLogOpenPcieFp := none, SCConfLogOpenRedis := -1 }

/-- An output section asking for a stream socket, in mixed case. -/
def streamConf : ConfNode :=
  { name := "dhcp-json-log", filename := some "dhcp.sock", rotate_interval := none
    filetype := some "Unix_Stream", filemode := none, append := none, json := none }

/-- An output section with a file type that is none of the supported kinds. -/
def bogusConf : ConfNode := { streamConf with filetype := some "bogus", filename := none }

/-- The file side of `fileEnv` on which no client handle can be created. -/
def noBrokerEnv : FileEnv := { fileEnv with kafkaNew := fun _ => none }

/-! ## Records shorter than the values read from them -/

/-- A transaction whose request is a message-type record of declared length 0 followed
by the terminator. -/
def shortTypeTx : DHCPTransaction :=
  { tx_id := 0, xid := 0
    request_buffer := bufferOf [53, 0, 255] 0, request_buffer_len := 3
    response_buffer := bufferOf [255] 0, response_buffer_len := 1, logged := 0 }

/-- A transaction whose request is a client-id record of declared length 1, the hardware
type 1 alone, followed by the terminator. -/
def shortClientIdTx : DHCPTransaction :=
  { tx_id := 0, xid := 0
    request_buffer := bufferOf [61, 1, 1, 255] 0, request_buffer_len := 4
    response_buffer := bufferOf [255] 0, response_buffer_len := 1, logged := 0 }

/-- A transaction whose response is a lease-time record of declared length 2 followed by
the terminator. -/
def shortLeaseTx : DHCPTransaction :=
  { tx_id := 0, xid := 0
    request_buffer := bufferOf [255] 0, request_buffer_len := 1
    response_buffer := bufferOf [51, 2, 0, 10, 255] 0, response_buffer_len := 5, logged := 0 }

/-- A transaction whose response carries the lease time `0xffffffff`, the infinite lease,
and the renewal time `0x80000000`. -/
def infiniteLeaseTx : DHCPTransaction :=
  { tx_id := 0, xid := 0
    request_buffer := bufferOf [255] 0, request_buffer_len := 1
    response_buffer := bufferOf [51, 4, 255, 255, 255, 255, 58, 4, 128, 0, 0, 0, 255] 0
    response_buffer_len := 13, logged := 0 }

/-- The unsigned big-endian value of four bytes. -/
def bigEndian32 (b0 b1 b2 b3 : Nat) : Nat := b0 * 2 ^ 24 + b1 * 2 ^ 16 + b2 * 2 ^ 8 + b3

/-- An environment in which the first `send` is interrupted and the later ones deliver
two bytes. -/
def interruptedEnv : Env :=
  { sendResult := fun k => if k = 0 then SendResult.failed Errno.EINTR else SendResult.sent 2
    connectResult := fun k => ConnectResult.connected (10 + k)
    timeofday := fun _ => (100, 0) }

/-! ## Rotation on a time interval -/

/-- A regular-file sink with a file name on which the interval flag is set and the
interval is positive. -/
def RotatesOnInterval (LOGFILE_ROTATE_INTERVAL : Nat) (c : LogFileCtx) : Prop :=
  c.is_sock = false ∧ c.is_regular = true ∧ c.filename ≠ none ∧
    c.flags &&& LOGFILE_ROTATE_INTERVAL ≠ 0 ∧ 0 < c.rotate_interval

/-- The value `SCConfLogOpenGeneric` gives `rotate_interval` for a `rotate-interval`
setting. -/
def intervalOf (oenv : OpenEnv) (rotate_int : String) : Nat :=
  if rotate_int = "minute" then 60
  else if rotate_int = "hour" then 3600
  else if rotate_int = "day" then 86400
  else oenv.SCParseTimeSizeString rotate_int

/-- An output section for a regular file rotated every 30 seconds. -/
def rotatingConf : ConfNode :=
  { name := "dhcp-json-log", filename := none, rotate_interval := some "30s"
    filetype := none, filemode := none, append := none, json := none }

/-- A file side on which only the first opening gives a stream, 20, every later one
failing in `fopen`, and the k-th reading of the time gives 1000 + 40 k seconds. -/
def lostFileEnv : FileEnv :=
  { fileEnv with
      openResult := fun k => if k = 0 then OpenFileResult.opened 20 else OpenFileResult.fopenFailed
      time := fun k => 1000 + 40 * k }

/-- The sink `SCConfLogOpenGeneric` builds from `rotatingConf` at the time 1000: the
stream 20, an interval of 30 seconds and the first rotation at 1030. -/
def intervalCtx : LogFileCtx :=
  { LogFileNewCtx with
      fp := some 20, is_regular := true, filename := some "/var/log/suricata/dhcp.json"
      flags := 4, rotate_interval := 30, rotate_time := 1030
      json_flags :=
        { JSON_PRESERVE_ORDER := true, JSON_COMPACT := true, JSON_ENSURE_ASCII := true,
          JSON_ESCAPE_SLASH := true } }

/-! ## The broker client: `SCConfLogOpenKafka` -/

/-- The broker section `SCConfLogOpenKafka` reads: the values of the children it looks
up, absent when not set. -/
structure KafkaNode where
  broker_list : Option String
  compression : Option String
  topic : Option String
  max_retries : Option String
  backoff_ms : Option String
  buffer_max_messages : Option String
  partition : Option String
  log_level : Option String
  deriving DecidableEq, Repr

/-- Modelled from the spec: `ConfGetChildValueInt` (conf.c) is not among the sources; it
stores the integer value of the named child in the variable and returns 1, and
returns 0 with the variable left as it was when the node has no such child or the
value is no integer. Here the value stored, if any; `strtoimax` is the conversion of
a string to an integer. -/
def ConfGetChildValueInt (strtoimax : String → Option Int) (child : Option String) :
    Option Int :=
  child.bind strtoimax

/-- What `SCConfLogOpenKafka` takes from outside the sources: the conversion of a string
to an integer, the constant `RD_KAFKA_PARTITION_UA`, whether `SCStrdup` returns a
copy, and the outcomes of `rd_kafka_conf_new`, `rd_kafka_brokers_add`,
`rd_kafka_topic_conf_new` and `rd_kafka_topic_new`. -/
structure KafkaEnv where
  strtoimax : String → Option Int
  RD_KAFKA_PARTITION_UA : Int
  SCStrdup : Bool
  rd_kafka_conf_new : Option Nat
  rd_kafka_brokers_add : Nat
  rd_kafka_topic_conf_new : Option Nat
  rd_kafka_topic_new : Option Nat

/-- The local variables of `SCConfLogOpenKafka` after the lookups in the section and
the test `partition < 0`. -/
structure KafkaSettings where
  brokers : String
  compression : String
  topic : String
  max_retries : Int
  backoff_ms : Int
  buffer_max_messages : Int
  loglevel : Int
  partition : Int
  deriving DecidableEq, Repr

/-- The lookups of `SCConfLogOpenKafka`: each string takes the value of its child or its
default; each number starts at its initial value (the default for all but `partition`,
which starts at 0) and takes the value `ConfGetChildValueInt` stores, if any; a
negative `partition` is then replaced by `RD_KAFKA_PARTITION_UA`. -/
def kafkaSettings (kenv : KafkaEnv) (kafka_node : KafkaNode) : KafkaSettings :=
  let partition := (ConfGetChildValueInt kenv.strtoimax kafka_node.partition).getD 0
  { brokers := kafka_node.broker_list.getD "127.0.0.1:9092"
    compression := kafka_node.compression.getD "snappy"
    topic := kafka_node.topic.getD "suricata"
    max_retries := (ConfGetChildValueInt kenv.strtoimax kafka_node.max_retries).getD 1
    backoff_ms := (ConfGetChildValueInt kenv.strtoimax kafka_node.backoff_ms).getD 10
    buffer_max_messages :=
      (ConfGetChildValueInt kenv.strtoimax kafka_node.buffer_max_messages).getD 100000
    loglevel := (ConfGetChildValueInt kenv.strtoimax kafka_node.log_level).getD 6
    partition := if partition < 0 then kenv.RD_KAFKA_PARTITION_UA else partition }

/-- How a call of `SCConfLogOpenKafka` ends: the process exits, or the call returns a
value and leaves the context and the file side. -/
inductive KafkaOpenOutcome where
  | exited
  | returned (ret : Int) (log_ctx : LogFileCtx) (fw : FileWorld)
  deriving DecidableEq, Repr

/-- `SCConfLogOpenKafka`: -1 without a section; otherwise the settings are resolved, the
broker list is copied, the client configuration, the client handle, the brokers and
the topic are set up, each failure ending the process, and the context receives the
handle, the topic, the configuration, the log level, the partition and `tried = 0`.
(The values given to `KafkaConfSetup` only configure the library.) -/
def SCConfLogOpenKafka (fenv : FileEnv) (kenv : KafkaEnv) (kafka_node : Option KafkaNode)
    (log_ctx : LogFileCtx) (fw : FileWorld) : KafkaOpenOutcome :=
  match kafka_node with
  | none => KafkaOpenOutcome.returned (-1) log_ctx fw
  | some node =>
    let s := kafkaSettings kenv node
    if kenv.SCStrdup = false then KafkaOpenOutcome.exited
    else
      match kenv.rd_kafka_conf_new with
      | none => KafkaOpenOutcome.exited
      | some conf =>
        let res := fenv.kafkaNew fw.kafkaNews
        let fw1 : FileWorld :=
          { fw with kafkaNews := fw.kafkaNews + 1
                    trace := fw.trace ++ [FileEvent.rd_kafka_new conf res] }
        match res with
        | none => KafkaOpenOutcome.exited
        | some rk =>
          if kenv.rd_kafka_brokers_add = 0 then KafkaOpenOutcome.exited
          else
            match kenv.rd_kafka_topic_conf_new with
            | none => KafkaOpenOutcome.exited
            | some _ =>
              match kenv.rd_kafka_topic_new with
              | none => KafkaOpenOutcome.exited
              | some rkt =>
                KafkaOpenOutcome.returned 0
                  { log_ctx with
                      kafka := some rk
                      kafka_setup :=
                        { brokers := some s.brokers, topic := some rkt, conf := conf
                          loglevel := s.loglevel, partition := s.partition, tried := 0 } }
                  fw1

/-- The library calls of `SCConfLogOpenKafka` all succeeding, `RD_KAFKA_PARTITION_UA`
at -1, and a conversion that knows the numbers "3" and "-5". -/
def kafkaEnv : KafkaEnv :=
  { strtoimax := fun s => if s = "3" then some 3 else if s = "-5" then some (-5) else none
    RD_KAFKA_PARTITION_UA := -1, SCStrdup := true, rd_kafka_conf_new := some 2
    rd_kafka_brokers_add := 1, rd_kafka_topic_conf_new := some 8
    rd_kafka_topic_new := some 9 }

/-- A broker section with a topic and nothing else: no `partition`. -/
def topicOnlyNode : KafkaNode :=
  { broker_list := none, compression := none, topic := some "dhcp", max_retries := none
    backoff_ms := none, buffer_max_messages := none, partition := none, log_level := none }

/-! ## The option loops: unfolding and termination -/

theorem optionLoop_end (fold : (Nat → Nat) → Nat → JsonObject → JsonObject × List Nat)
    (mem : Nat → Nat) (len fuel : Nat) (s : OptCursor)
    (h : JsonDHCPOptEnd mem s.dhcp_opt = true) :
    optionLoop fold mem len (fuel + 1) s = some { s with reads := s.reads ++ [s.dhcp_opt] } := by
  simp [optionLoop, h]

theorem optionLoop_past (fold : (Nat → Nat) → Nat → JsonObject → JsonObject × List Nat)
    (mem : Nat → Nat) (len fuel : Nat) (s : OptCursor)
    (h : JsonDHCPOptEnd mem s.dhcp_opt = false) (h2 : len < s.offset) :
    optionLoop fold mem len (fuel + 1) s = some { s with reads := s.reads ++ [s.dhcp_opt] } := by
  simp [optionLoop, h, h2]

theorem optionLoop_step (fold : (Nat → Nat) → Nat → JsonObject → JsonObject × List Nat)
    (mem : Nat → Nat) (len fuel : Nat) (s : OptCursor)
    (h : JsonDHCPOptEnd mem s.dhcp_opt = false) (h2 : s.offset ≤ len) :
    optionLoop fold mem len (fuel + 1) s =
      optionLoop fold mem len fuel
        { offset := (s.offset + optAdvance mem s.offset) % 2 ^ 32
          dhcp_opt := s.offset
          js := (fold mem s.offset s.js).1
          reads := s.reads ++ [s.dhcp_opt] ++ (fold mem s.offset s.js).2 ++
            optAdvanceReads mem s.offset } := by
  simp [optionLoop, h, Nat.not_lt.mpr h2]

theorem optionLoop_next (fold : (Nat → Nat) → Nat → JsonObject → JsonObject × List Nat)
    (mem : Nat → Nat) (len fuel : Nat) (o c : Nat) (js : JsonObject)
    (rd : List Nat) (adv : Nat) (h : JsonDHCPOptEnd mem c = false) (h2 : o ≤ len)
    (hadv : optAdvance mem o = adv) (hlt : o + adv < 2 ^ 32) :
    optionLoop fold mem len (fuel + 1) { offset := o, dhcp_opt := c, js := js, reads := rd } =
      optionLoop fold mem len fuel
        { offset := o + adv
          dhcp_opt := o
          js := (fold mem o js).1
          reads := rd ++ [c] ++ (fold mem o js).2 ++ optAdvanceReads mem o } := by
  rw [optionLoop_step _ _ _ _ _ h h2]
  simp only [hadv, Nat.mod_eq_of_lt hlt]

theorem optAdvance_bounds (mem : Nat → Nat) (p : Nat) :
    2 ≤ optAdvance mem p ∧ optAdvance mem p ≤ 257 := by
  unfold optAdvance readByte
  split <;> omega

/-- When the declared length leaves room for one more advance below `2 ^ 32`, the loop
returns as soon as the fuel covers the distance to the end of the buffer. -/
theorem optionLoop_terminates (fold : (Nat → Nat) → Nat → JsonObject → JsonObject × List Nat)
    (mem : Nat → Nat) (len : Nat) (hlen : len + 257 < 2 ^ 32) :
    ∀ (fuel : Nat) (s : OptCursor), 1 ≤ fuel → len + 2 ≤ fuel + s.offset →
      ∃ r, optionLoop fold mem len fuel s = some r := by
  intro fuel
  induction fuel with
  | zero => intro s h; omega
  | succ k ih =>
    intro s _ hk
    by_cases hend : JsonDHCPOptEnd mem s.dhcp_opt = true
    · exact ⟨_, optionLoop_end fold mem len k s hend⟩
    · have hend' : JsonDHCPOptEnd mem s.dhcp_opt = false := by simpa using hend
      by_cases hoff : len < s.offset
      · exact ⟨_, optionLoop_past fold mem len k s hend' hoff⟩
      · have hle : s.offset ≤ len := Nat.le_of_not_lt hoff
        rw [optionLoop_step fold mem len k s hend' hle]
        have hb := optAdvance_bounds mem s.offset
        have hmod : (s.offset + optAdvance mem s.offset) % 2 ^ 32 =
            s.offset + optAdvance mem s.offset := Nat.mod_eq_of_lt (by omega)
        apply ih
        · omega
        · simp only [hmod]; omega

/-! ## Buffers -/

theorem Holds.at {mem : Nat → Nat} {pre rest : List Nat} {x : Nat}
    (h : Holds mem (pre ++ x :: rest)) : readByte mem pre.length = x := by
  have := h pre.length (by simp)
  rw [this, List.getElem_append_right (Nat.le_refl _)]
  simp

theorem Holds.argsAt {mem : Nat → Nat} {pre args rest : List Nat} (c l : Nat)
    (h : Holds mem (pre ++ c :: l :: (args ++ rest))) :
    readArgs mem pre.length args.length = args := by
  apply List.ext_getElem
  · simp [readArgs]
  · intro i _ hi
    simp only [readArgs, List.getElem_map, List.getElem_range]
    rw [h (pre.length + 2 + i) (by simp; omega)]
    rw [List.getElem_append_right (by omega)]
    have e : ∀ (hh : pre.length + 2 + i - pre.length < (c :: l :: (args ++ rest)).length),
        (c :: l :: (args ++ rest))[pre.length + 2 + i - pre.length] = args[i] := by
      have e2 : pre.length + 2 + i - pre.length = i + 2 := by omega
      rw [e2]
      intro hh
      simp [List.getElem_append_left, hi]
    exact e _

theorem holds_bufferOf (l : List Nat) (fill : Nat) (h : ∀ b ∈ l, b < 256) :
    Holds (bufferOf l fill) l := by
  intro i hi
  unfold readByte bufferOf
  rw [List.getD_eq_getElem _ _ hi]
  exact Nat.mod_eq_of_lt (h _ (List.getElem_mem _))

theorem takeWhile_nonzero (s : List Nat) (h : ∀ b ∈ s, b ≠ 0) :
    s.takeWhile (fun b => b != 0) = s := by
  rw [List.takeWhile_eq_self_iff]
  intro b hb
  simpa using h b hb

theorem utf8CheckFrom_ascii : ∀ (fuel : Nat) (s : List Nat), s.length ≤ fuel →
    (∀ b ∈ s, b < 128) → utf8CheckFrom fuel s = true := by
  intro fuel
  induction fuel with
  | zero =>
    intro s hlen _
    cases s with
    | nil => rfl
    | cons b rest => simp at hlen
  | succ f ih =>
    intro s hlen h
    cases s with
    | nil => rfl
    | cons b rest =>
      have hb : b < 128 := h b (List.mem_cons_self _ _)
      have hf : utf8_check_first b = 1 := by
        unfold utf8_check_first
        rw [if_pos (by omega)]
      unfold utf8CheckFrom
      simp only [hf]
      rw [if_pos trivial]
      exact ih rest (by simpa using hlen) (fun x hx => h x (List.mem_cons_of_mem _ hx))

/-- Bytes below 128 are valid UTF-8, so `json_string` takes them. -/
theorem json_string_ascii (s : List Nat) (h : ∀ b ∈ s, b < 128) :
    json_string s = some (JsonValue.string (s.takeWhile (fun b => b != 0))) := by
  unfold json_string utf8_check_string
  rw [if_pos (utf8CheckFrom_ascii _ _ (le_refl _)
    (fun b hb => h b (List.takeWhile_subset _ hb)))]

/-! ## The host-name scenario -/

theorem requestLoop_hostNameRequest (arrayOk : Nat → Bool) (mem : Nat → Nat) (s : List Nat)
    (fuel : Nat) (hs : 1 ≤ s.length ∧ s.length ≤ 255) (hascii : ∀ b ∈ s, 32 ≤ b ∧ b ≤ 126)
    (hmem : Holds mem (hostNameRequest s)) (hfuel : 4 ≤ fuel) :
    ∃ r, requestLoop arrayOk mem (hostNameRequest s).length fuel = some r ∧
      r.js = [("type", JsonValue.string (cstr "request")), ("host_name", JsonValue.string s)] := by
  obtain ⟨f, rfl⟩ : ∃ f, fuel = f + 4 := ⟨fuel - 4, by omega⟩
  have hlen : (hostNameRequest s).length = s.length + 6 := by simp [hostNameRequest]
  have h0 : readByte mem 0 = 53 := by rw [hmem 0 (by omega)]; simp [hostNameRequest]
  have h1 : readByte mem 1 = 1 := by rw [hmem 1 (by omega)]; simp [hostNameRequest]
  have h2 : readByte mem 2 = 3 := by rw [hmem 2 (by omega)]; simp [hostNameRequest]
  have h3 : readByte mem 3 = 12 := by rw [hmem 3 (by omega)]; simp [hostNameRequest]
  have h4 : readByte mem 4 = s.length := by rw [hmem 4 (by omega)]; simp [hostNameRequest]
  have h5 : readByte mem (s.length + 5) = 255 := by
    rw [hmem (s.length + 5) (by omega)]
    simp [hostNameRequest, List.getElem_append_right]
  have hargs : readArgs mem 3 s.length = s := by
    apply List.ext_getElem
    · simp [readArgs]
    · intro i _ hi
      simp only [readArgs, List.getElem_map, List.getElem_range]
      rw [hmem (3 + 2 + i) (by omega)]
      have e : 3 + 2 + i = i + 5 := by omega
      simp only [e]
      simp [hostNameRequest, List.getElem_append_left, hi]
  have hnz : ∀ b ∈ s, b ≠ 0 := fun b hb => by have := hascii b hb; omega
  have e0 : JsonDHCPOptEnd mem 0 = false := by simp [JsonDHCPOptEnd, h0]
  have e3 : JsonDHCPOptEnd mem 3 = false := by simp [JsonDHCPOptEnd, h3]
  have e5 : JsonDHCPOptEnd mem (s.length + 5) = true := by simp [JsonDHCPOptEnd, h5]
  have a0 : optAdvance mem 0 = 3 := by simp [optAdvance, e0, h1]
  have a3 : optAdvance mem 3 = s.length + 2 := by simp [optAdvance, e3, h4]; omega
  have a5 : optAdvance mem (s.length + 5) = 2 := by simp [optAdvance, e5]
  have f0 : (requestOption arrayOk mem 0 []).1 = [("type", JsonValue.string (cstr "request"))] := by
    simp only [requestOption, h0, h2, if_true]
    decide
  have f3 : (requestOption arrayOk mem 3 [("type", JsonValue.string (cstr "request"))]).1 =
      [("type", JsonValue.string (cstr "request")), ("host_name", JsonValue.string s)] := by
    simp [requestOption, h3, h4, hargs, json_object_set_new, jsonObjectSet, BytesToString,
      json_string_ascii s (fun b hb => by have := hascii b hb; omega), takeWhile_nonzero s hnz]
  have f5 : ∀ js, (requestOption arrayOk mem (s.length + 5) js).1 = js := by
    intro js
    simp [requestOption, h5]
  have e35 : 3 + (s.length + 2) = s.length + 5 := by omega
  unfold requestLoop optStart
  rw [optionLoop_next _ _ _ _ 0 0 _ _ 3 e0 (by omega) a0 (by omega), f0,
    optionLoop_next _ _ _ _ 3 0 _ _ (s.length + 2) e0 (by omega) a3 (by omega), f3,
    optionLoop_next _ _ _ _ (3 + (s.length + 2)) 3 _ _ 2 e3 (by omega)
      (by rw [e35]; exact a5) (by omega),
    optionLoop_end _ _ _ _ _ (by rw [e35]; exact e5)]
  refine ⟨_, rfl, ?_⟩
  simp only [e35, f5]

/-! ## The paths of `JsonDHCPLogger` -/

theorem JsonDHCPLogger_eq_skip {σ : Type} (OutputJSONBuffer : Document → σ → σ × Int)
    (alloc : JsonAlloc) (fuel : Nat) (sink : σ) (state : DHCPState) (tx : DHCPTransaction)
    (tx_id : Nat) (h : tx_id < state.log_id ∨ tx.logged ≠ 0) :
    JsonDHCPLogger OutputJSONBuffer alloc fuel sink state tx tx_id =
      some { ret := TmEcode.TM_ECODE_OK, tx := tx, state := state, sink := sink,
             request_reads := [], response_reads := [] } := by
  unfold JsonDHCPLogger
  rcases h with h | h
  · simp [h]
  · simp [h]

theorem JsonDHCPLogger_eq_emit {σ : Type} (OutputJSONBuffer : Document → σ → σ × Int)
    (alloc : JsonAlloc) (js : JsonObject) (fuel : Nat) (sink : σ) (state : DHCPState)
    (tx : DHCPTransaction) (tx_id : Nat) (req rsp : OptCursor)
    (hlog : tx.logged = 0) (hid : state.log_id ≤ tx_id) (halloc : alloc.Succeeds js)
    (hreq : requestLoop alloc.parmsjs tx.request_buffer tx.request_buffer_len fuel = some req)
    (hrsp : responseLoop tx.response_buffer tx.response_buffer_len fuel = some rsp) :
    JsonDHCPLogger OutputJSONBuffer alloc fuel sink state tx tx_id =
      some { ret := TmEcode.TM_ECODE_OK
             tx := { tx with logged := 1 }
             state := { state with log_id := state.log_id + 1 }
             sink := (OutputJSONBuffer
               { header := js, xid := json_integer (ntohl tx.xid), client := req.js,
                 server := rsp.js } sink).1
             request_reads := req.reads
             response_reads := rsp.reads } := by
  obtain ⟨h1, h2, h3, h4⟩ := halloc
  unfold JsonDHCPLogger
  simp [hlog, Nat.not_lt.mpr hid, h1, h2, h3, h4, hreq, hrsp]

/-- What a returning call did: nothing to the transaction, session and sink, or the
whole emission. -/
theorem JsonDHCPLogger_inv {σ : Type} (OutputJSONBuffer : Document → σ → σ × Int)
    (alloc : JsonAlloc) (fuel : Nat) (sink : σ) (state : DHCPState) (tx : DHCPTransaction)
    (tx_id : Nat) (out : LoggerOut σ)
    (h : JsonDHCPLogger OutputJSONBuffer alloc fuel sink state tx tx_id = some out) :
    (out.sink = sink ∧ out.tx = tx ∧ out.state = state ∧
        (out.ret = TmEcode.TM_ECODE_OK → tx_id < state.log_id ∨ tx.logged ≠ 0)) ∨
      (tx.logged = 0 ∧ state.log_id ≤ tx_id ∧ out.ret = TmEcode.TM_ECODE_OK ∧
        out.tx = { tx with logged := 1 } ∧ out.state = { log_id := state.log_id + 1 } ∧
        ∃ doc, out.sink = (OutputJSONBuffer doc sink).1) := by
  unfold JsonDHCPLogger at h
  by_cases h1 : state.log_id > tx_id
  · simp only [h1, if_true, Option.some.injEq] at h
    subst h
    exact Or.inl ⟨rfl, rfl, rfl, fun _ => Or.inl h1⟩
  · simp only [h1, if_false] at h
    by_cases h2 : tx.logged ≠ 0
    · rw [if_pos h2] at h
      simp only [Option.some.injEq] at h
      subst h
      exact Or.inl ⟨rfl, rfl, rfl, fun _ => Or.inr h2⟩
    · rw [if_neg h2] at h
      have hfail : ∀ o : LoggerOut σ,
          some ({ ret := TmEcode.TM_ECODE_FAILED, tx := tx, state := state, sink := sink,
                  request_reads := [], response_reads := [] } : LoggerOut σ) = some o →
          (o.sink = sink ∧ o.tx = tx ∧ o.state = state ∧
            (o.ret = TmEcode.TM_ECODE_OK → tx_id < state.log_id ∨ tx.logged ≠ 0)) := by
        intro o ho
        simp only [Option.some.injEq] at ho
        subst ho
        exact ⟨rfl, rfl, rfl, fun hc => by simp at hc⟩
      cases hjs : alloc.js with
      | none =>
        simp only [hjs] at h
        exact Or.inl (hfail out h)
      | some js =>
        simp only [hjs] at h
        by_cases a1 : alloc.dhcpjs = true
        · by_cases a2 : alloc.reqjs = true
          · by_cases a3 : alloc.rspjs = true
            · simp only [a1, a2, a3, Bool.not_true, Bool.false_eq_true, if_false] at h
              cases hreq : requestLoop alloc.parmsjs tx.request_buffer tx.request_buffer_len fuel with
              | none => simp [hreq] at h
              | some req =>
                cases hrsp : responseLoop tx.response_buffer tx.response_buffer_len fuel with
                | none => simp [hreq, hrsp] at h
                | some rsp =>
                  simp only [hreq, hrsp, Option.some.injEq] at h
                  subst h
                  exact Or.inr ⟨by simpa using h2, Nat.le_of_not_lt h1, rfl, rfl, rfl, _, rfl⟩
            · simp only [a1, a2, a3, Bool.not_true, Bool.not_false, Bool.false_eq_true,
                if_false, if_true] at h
              exact Or.inl (hfail out h)
          · simp only [a1, a2, Bool.not_true, Bool.not_false, Bool.false_eq_true,
              if_false, if_true] at h
            exact Or.inl (hfail out h)
        · simp only [a1, Bool.not_false, if_true] at h
          exact Or.inl (hfail out h)

/-! ## Field names on well-formed buffers -/

theorem keys_jsonObjectSet (o : JsonObject) (key : String) (v : JsonValue) (name : String) :
    name ∈ (jsonObjectSet o key v).keys ↔ name ∈ o.keys ∨ name = key := by
  unfold jsonObjectSet JsonObject.keys
  split
  · rename_i h
    simp only [List.any_eq_true, beq_iff_eq] at h
    obtain ⟨kv, hkv, hk⟩ := h
    simp only [List.map_map, List.mem_map, Function.comp]
    constructor
    · rintro ⟨a, ha, rfl⟩
      by_cases hak : a.1 = key
      · right; simp [hak]
      · left; exact ⟨a, ha, by simp [hak]⟩
    · rintro (⟨a, ha, rfl⟩ | rfl)
      · by_cases hak : a.1 = key
        · exact ⟨a, ha, by simp [hak]⟩
        · exact ⟨a, ha, by simp [hak]⟩
      · exact ⟨kv, hkv, by simp [hk]⟩
  · simp [eq_comm]

theorem keys_json_object_set_new (o : JsonObject) (key : String) (v : Option JsonValue)
    (name : String) :
    name ∈ (json_object_set_new o key v).keys ↔ name ∈ o.keys ∨ (v.isSome = true ∧ name = key) := by
  unfold json_object_set_new
  cases v with
  | none => simp
  | some v => simpa using keys_jsonObjectSet o key v name

theorem json_string_isSome (bytes : List Nat) :
    (json_string bytes).isSome = validText bytes := by
  unfold json_string validText
  split <;> simp_all

theorem hexDigit_lt (d : Nat) (h : d < 16) : hexDigit d < 128 := by
  unfold hexDigit
  split <;> omega

theorem hex2_ascii (b : Nat) : ∀ x ∈ hex2 b, x < 128 := by
  intro x hx
  simp only [hex2, List.mem_cons, List.mem_singleton, List.not_mem_nil, or_false] at hx
  rcases hx with rfl | rfl
  · exact hexDigit_lt _ (Nat.mod_lt _ (by norm_num))
  · exact hexDigit_lt _ (Nat.mod_lt _ (by norm_num))

theorem macString_ascii (a b c d e f : Nat) : ∀ x ∈ macString a b c d e f, x < 128 := by
  intro x hx
  simp only [macString, List.mem_append, List.mem_singleton] at hx
  rcases hx with ((((((((((h | h) | h) | h) | h) | h) | h) | h) | h) | h) | h) <;>
    first
    | exact hex2_ascii _ x h
    | (rw [h]; decide)

set_option maxRecDepth 4096 in
theorem decimal_ascii : ∀ a < 256, ∀ x ∈ cstr (toString a), x < 128 := by
  decide

theorem ipString_ascii (a b c d : Nat) (ha : a < 256) (hb : b < 256) (hc : c < 256)
    (hd : d < 256) : ∀ x ∈ ipString a b c d, x < 128 := by
  intro x hx
  simp only [ipString, List.mem_append, List.mem_singleton] at hx
  rcases hx with (((((h | h) | h) | h) | h) | h) | h
  · exact decimal_ascii a ha x h
  · rw [h]; decide
  · exact decimal_ascii b hb x h
  · rw [h]; decide
  · exact decimal_ascii c hc x h
  · rw [h]; decide
  · exact decimal_ascii d hd x h

theorem readByte_lt (mem : Nat → Nat) (i : Nat) : readByte mem i < 256 :=
  Nat.mod_lt _ (by norm_num)

theorem ipOfArgs_ascii (mem : Nat → Nat) (p : Nat) : ∀ x ∈ ipOfArgs mem p, x < 128 :=
  ipString_ascii _ _ _ _ (readByte_lt _ _) (readByte_lt _ _) (readByte_lt _ _) (readByte_lt _ _)

theorem keys_set_string (o : JsonObject) (key : String) (bytes : List Nat) (name : String) :
    name ∈ (json_object_set_new o key (json_string bytes)).keys ↔
      name ∈ o.keys ∨ (validText bytes = true ∧ name = key) := by
  rw [keys_json_object_set_new, json_string_isSome]

theorem keys_set_ascii (o : JsonObject) (key : String) (bytes : List Nat) (name : String)
    (h : ∀ b ∈ bytes, b < 128) :
    name ∈ (json_object_set_new o key (json_string bytes)).keys ↔
      name ∈ o.keys ∨ some key = some name := by
  rw [json_string_ascii _ h, keys_json_object_set_new]
  simp [eq_comm]

theorem keys_set_value (o : JsonObject) (key : String) (v : JsonValue) (name : String) :
    name ∈ (json_object_set_new o key (some v)).keys ↔
      name ∈ o.keys ∨ some key = some name := by
  rw [keys_json_object_set_new]
  simp [eq_comm]

theorem keys_set_text (o : JsonObject) (key : String) (bytes : List Nat) (name : String) :
    name ∈ (json_object_set_new o key (json_string bytes)).keys ↔
      name ∈ o.keys ∨ (if validText bytes then some key else none) = some name := by
  rw [keys_set_string]
  cases validText bytes <;> simp [eq_comm]

set_option maxHeartbeats 1000000 in
theorem requestOption_keys (arrayOk : Nat → Bool) (harr : ∀ p, arrayOk p = true) (mem : Nat → Nat)
    (p : Nat) (js : JsonObject) (name : String) (o : DHCPOpt) (hcode : readByte mem p = o.code)
    (hargs : readArgs mem p (readByte mem (p + 1)) = o.args) :
    name ∈ (requestOption arrayOk mem p js).1.keys ↔
      name ∈ js.keys ∨ requestFieldName o (readByte mem (p + 2)) = some name := by
  unfold requestOption requestFieldName
  simp only [harr, if_true, hargs, BytesToString]
  rw [← hcode]
  generalize readByte mem p = c
  by_cases h : c = 53
  · rw [if_pos h, if_pos h]
    exact keys_set_ascii _ _ _ _ (by split_ifs <;> decide)
  rw [if_neg h, if_neg h]
  clear h
  by_cases h : c = 12
  · rw [if_pos h, if_pos h]
    exact keys_set_text _ _ _ _
  rw [if_neg h, if_neg h]
  clear h
  by_cases h : c = 60
  · rw [if_pos h, if_pos h]
    exact keys_set_text _ _ _ _
  rw [if_neg h, if_neg h]
  clear h
  by_cases h : c = 61
  · rw [if_pos h, if_pos h]
    by_cases h1 : readByte mem (p + 2) = 1
    · rw [if_pos h1, if_pos h1]
      exact keys_set_ascii _ _ _ _ (macString_ascii _ _ _ _ _ _)
    · rw [if_neg h1, if_neg h1]
      simp
  rw [if_neg h, if_neg h]
  clear h
  by_cases h : c = 50
  · rw [if_pos h, if_pos h]
    exact keys_set_ascii _ _ _ _ (ipOfArgs_ascii mem p)
  rw [if_neg h, if_neg h]
  clear h
  by_cases h : c = 54
  · rw [if_pos h, if_pos h]
    exact keys_set_ascii _ _ _ _ (ipOfArgs_ascii mem p)
  rw [if_neg h, if_neg h]
  clear h
  by_cases h : c = 55
  · rw [if_pos h, if_pos h]
    exact keys_set_value _ _ _ _
  rw [if_neg h, if_neg h]
  simp

set_option maxHeartbeats 1000000 in
theorem responseOption_keys (mem : Nat → Nat) (p : Nat) (js : JsonObject) (name : String) :
    name ∈ (responseOption mem p js).1.keys ↔
      name ∈ js.keys ∨ responseFieldName (readByte mem p) = some name := by
  unfold responseOption responseFieldName
  generalize readByte mem p = c
  by_cases h : c = 53
  · rw [if_pos h, if_pos h]
    exact keys_set_ascii _ _ _ _ (by split_ifs <;> decide)
  rw [if_neg h, if_neg h]
  clear h
  by_cases h : c = 3
  · rw [if_pos h, if_pos h]
    exact keys_set_ascii _ _ _ _ (ipOfArgs_ascii mem p)
  rw [if_neg h, if_neg h]
  clear h
  by_cases h : c = 6
  · rw [if_pos h, if_pos h]
    exact keys_set_ascii _ _ _ _ (ipOfArgs_ascii mem p)
  rw [if_neg h, if_neg h]
  clear h
  by_cases h : c = 66
  · rw [if_pos h, if_pos h]
    exact keys_set_ascii _ _ _ _ (ipOfArgs_ascii mem p)
  rw [if_neg h, if_neg h]
  clear h
  by_cases h : c = 58
  · rw [if_pos h, if_pos h]
    exact keys_set_value _ _ _ _
  rw [if_neg h, if_neg h]
  clear h
  by_cases h : c = 59
  · rw [if_pos h, if_pos h]
    exact keys_set_value _ _ _ _
  rw [if_neg h, if_neg h]
  clear h
  by_cases h : c = 51
  · rw [if_pos h, if_pos h]
    exact keys_set_value _ _ _ _
  rw [if_neg h, if_neg h]
  clear h
  by_cases h : c = 54
  · rw [if_pos h, if_pos h]
    exact keys_set_ascii _ _ _ _ (ipOfArgs_ascii mem p)
  rw [if_neg h, if_neg h]
  clear h
  by_cases h : c = 1
  · rw [if_pos h, if_pos h]
    exact keys_set_ascii _ _ _ _ (ipOfArgs_ascii mem p)
  rw [if_neg h, if_neg h]
  clear h
  simp

theorem fieldNames_response (os : List DHCPOpt) (after : List Nat) :
    fieldNames (fun o _ => responseFieldName o.code) os after = responseNames os := by
  induction os with
  | nil => rfl
  | cons o os ih =>
    unfold responseNames at ih ⊢
    rw [fieldNames, ih, List.filterMap_cons]
    cases responseFieldName o.code <;> rfl

/-- On a buffer that holds the records `os` and then the terminator, the loop returns and
the keys of its object are those it started with and the names mapped from `os`. -/
theorem optionLoop_wellFormed_keys (fold : (Nat → Nat) → Nat → JsonObject → JsonObject × List Nat)
    (name : DHCPOpt → Nat → Option String) (mem : Nat → Nat)
    (hfold : ∀ p js k (o : DHCPOpt), readByte mem p = o.code →
      readArgs mem p (readByte mem (p + 1)) = o.args →
      (k ∈ (fold mem p js).1.keys ↔ k ∈ js.keys ∨ name o (readByte mem (p + 2)) = some k))
    (hterm : ∀ p js k, readByte mem p = 255 → (k ∈ (fold mem p js).1.keys ↔ k ∈ js.keys))
    (tail : List Nat) :
    ∀ (os : List DHCPOpt) (pre : List Nat) (s : OptCursor) (fuel : Nat),
      WellFormedOpts os →
      Holds mem (pre ++ (encodeOpts os ++ 255 :: tail)) →
      (pre ++ (encodeOpts os ++ 255 :: tail)).length + 257 < 2 ^ 32 →
      s.offset = pre.length →
      (s.dhcp_opt = s.offset ∨ JsonDHCPOptEnd mem s.dhcp_opt = false) →
      os.length + 2 ≤ fuel →
      ∃ r, optionLoop fold mem (pre ++ (encodeOpts os ++ 255 :: tail)).length fuel s = some r ∧
        ∀ k, k ∈ r.js.keys ↔ k ∈ s.js.keys ∨ k ∈ fieldNames name os (255 :: tail) := by
  intro os
  induction os with
  | nil =>
    intro pre s fuel _ hmem hlen hoff hopt hfuel
    obtain ⟨f, rfl⟩ : ∃ f, fuel = f + 2 := ⟨fuel - 2, by omega⟩
    simp only [encodeOpts, List.nil_append] at hmem hlen ⊢
    have hcode : readByte mem s.offset = 255 := by rw [hoff]; exact hmem.at
    have hend : JsonDHCPOptEnd mem s.offset = true := by simp [JsonDHCPOptEnd, hcode]
    by_cases he : JsonDHCPOptEnd mem s.dhcp_opt = true
    · exact ⟨_, optionLoop_end fold mem _ (f + 1) s he, by simp [fieldNames]⟩
    · have he' : JsonDHCPOptEnd mem s.dhcp_opt = false := by simpa using he
      rw [optionLoop_step fold mem _ (f + 1) s he' (by rw [hoff]; simp)]
      refine ⟨_, optionLoop_end fold mem _ f _ hend, ?_⟩
      intro k
      simp [hterm _ _ _ hcode, fieldNames]
  | cons o os ih =>
    intro pre s fuel hwf hmem hlen hoff hopt hfuel
    obtain ⟨f, rfl⟩ : ∃ f, fuel = f + 1 := ⟨fuel - 1, by simp at hfuel; omega⟩
    have hwo := hwf o (List.mem_cons_self _ _)
    have hwf' : WellFormedOpts os := fun x hx => hwf x (List.mem_cons_of_mem _ hx)
    have hcode : readByte mem s.offset = o.code := by
      rw [hoff]; exact Holds.at (by simpa [encodeOpts] using hmem)
    have hlenb : readByte mem (s.offset + 1) = o.args.length := by
      have : Holds mem
          ((pre ++ [o.code]) ++ o.args.length :: (o.args ++ (encodeOpts os ++ 255 :: tail))) := by
        simpa [encodeOpts] using hmem
      simpa [hoff] using this.at
    have hargs : readArgs mem s.offset (readByte mem (s.offset + 1)) = o.args := by
      rw [hlenb, hoff]
      exact Holds.argsAt o.code o.args.length (by simpa [encodeOpts] using hmem)
    have hne : JsonDHCPOptEnd mem s.offset = false := by simp [JsonDHCPOptEnd, hcode, hwo.1]
    have hopt' : JsonDHCPOptEnd mem s.dhcp_opt = false := by
      rcases hopt with h | h
      · rw [h]; exact hne
      · exact h
    have hadv : optAdvance mem s.offset = 2 + o.args.length := by simp [optAdvance, hne, hlenb]
    have hfirst : readByte mem (s.offset + 2) =
        (o.args ++ encodeOpts os ++ 255 :: tail).headD 0 := by
      cases hrest : o.args ++ encodeOpts os ++ 255 :: tail with
      | nil => simp at hrest
      | cons y ys =>
        have : Holds mem ((pre ++ [o.code, o.args.length]) ++ y :: ys) := by
          rw [← hrest]; simpa [encodeOpts] using hmem
        simpa [hoff] using this.at
    have hlist : pre ++ (encodeOpts (o :: os) ++ 255 :: tail) =
        (pre ++ o.code :: o.args.length :: o.args) ++ (encodeOpts os ++ 255 :: tail) := by
      simp [encodeOpts]
    have hle : s.offset ≤ (pre ++ (encodeOpts (o :: os) ++ 255 :: tail)).length := by
      rw [hoff]; simp
    rw [optionLoop_step fold mem _ f s hopt' hle, hadv, hlist]
    rw [hlist] at hmem hlen
    have hmod : (s.offset + (2 + o.args.length)) % 2 ^ 32 = s.offset + (2 + o.args.length) := by
      apply Nat.mod_eq_of_lt
      rw [hoff]
      simp only [List.length_append, List.length_cons] at hlen
      omega
    rw [hmod]
    obtain ⟨r, hr, hk⟩ := ih (pre ++ o.code :: o.args.length :: o.args)
      { offset := s.offset + (2 + o.args.length), dhcp_opt := s.offset,
        js := (fold mem s.offset s.js).1,
        reads := s.reads ++ [s.dhcp_opt] ++ (fold mem s.offset s.js).2 ++
          optAdvanceReads mem s.offset } f hwf' hmem hlen
      (by simp [hoff]; omega) (Or.inr hne) (by simp at hfuel; omega)
    refine ⟨r, hr, ?_⟩
    intro k
    rw [hk, hfold _ _ _ o hcode hargs, hfirst]
    simp only [fieldNames, List.mem_append, Option.mem_toList, Option.mem_def]
    tauto

theorem requestLoop_wellFormed_keys (arrayOk : Nat → Bool) (harr : ∀ p, arrayOk p = true)
    (mem : Nat → Nat) (os : List DHCPOpt) (tail : List Nat) (fuel : Nat)
    (hwf : WellFormedOpts os) (hmem : Holds mem (encodeOpts os ++ 255 :: tail))
    (hlen : (encodeOpts os ++ 255 :: tail).length + 257 < 2 ^ 32) (hfuel : os.length + 2 ≤ fuel) :
    ∃ r, requestLoop arrayOk mem (encodeOpts os ++ 255 :: tail).length fuel = some r ∧
      ∀ k, k ∈ r.js.keys ↔ k ∈ requestNames os tail := by
  obtain ⟨r, hr, hk⟩ := optionLoop_wellFormed_keys (requestOption arrayOk) requestFieldName mem
    (fun p js k o hc ha => requestOption_keys arrayOk harr mem p js k o hc ha)
    (fun p js k hc => by simp [requestOption, hc])
    tail os [] optStart fuel hwf (by simpa using hmem) (by simpa using hlen) rfl (Or.inl rfl) hfuel
  refine ⟨r, by simpa [requestLoop] using hr, ?_⟩
  intro k
  rw [hk]
  simp [optStart, JsonObject.keys, requestNames]

theorem responseLoop_wellFormed_keys (mem : Nat → Nat) (os : List DHCPOpt) (tail : List Nat)
    (fuel : Nat) (hwf : WellFormedOpts os) (hmem : Holds mem (encodeOpts os ++ 255 :: tail))
    (hlen : (encodeOpts os ++ 255 :: tail).length + 257 < 2 ^ 32) (hfuel : os.length + 2 ≤ fuel) :
    ∃ r, responseLoop mem (encodeOpts os ++ 255 :: tail).length fuel = some r ∧
      ∀ k, k ∈ r.js.keys ↔ k ∈ responseNames os := by
  obtain ⟨r, hr, hk⟩ := optionLoop_wellFormed_keys responseOption
    (fun o _ => responseFieldName o.code) mem
    (fun p js k o hc _ => by
      have h := responseOption_keys mem p js k
      rw [hc] at h
      exact h)
    (fun p js k hc => by simp [responseOption, hc])
    tail os [] optStart fuel hwf (by simpa using hmem) (by simpa using hlen) rfl (Or.inl rfl) hfuel
  refine ⟨r, by simpa [responseLoop] using hr, ?_⟩
  intro k
  rw [hk, fieldNames_response]
  simp [optStart, JsonObject.keys]

/-! ## Claims about `JsonDHCPLogger` -/

/-- C1, which the code does not meet: the option loops read at indices at and past the
declared length. On the truncated host-name record (declared length 6) the request
loop reads up to index 251; on a buffer of declared length 0 it reads index 0; on a
buffer of one complete record and no terminator (declared length 3) it reads the
code byte at index 3 and the length byte at index 4. The response loop does the same:
on a server-address record cut after one value byte (declared length 3) it reads the
indices 3, 4 and 5. -/
theorem JsonDHCPLogger_reads_past_declared_length :
    (∃ out, JsonDHCPLogger recordingSink allocOk 4 [] { log_id := 0 } truncatedTx 0 = some out ∧
        truncatedTx.request_buffer_len = 6 ∧ 6 ∈ out.request_reads ∧
        251 ∈ out.request_reads) ∧
      (∃ out, JsonDHCPLogger recordingSink allocOk 4 [] { log_id := 0 } emptyRequestTx 0 =
          some out ∧
        emptyRequestTx.request_buffer_len = 0 ∧ out.request_reads = [0, 0, 0, 1, 0]) ∧
      (∃ out, JsonDHCPLogger recordingSink allocOk 4 [] { log_id := 0 } unterminatedTx 0 =
          some out ∧
        unterminatedTx.request_buffer_len = 3 ∧
        out.request_reads = [0, 0, 2, 0, 1, 0, 3, 3, 4, 3]) ∧
      (∃ out, JsonDHCPLogger recordingSink allocOk 4 [] { log_id := 0 } truncatedResponseTx 0 =
          some out ∧
        truncatedResponseTx.response_buffer_len = 3 ∧
        out.response_reads = [0, 0, 2, 3, 4, 5, 0, 1, 0]) :=
  ⟨⟨_, rfl, rfl, by decide, by decide⟩, ⟨_, rfl, rfl, by decide⟩, ⟨_, rfl, rfl, by decide⟩,
    ⟨_, rfl, rfl, by decide⟩⟩

/-- C2: for a printable-ASCII host name `s` of 1 to 255 bytes, the request buffer made of
the record (53, 1, 3), the record (12, |s|, s) and the terminator is assembled into
the client object with exactly the two fields "type" = "request" and
"host_name" = `s`, in this order, in the document handed to the sink. -/
theorem JsonDHCPLogger_host_name_request {σ : Type} (OutputJSONBuffer : Document → σ → σ × Int)
    (alloc : JsonAlloc) (js : JsonObject) (sink : σ) (state : DHCPState) (tx : DHCPTransaction)
    (tx_id fuel : Nat) (s : List Nat)
    (hs : 1 ≤ s.length ∧ s.length ≤ 255) (hascii : ∀ b ∈ s, 32 ≤ b ∧ b ≤ 126)
    (hreq : Holds tx.request_buffer (hostNameRequest s))
    (hreqlen : tx.request_buffer_len = (hostNameRequest s).length)
    (hrsplen : tx.response_buffer_len + 257 < 2 ^ 32)
    (hfuel : 4 ≤ fuel ∧ tx.response_buffer_len + 2 ≤ fuel)
    (halloc : alloc.Succeeds js) (hlog : tx.logged = 0) (hid : state.log_id ≤ tx_id) :
    ∃ out server, JsonDHCPLogger OutputJSONBuffer alloc fuel sink state tx tx_id = some out ∧
      out.ret = TmEcode.TM_ECODE_OK ∧
      out.sink = (OutputJSONBuffer
        { header := js, xid := json_integer (ntohl tx.xid)
          client := [("type", JsonValue.string (cstr "request")),
            ("host_name", JsonValue.string s)]
          server := server } sink).1 := by
  obtain ⟨req, hr, hjs⟩ :=
    requestLoop_hostNameRequest alloc.parmsjs tx.request_buffer s fuel hs hascii hreq hfuel.1
  rw [← hreqlen] at hr
  obtain ⟨rsp, hp⟩ := optionLoop_terminates responseOption tx.response_buffer
    tx.response_buffer_len hrsplen fuel optStart (by omega) (by simp [optStart]; omega)
  refine ⟨_, rsp.js, JsonDHCPLogger_eq_emit OutputJSONBuffer alloc js fuel sink state tx tx_id
    req rsp hlog hid halloc hr hp, rfl, ?_⟩
  simp only [hjs]

/-- C2 at the host name "host": the client object is
`{"type":"request","host_name":"host"}`. -/
theorem JsonDHCPLogger_host_name_request_witness :
    ∃ out server, JsonDHCPLogger recordingSink allocOk 4 [] { log_id := 0 } hostTx 0 = some out ∧
      out.ret = TmEcode.TM_ECODE_OK ∧
      out.sink = (recordingSink
        { header := [], xid := json_integer (ntohl hostTx.xid)
          client := [("type", JsonValue.string (cstr "request")),
            ("host_name", JsonValue.string (cstr "host"))]
          server := server } []).1 :=
  JsonDHCPLogger_host_name_request recordingSink allocOk [] [] { log_id := 0 } hostTx 0 4
    (cstr "host") (by decide) (by decide) (holds_bufferOf _ _ (by decide)) rfl (by decide)
    (by decide) ⟨rfl, rfl, rfl, rfl⟩ rfl (by decide)

set_option maxRecDepth 8192 in
/-- C3, which the code does not meet: on the request buffer of declared length 6 that
holds a host-name record of declared length 250 and four value bytes, the call
completes with `TM_ECODE_OK`, but the record was folded: the client object of the
document handed to the sink has the field "host_name", built from 250 bytes read at
the indices 2 to 251. -/
theorem JsonDHCPLogger_folds_truncated_record :
    ∃ out, JsonDHCPLogger recordingSink allocOk 4 [] { log_id := 0 } truncatedTx 0 = some out ∧
      out.ret = TmEcode.TM_ECODE_OK ∧
      out.sink.map (fun d => d.client) =
        [[("host_name", JsonValue.string (cstr "host" ++ List.replicate 246 65))]] ∧
      out.request_reads = [0, 0, 1] ++ argIndices 0 250 ++ [0, 1, 0] :=
  ⟨_, rfl, rfl, rfl, rfl⟩

/-- C4: two calls in a row on the same transaction hand at most one document to the
sink. A first call that returns `TM_ECODE_OK` either changed nothing or took `logged`
from 0 to 1 with one write; after it, a second call returns `TM_ECODE_OK`, writes
nothing and leaves `logged` and `log_id` as they are. Whatever the first call
returned, the sink after both calls has received no document or exactly one. -/
theorem JsonDHCPLogger_second_call_writes_nothing {σ : Type}
    (OutputJSONBuffer : Document → σ → σ × Int) (alloc : JsonAlloc) (fuel : Nat) (sink : σ)
    (state : DHCPState) (tx : DHCPTransaction) (tx_id : Nat) (out₁ : LoggerOut σ)
    (h₁ : JsonDHCPLogger OutputJSONBuffer alloc fuel sink state tx tx_id = some out₁) :
    (out₁.ret = TmEcode.TM_ECODE_OK →
        (out₁.sink = sink ∧ out₁.tx = tx ∧ out₁.state = state) ∨
        (tx.logged = 0 ∧ out₁.tx.logged = 1 ∧ ∃ doc, out₁.sink = (OutputJSONBuffer doc sink).1)) ∧
      (out₁.ret = TmEcode.TM_ECODE_OK → ∀ (alloc₂ : JsonAlloc) (fuel₂ : Nat),
        JsonDHCPLogger OutputJSONBuffer alloc₂ fuel₂ out₁.sink out₁.state out₁.tx tx_id =
          some { ret := TmEcode.TM_ECODE_OK, tx := out₁.tx, state := out₁.state,
                 sink := out₁.sink, request_reads := [], response_reads := [] }) ∧
      (∀ (alloc₂ : JsonAlloc) (fuel₂ : Nat) (out₂ : LoggerOut σ),
        JsonDHCPLogger OutputJSONBuffer alloc₂ fuel₂ out₁.sink out₁.state out₁.tx tx_id =
          some out₂ →
        out₂.sink = sink ∨ ∃ doc, out₂.sink = (OutputJSONBuffer doc sink).1) := by
  have inv := JsonDHCPLogger_inv OutputJSONBuffer alloc fuel sink state tx tx_id out₁ h₁
  refine ⟨?_, ?_, ?_⟩
  · intro _
    rcases inv with ⟨h1, h2, h3, _⟩ | ⟨h1, _, _, h4, _, h6⟩
    · exact Or.inl ⟨h1, h2, h3⟩
    · exact Or.inr ⟨h1, by rw [h4], h6⟩
  · intro hok alloc₂ fuel₂
    apply JsonDHCPLogger_eq_skip
    rcases inv with ⟨_, h2, h3, h4⟩ | ⟨_, _, _, h4, _, _⟩
    · rw [h2, h3]; exact h4 hok
    · right; rw [h4]; simp
  · intro alloc₂ fuel₂ out₂ h₂
    rcases inv with ⟨h1, _, _, _⟩ | ⟨_, _, _, h4, _, doc, h6⟩
    · rcases JsonDHCPLogger_inv OutputJSONBuffer alloc₂ fuel₂ _ _ _ tx_id out₂ h₂ with
        ⟨g1, _⟩ | ⟨_, _, _, _, _, doc, g6⟩
      · left; rw [g1, h1]
      · right; exact ⟨doc, by rw [g6, h1]⟩
    · have hskip := JsonDHCPLogger_eq_skip OutputJSONBuffer alloc₂ fuel₂ out₁.sink out₁.state
        out₁.tx tx_id (Or.inr (by rw [h4]; simp))
      rw [hskip] at h₂
      simp only [Option.some.injEq] at h₂
      subst h₂
      right; exact ⟨doc, h6⟩

/-- C4 at the host-name transaction: the first call emits, the second writes nothing. -/
theorem JsonDHCPLogger_second_call_writes_nothing_witness :
    ∃ out₁, JsonDHCPLogger recordingSink allocOk 4 [] { log_id := 0 } hostTx 0 = some out₁ ∧
      out₁.ret = TmEcode.TM_ECODE_OK ∧ out₁.tx.logged = 1 ∧ out₁.sink.length = 1 ∧
      (∀ (alloc₂ : JsonAlloc) (fuel₂ : Nat),
        JsonDHCPLogger recordingSink alloc₂ fuel₂ out₁.sink out₁.state out₁.tx 0 =
          some { ret := TmEcode.TM_ECODE_OK, tx := out₁.tx, state := out₁.state,
                 sink := out₁.sink, request_reads := [], response_reads := [] }) :=
  ⟨_, rfl, rfl, rfl, by decide,
    (JsonDHCPLogger_second_call_writes_nothing recordingSink allocOk 4 [] { log_id := 0 } hostTx 0
      _ rfl).2.1 rfl⟩

/-- C5: a transaction whose `tx_id` is below the session's `log_id` is not emitted: the
call returns `TM_ECODE_OK`, the sink is untouched, and the transaction (with its
`logged` flag) and the session (with its `log_id`) are unchanged. -/
theorem JsonDHCPLogger_skips_below_log_id {σ : Type} (OutputJSONBuffer : Document → σ → σ × Int)
    (alloc : JsonAlloc) (fuel : Nat) (sink : σ) (state : DHCPState) (tx : DHCPTransaction)
    (tx_id : Nat) (h : tx_id < state.log_id) :
    JsonDHCPLogger OutputJSONBuffer alloc fuel sink state tx tx_id =
      some { ret := TmEcode.TM_ECODE_OK, tx := tx, state := state, sink := sink,
             request_reads := [], response_reads := [] } :=
  JsonDHCPLogger_eq_skip OutputJSONBuffer alloc fuel sink state tx tx_id (Or.inl h)

/-- C5 at `tx_id = 4` and `log_id = 5`. -/
theorem JsonDHCPLogger_skips_below_log_id_witness :
    (4 : Nat) < ({ log_id := 5 } : DHCPState).log_id ∧
      JsonDHCPLogger recordingSink allocOk 9 [] { log_id := 5 } sampleTx 4 =
        some { ret := TmEcode.TM_ECODE_OK, tx := sampleTx, state := { log_id := 5 }, sink := [],
               request_reads := [], response_reads := [] } :=
  ⟨by decide,
    JsonDHCPLogger_skips_below_log_id recordingSink allocOk 9 [] { log_id := 5 } sampleTx 4
      (by decide)⟩

/-- C6 as stated fails, twice over. The well-formed request buffer holding the one
record of code 61 with the value bytes 0, 1, .., 6 gives a client object with no field,
although the code 61 is present; and the well-formed request buffer holding the one
record of code 12 with the value bytes 255, 254, which are not valid UTF-8, gives a
client object with no field, although the code 12 is present. -/
theorem JsonDHCPLogger_client_id_counterexample :
    (WellFormedOpts clientIdOpts ∧
      Holds clientIdTx.request_buffer (encodeOpts clientIdOpts ++ [255]) ∧
      clientIdTx.request_buffer_len = (encodeOpts clientIdOpts ++ [255]).length ∧
      61 ∈ clientIdOpts.map DHCPOpt.code ∧
      ∃ out, JsonDHCPLogger recordingSink allocOk 4 [] { log_id := 0 } clientIdTx 0 = some out ∧
        out.ret = TmEcode.TM_ECODE_OK ∧
        out.sink.map (fun d => d.client.keys) = [[]]) ∧
    (WellFormedOpts invalidNameOpts ∧
      encodeOpts invalidNameOpts ++ [255] = [12, 2, 255, 254, 255] ∧
      Holds invalidNameTx.request_buffer (encodeOpts invalidNameOpts ++ [255]) ∧
      invalidNameTx.request_buffer_len = (encodeOpts invalidNameOpts ++ [255]).length ∧
      12 ∈ invalidNameOpts.map DHCPOpt.code ∧
      ∃ out, JsonDHCPLogger recordingSink allocOk 4 [] { log_id := 0 } invalidNameTx 0 =
          some out ∧
        out.ret = TmEcode.TM_ECODE_OK ∧
        out.sink.map (fun d => d.client.keys) = [[]]) :=
  ⟨⟨by unfold WellFormedOpts; decide, holds_bufferOf _ _ (by decide), rfl, by decide,
      _, rfl, rfl, by decide⟩,
    ⟨by unfold WellFormedOpts; decide, by decide, holds_bufferOf _ _ (by decide), rfl,
      by decide, _, rfl, rfl, by decide⟩⟩

/-- C6 as amended: for a transaction that is logged (not logged before, `tx_id` at or past
`log_id`, the objects and arrays allocated) and whose two buffers hold well-formed
records and a terminator, the field names of the client object are exactly the names
mapped from the request records, where a record of code 61 has the name "client_id"
only when the byte after its length byte is 1 and a record of code 12 or 60 has its
name only when its value bytes, up to the first zero byte, are valid UTF-8, and the
field names of the server object are exactly the names mapped from the response
records; a code outside the recognised set has no name. -/
theorem JsonDHCPLogger_field_names {σ : Type} (OutputJSONBuffer : Document → σ → σ × Int)
    (alloc : JsonAlloc) (js : JsonObject) (fuel : Nat) (sink : σ) (state : DHCPState)
    (tx : DHCPTransaction) (tx_id : Nat) (reqOpts rspOpts : List DHCPOpt)
    (reqTail rspTail : List Nat)
    (hlog : tx.logged = 0) (hid : state.log_id ≤ tx_id) (halloc : alloc.Succeeds js)
    (hparms : ∀ p, alloc.parmsjs p = true)
    (hreqwf : WellFormedOpts reqOpts) (hrspwf : WellFormedOpts rspOpts)
    (hreq : Holds tx.request_buffer (encodeOpts reqOpts ++ 255 :: reqTail))
    (hreqlen : tx.request_buffer_len = (encodeOpts reqOpts ++ 255 :: reqTail).length)
    (hrsp : Holds tx.response_buffer (encodeOpts rspOpts ++ 255 :: rspTail))
    (hrsplen : tx.response_buffer_len = (encodeOpts rspOpts ++ 255 :: rspTail).length)
    (hlen : tx.request_buffer_len + 257 < 2 ^ 32 ∧ tx.response_buffer_len + 257 < 2 ^ 32)
    (hfuel : reqOpts.length + 2 ≤ fuel ∧ rspOpts.length + 2 ≤ fuel) :
    ∃ out doc, JsonDHCPLogger OutputJSONBuffer alloc fuel sink state tx tx_id = some out ∧
      out.sink = (OutputJSONBuffer doc sink).1 ∧
      (∀ k, k ∈ doc.client.keys ↔ k ∈ requestNames reqOpts reqTail) ∧
      (∀ k, k ∈ doc.server.keys ↔ k ∈ responseNames rspOpts) := by
  obtain ⟨req, hr, hrk⟩ := requestLoop_wellFormed_keys alloc.parmsjs hparms tx.request_buffer
    reqOpts reqTail fuel hreqwf hreq (by rw [← hreqlen]; exact hlen.1) hfuel.1
  obtain ⟨rsp, hp, hpk⟩ := responseLoop_wellFormed_keys tx.response_buffer
    rspOpts rspTail fuel hrspwf hrsp (by rw [← hrsplen]; exact hlen.2) hfuel.2
  rw [← hreqlen] at hr
  rw [← hrsplen] at hp
  exact ⟨_, _, JsonDHCPLogger_eq_emit OutputJSONBuffer alloc js fuel sink state tx tx_id req rsp
    hlog hid halloc hr hp, rfl, hrk, hpk⟩

/-- C6 as amended, at the sample transaction: the client object has the fields "type"
and "client_id", the server object "type" and "lease_time"; the codes 99 and 200
give no field. -/
theorem JsonDHCPLogger_field_names_witness :
    requestNames sampleRequestOpts [] = ["type", "client_id"] ∧
      responseNames sampleResponseOpts = ["type", "lease_time"] ∧
      ∃ out doc, JsonDHCPLogger recordingSink allocOk 5 [] { log_id := 2 } sampleTx 4 = some out ∧
        out.sink = (recordingSink doc []).1 ∧
        (∀ k, k ∈ doc.client.keys ↔ k ∈ requestNames sampleRequestOpts []) ∧
        (∀ k, k ∈ doc.server.keys ↔ k ∈ responseNames sampleResponseOpts) :=
  ⟨by decide, by decide,
    JsonDHCPLogger_field_names recordingSink allocOk [] 5 [] { log_id := 2 } sampleTx 4
      sampleRequestOpts sampleResponseOpts [] [] rfl (by decide) ⟨rfl, rfl, rfl, rfl⟩
      (fun _ => rfl) (by unfold WellFormedOpts; decide) (by unfold WellFormedOpts; decide)
      (holds_bufferOf _ _ (by decide)) rfl (holds_bufferOf _ _ (by decide)) rfl
      (by decide) (by decide)⟩

/-- C7: for a transaction that is not yet logged and has `tx_id >= log_id`, with the
allocations succeeding (and buffer lengths that leave the 32-bit offset room for one
more advance), the call hands one document to the sink, the same whatever the sink
is, and returns `TM_ECODE_OK` with `logged = 1` and `log_id` advanced by one: nothing
of this depends on what the write to the sink returns. -/
theorem JsonDHCPLogger_emits_one_document (alloc : JsonAlloc) (js : JsonObject) (fuel : Nat)
    (state : DHCPState) (tx : DHCPTransaction) (tx_id : Nat)
    (hlog : tx.logged = 0) (hid : state.log_id ≤ tx_id) (halloc : alloc.Succeeds js)
    (hlen : tx.request_buffer_len + 257 < 2 ^ 32 ∧ tx.response_buffer_len + 257 < 2 ^ 32)
    (hfuel : tx.request_buffer_len + 2 ≤ fuel ∧ tx.response_buffer_len + 2 ≤ fuel) :
    ∃ doc : Document, ∀ (σ : Type) (OutputJSONBuffer : Document → σ → σ × Int) (sink : σ),
      ∃ out, JsonDHCPLogger OutputJSONBuffer alloc fuel sink state tx tx_id = some out ∧
        out.ret = TmEcode.TM_ECODE_OK ∧ out.tx.logged = 1 ∧
        out.state.log_id = state.log_id + 1 ∧ out.sink = (OutputJSONBuffer doc sink).1 := by
  obtain ⟨req, hr⟩ := optionLoop_terminates (requestOption alloc.parmsjs) tx.request_buffer
    tx.request_buffer_len hlen.1 fuel optStart (by omega) (by simp [optStart]; omega)
  obtain ⟨rsp, hp⟩ := optionLoop_terminates responseOption tx.response_buffer
    tx.response_buffer_len hlen.2 fuel optStart (by omega) (by simp [optStart]; omega)
  refine ⟨{ header := js, xid := json_integer (ntohl tx.xid), client := req.js,
            server := rsp.js }, ?_⟩
  intro σ W sink
  exact ⟨_, JsonDHCPLogger_eq_emit W alloc js fuel sink state tx tx_id req rsp hlog hid halloc
    hr hp, rfl, rfl, rfl, rfl⟩

/-- C7 at the sample transaction, `tx_id = 4` and `log_id = 2`. -/
theorem JsonDHCPLogger_emits_one_document_witness :
    ∃ doc : Document, ∀ (σ : Type) (OutputJSONBuffer : Document → σ → σ × Int) (sink : σ),
      ∃ out, JsonDHCPLogger OutputJSONBuffer allocOk 20 sink { log_id := 2 } sampleTx 4 =
          some out ∧
        out.ret = TmEcode.TM_ECODE_OK ∧ out.tx.logged = 1 ∧
        out.state.log_id = 2 + 1 ∧ out.sink = (OutputJSONBuffer doc sink).1 :=
  JsonDHCPLogger_emits_one_document allocOk [] 20 { log_id := 2 } sampleTx 4 rfl (by decide)
    ⟨rfl, rfl, rfl, rfl⟩ (by decide) (by decide)

/-! ## The socket writer -/

theorem SCLogUnixSocketReconnect_dropped (env : Env) (m : Nat) (ctx : LogFileCtx) (w : World) :
    (SCLogUnixSocketReconnect env m ctx w).2.1.dropped = ctx.dropped := by
  unfold SCLogUnixSocketReconnect
  cases hfp : ctx.fp <;> simp only [] <;> split <;> rfl

theorem accounted_dropEvent (ctx c : LogFileCtx) (w : World) (h : c.dropped = ctx.dropped) :
    Accounted ctx (dropEvent c w) :=
  ⟨_, _, _, rfl, Or.inr ⟨rfl, by simp [h]⟩⟩

theorem tryagain_accounted_retry (env : Env) (m : Nat) (buffer : List Nat) (fuel tries : Nat)
    (ctx c : LogFileCtx) (w : World) (ht : tries ≠ 0) (h : c.dropped = ctx.dropped) :
    Accounted ctx (SCLogFileWriteSocket_tryagain env m buffer (fuel + 1) tries c w) := by
  unfold SCLogFileWriteSocket_tryagain
  cases hfp : c.fp with
  | none => exact accounted_dropEvent ctx c w h
  | some fp =>
    simp only []
    cases hs : env.sendResult w.sends with
    | sent n => exact ⟨_, _, _, rfl, Or.inl ⟨rfl, h⟩⟩
    | failed e =>
      simp only [ht, if_false]
      split_ifs <;> exact accounted_dropEvent ctx c _ h

theorem tryagain_accounted (env : Env) (m : Nat) (buffer : List Nat) (fuel : Nat)
    (ctx c : LogFileCtx) (w : World) (h : c.dropped = ctx.dropped) :
    Accounted ctx (SCLogFileWriteSocket_tryagain env m buffer (fuel + 2) 0 c w) := by
  unfold SCLogFileWriteSocket_tryagain
  cases hfp : c.fp with
  | none => exact accounted_dropEvent ctx c w h
  | some fp =>
    simp only []
    cases hs : env.sendResult w.sends with
    | sent n => exact ⟨_, _, _, rfl, Or.inl ⟨rfl, h⟩⟩
    | failed e =>
      simp only [if_true]
      split_ifs
      · exact accounted_dropEvent ctx c _ h
      · exact tryagain_accounted_retry env m buffer fuel 1 ctx c _ (by decide) h
      · exact tryagain_accounted_retry env m buffer fuel 1 ctx _ _ (by decide)
          ((SCLogUnixSocketReconnect_dropped env m c _).trans h)
      · exact accounted_dropEvent ctx _ _ ((SCLogUnixSocketReconnect_dropped env m c _).trans h)

theorem SCLogFileWriteSocket_accounted (env : Env) (m : Nat) (fuel : Nat) (hfuel : 2 ≤ fuel)
    (buffer : List Nat) (ctx : LogFileCtx) (w : World) :
    Accounted ctx (SCLogFileWriteSocket env m fuel buffer ctx w) := by
  obtain ⟨f, rfl⟩ : ∃ f, fuel = f + 2 := ⟨fuel - 2, by omega⟩
  unfold SCLogFileWriteSocket
  split_ifs
  · exact tryagain_accounted env m buffer f ctx _ _ (SCLogUnixSocketReconnect_dropped env m ctx w)
  · exact tryagain_accounted env m buffer f ctx ctx w rfl

theorem socketWrites_accounted (env : Env) (m : Nat) (fuel : Nat) (hfuel : 2 ≤ fuel) :
    ∀ (buffers : List (List Nat)) (ctx : LogFileCtx) (w : World),
      ∃ rets ctx' w', socketWrites env m fuel buffers ctx w = some (rets, ctx', w') ∧
        rets.length = buffers.length ∧ ctx'.dropped = ctx.dropped + rets.count (-1) ∧
        rets.count 0 + rets.count (-1) = rets.length := by
  intro buffers
  induction buffers with
  | nil => intro ctx w; exact ⟨[], ctx, w, rfl, rfl, rfl, rfl⟩
  | cons b bs ih =>
    intro ctx w
    obtain ⟨ret, c1, w1, h1, hacc⟩ := SCLogFileWriteSocket_accounted env m fuel hfuel b ctx w
    obtain ⟨rets, c2, w2, h2, hl, hd, hc⟩ := ih c1 w1
    refine ⟨ret :: rets, c2, w2, by simp [socketWrites, h1, h2], by simp [hl], ?_, ?_⟩
    · rcases hacc with ⟨rfl, hr⟩ | ⟨rfl, hr⟩
      · simp [hd, hr]
      · simp [hd, hr]; omega
    · rcases hacc with ⟨rfl, _⟩ | ⟨rfl, _⟩
      · simp; omega
      · simp; omega

/-- C8: one call of `SCLogFileWriteSocket` returns -1 or 0; it returns -1 exactly when it
has incremented `dropped` by one and 0 exactly when it has left `dropped` unchanged.
Over a sequence of calls on one sink the counter therefore grows by the number of
calls that returned -1, and the calls that returned 0 add nothing. -/
theorem SCLogFileWriteSocket_dropped_counts (env : Env) (LOGFILE_RECONN_MIN_TIME : Nat)
    (fuel : Nat) (hfuel : 2 ≤ fuel) :
    (∀ (buffer : List Nat) (ctx : LogFileCtx) (w : World),
      ∃ ret ctx' w', SCLogFileWriteSocket env LOGFILE_RECONN_MIN_TIME fuel buffer ctx w =
          some (ret, ctx', w') ∧
        (ret = -1 ∨ ret = 0) ∧ (ret = -1 ↔ ctx'.dropped = ctx.dropped + 1) ∧
        (ret = 0 ↔ ctx'.dropped = ctx.dropped)) ∧
      (∀ (buffers : List (List Nat)) (ctx : LogFileCtx) (w : World),
        ∃ rets ctx' w', socketWrites env LOGFILE_RECONN_MIN_TIME fuel buffers ctx w =
            some (rets, ctx', w') ∧
          rets.length = buffers.length ∧ rets.count 0 + rets.count (-1) = rets.length ∧
          ctx'.dropped = ctx.dropped + rets.count (-1)) := by
  constructor
  · intro buffer ctx w
    obtain ⟨ret, c1, w1, h1, hacc⟩ :=
      SCLogFileWriteSocket_accounted env LOGFILE_RECONN_MIN_TIME fuel hfuel buffer ctx w
    refine ⟨ret, c1, w1, h1, ?_⟩
    rcases hacc with ⟨rfl, hr⟩ | ⟨rfl, hr⟩
    · simp [hr]
    · simp [hr]
  · intro buffers ctx w
    obtain ⟨rets, c2, w2, h2, hl, hd, hc⟩ :=
      socketWrites_accounted env LOGFILE_RECONN_MIN_TIME fuel hfuel buffers ctx w
    exact ⟨rets, c2, w2, h2, hl, hc, hd⟩

theorem endsAtWouldBlock_append (pre evs : List SysEvent)
    (hpre : ∀ ev ∈ pre, ev.wouldBlock = false) (h : EndsAtWouldBlock evs) :
    EndsAtWouldBlock (pre ++ evs) := by
  induction pre with
  | nil => simpa using h
  | cons a pre ih =>
    have ha : a.wouldBlock = false := hpre a (List.mem_cons_self _ _)
    refine ⟨fun hc => by simp [ha] at hc, ih (fun ev hev => hpre ev (List.mem_cons_of_mem _ hev))⟩

theorem dropsAtWouldBlock_extend (base : LogFileCtx) (w w1 : World) (pre : List SysEvent)
    (r : Option (Int × LogFileCtx × World))
    (hpre : ∀ ev ∈ pre, ev.wouldBlock = false) (hw : w1.trace = w.trace ++ pre)
    (h : DropsAtWouldBlock base w1 r) : DropsAtWouldBlock base w r := by
  obtain ⟨ret, c', w', evs, hr, ht, he, hd⟩ := h
  refine ⟨ret, c', w', pre ++ evs, hr, by rw [ht, hw, List.append_assoc],
    endsAtWouldBlock_append pre evs hpre he, ?_⟩
  intro ev hev hwb
  rcases List.mem_append.mp hev with hp | hp
  · rw [hpre ev hp] at hwb; exact absurd hwb (by decide)
  · exact hd ev hp hwb

theorem dropsAtWouldBlock_dropEvent (base c : LogFileCtx) (w : World) :
    DropsAtWouldBlock base w (dropEvent c w) :=
  ⟨_, _, _, [], rfl, by simp, trivial, fun ev hev => by simp at hev⟩

theorem tryagain_dropsAtWouldBlock_retry (env : Env) (m : Nat) (buffer : List Nat)
    (fuel tries : Nat) (base c : LogFileCtx) (w : World) (ht : tries ≠ 0)
    (h : c.dropped = base.dropped) :
    DropsAtWouldBlock base w (SCLogFileWriteSocket_tryagain env m buffer (fuel + 1) tries c w) := by
  unfold SCLogFileWriteSocket_tryagain
  cases hfp : c.fp with
  | none => exact dropsAtWouldBlock_dropEvent base c w
  | some fp =>
    simp only []
    cases hs : env.sendResult w.sends with
    | sent n =>
      exact ⟨_, _, _, [SysEvent.send fp buffer c.send_flags (SendResult.sent n)], rfl, rfl,
        ⟨fun hc => by simp [SysEvent.wouldBlock] at hc, trivial⟩,
        fun ev hev hwb => by
          simp only [List.mem_singleton] at hev
          subst hev
          simp [SysEvent.wouldBlock] at hwb⟩
    | failed e =>
      refine ⟨-1, { c with dropped := c.dropped + 1 },
        { w with sends := w.sends + 1
                 trace := w.trace ++ [SysEvent.send fp buffer c.send_flags (SendResult.failed e)] },
        [SysEvent.send fp buffer c.send_flags (SendResult.failed e)], ?_, rfl,
        ⟨fun _ => rfl, trivial⟩, ?_⟩
      · simp only [ht, if_false]
        split_ifs <;> rfl
      · intro ev hev _
        simp only [List.mem_singleton] at hev
        subst hev
        exact ⟨rfl, by simp [h], by simp [hfp, SysEvent.sendHandle]⟩

theorem SCLogOpenUnixSocketFp_world (env : Env) (path : Option String) (sock_type : Nat)
    (w : World) :
    (SCLogOpenUnixSocketFp env path sock_type w).2 =
      { w with connects := w.connects + 1
               trace := w.trace ++
                 [SysEvent.openSocket path sock_type (env.connectResult w.connects)] } := by
  unfold SCLogOpenUnixSocketFp
  cases env.connectResult w.connects <;> rfl

theorem SCLogUnixSocketReconnect_trace (env : Env) (m : Nat) (ctx : LogFileCtx) (w : World) :
    ∃ pre, (SCLogUnixSocketReconnect env m ctx w).2.2.trace = w.trace ++ pre ∧
      ∀ ev ∈ pre, ev.wouldBlock = false := by
  unfold SCLogUnixSocketReconnect
  simp only [SCLogOpenUnixSocketFp_world]
  cases hfp : ctx.fp with
  | none =>
    simp only []
    split
    · exact ⟨[SysEvent.gettimeofday (env.timeofday w.clocks).1 (env.timeofday w.clocks).2], rfl,
        by simp [SysEvent.wouldBlock]⟩
    · exact ⟨[SysEvent.gettimeofday (env.timeofday w.clocks).1 (env.timeofday w.clocks).2,
          SysEvent.openSocket ctx.filename ctx.sock_type (env.connectResult w.connects)],
        by simp, by simp [SysEvent.wouldBlock]⟩
  | some fp =>
    simp only []
    split
    · exact ⟨[SysEvent.fclose fp,
          SysEvent.gettimeofday (env.timeofday w.clocks).1 (env.timeofday w.clocks).2],
        by simp, by simp [SysEvent.wouldBlock]⟩
    · exact ⟨[SysEvent.fclose fp,
          SysEvent.gettimeofday (env.timeofday w.clocks).1 (env.timeofday w.clocks).2,
          SysEvent.openSocket ctx.filename ctx.sock_type (env.connectResult w.connects)],
        by simp, by simp [SysEvent.wouldBlock]⟩

theorem tryagain_dropsAtWouldBlock (env : Env) (m : Nat) (buffer : List Nat) (fuel : Nat)
    (base c : LogFileCtx) (w : World) (h : c.dropped = base.dropped) :
    DropsAtWouldBlock base w (SCLogFileWriteSocket_tryagain env m buffer (fuel + 2) 0 c w) := by
  cases hfp : c.fp with
  | none =>
    unfold SCLogFileWriteSocket_tryagain
    simp only [hfp]
    exact dropsAtWouldBlock_dropEvent base c w
  | some fp =>
    cases hs : env.sendResult w.sends with
    | sent n =>
      have := tryagain_dropsAtWouldBlock_retry env m buffer (fuel + 1) 1 base c w (by decide) h
      unfold SCLogFileWriteSocket_tryagain at this ⊢
      simpa only [hfp, hs] using this
    | failed e =>
      by_cases hwb : e = Errno.EAGAIN ∨ e = Errno.EWOULDBLOCK
      · have := tryagain_dropsAtWouldBlock_retry env m buffer (fuel + 1) 1 base c w (by decide) h
        unfold SCLogFileWriteSocket_tryagain at this ⊢
        simpa only [hfp, hs, hwb, if_true] using this
      · have hnb : (SysEvent.send fp buffer c.send_flags (SendResult.failed e)).wouldBlock
            = false := by
          cases e <;> simp_all [SysEvent.wouldBlock]
        unfold SCLogFileWriteSocket_tryagain
        simp only [hfp, hs, hwb, if_false, if_true]
        split_ifs
        · exact dropsAtWouldBlock_extend base w _ [_] _ (by simpa using hnb) rfl
            (tryagain_dropsAtWouldBlock_retry env m buffer fuel 1 base c _ (by decide) h)
        · obtain ⟨pre, hp, hpre⟩ := SCLogUnixSocketReconnect_trace env m c
            { w with sends := w.sends + 1
                     trace := w.trace ++ [SysEvent.send fp buffer c.send_flags (SendResult.failed e)] }
          exact dropsAtWouldBlock_extend base w _ (_ :: pre) _
            (by intro ev hev; rcases List.mem_cons.mp hev with rfl | hev
                · exact hnb
                · exact hpre ev hev)
            (by rw [hp]; simp)
            (tryagain_dropsAtWouldBlock_retry env m buffer fuel 1 base _ _ (by decide)
              ((SCLogUnixSocketReconnect_dropped env m c _).trans h))
        · obtain ⟨pre, hp, hpre⟩ := SCLogUnixSocketReconnect_trace env m c
            { w with sends := w.sends + 1
                     trace := w.trace ++ [SysEvent.send fp buffer c.send_flags (SendResult.failed e)] }
          exact dropsAtWouldBlock_extend base w _ (_ :: pre) _
            (by intro ev hev; rcases List.mem_cons.mp hev with rfl | hev
                · exact hnb
                · exact hpre ev hev)
            (by rw [hp]; simp)
            (dropsAtWouldBlock_dropEvent base _ _)

/-- C9: on a connected socket sink, when the first `send` of a call fails with an error
other than would-block or interrupted, the stream is closed and one connection is
attempted. When it succeeds, `send` is called once more on the new stream: if that
fails too, whatever the error, the call returns -1 with `dropped` incremented by one
and makes no further call; if it succeeds the call returns 0. When the connection
fails the call returns -1 with `dropped` incremented by one and no further `send`. -/
theorem SCLogFileWriteSocket_reconnects_once (env : Env) (LOGFILE_RECONN_MIN_TIME : Nat)
    (fuel : Nat) (buffer : List Nat) (ctx : LogFileCtx) (w : World) (fp errno : Nat)
    (hfuel : 2 ≤ fuel) (hfp : ctx.fp = some fp)
    (hfirst : env.sendResult w.sends = SendResult.failed (Errno.other errno)) :
    (∀ fp' e, env.connectResult w.connects = ConnectResult.connected fp' →
        env.sendResult (w.sends + 1) = SendResult.failed e →
        SCLogFileWriteSocket env LOGFILE_RECONN_MIN_TIME fuel buffer ctx w =
          some (-1,
            { ctx with fp := some fp', reconn_timer := nowMsec (env.timeofday w.clocks)
                       dropped := ctx.dropped + 1 },
            { sends := w.sends + 2, connects := w.connects + 1, clocks := w.clocks + 1
              trace := w.trace ++
                [SysEvent.send fp buffer ctx.send_flags (SendResult.failed (Errno.other errno))] ++
                reconnectEvents env ctx w fp ++
                [SysEvent.send fp' buffer ctx.send_flags (SendResult.failed e)] })) ∧
      (∀ fp' n, env.connectResult w.connects = ConnectResult.connected fp' →
        env.sendResult (w.sends + 1) = SendResult.sent n →
        SCLogFileWriteSocket env LOGFILE_RECONN_MIN_TIME fuel buffer ctx w =
          some (0,
            { ctx with fp := some fp', reconn_timer := nowMsec (env.timeofday w.clocks) },
            { sends := w.sends + 2, connects := w.connects + 1, clocks := w.clocks + 1
              trace := w.trace ++
                [SysEvent.send fp buffer ctx.send_flags (SendResult.failed (Errno.other errno))] ++
                reconnectEvents env ctx w fp ++
                [SysEvent.send fp' buffer ctx.send_flags (SendResult.sent n)] })) ∧
      ((∀ fp', env.connectResult w.connects ≠ ConnectResult.connected fp') →
        SCLogFileWriteSocket env LOGFILE_RECONN_MIN_TIME fuel buffer ctx w =
          some (-1,
            { ctx with fp := none, reconn_timer := nowMsec (env.timeofday w.clocks)
                       dropped := ctx.dropped + 1 },
            { sends := w.sends + 1, connects := w.connects + 1, clocks := w.clocks + 1
              trace := w.trace ++
                [SysEvent.send fp buffer ctx.send_flags (SendResult.failed (Errno.other errno))] ++
                reconnectEvents env ctx w fp })) := by
  obtain ⟨f, rfl⟩ : ∃ f, fuel = f + 2 := ⟨fuel - 2, by omega⟩
  refine ⟨?_, ?_, ?_⟩
  · intro fp' e hc hs
    cases e <;>
      simp [SCLogFileWriteSocket, SCLogFileWriteSocket_tryagain, SCLogUnixSocketReconnect,
        SCLogOpenUnixSocketFp, dropEvent, reconnectEvents, hfp, hfirst, hc, hs]
  · intro fp' n hc hs
    simp [SCLogFileWriteSocket, SCLogFileWriteSocket_tryagain, SCLogUnixSocketReconnect,
      SCLogOpenUnixSocketFp, dropEvent, reconnectEvents, hfp, hfirst, hc, hs]
  · intro hc
    cases hr : env.connectResult w.connects with
    | connected fp' => exact absurd hr (hc fp')
    | _ =>
      simp [SCLogFileWriteSocket, SCLogFileWriteSocket_tryagain, SCLogUnixSocketReconnect,
        SCLogOpenUnixSocketFp, dropEvent, reconnectEvents, hfp, hfirst, hr]

/-- C10: on a connected socket sink, a first `send` that fails with `EAGAIN` or
`EWOULDBLOCK` ends the call at once: that `send` is its only system call, the stream
stays as it is, the call returns -1 and `dropped` grows by one. More generally, in
every call nothing follows a `send` that failed with would-block, and after such a
`send` the call returns -1 with `dropped` incremented by one and the stream it used
still open. -/
theorem SCLogFileWriteSocket_would_block_drops (env : Env) (LOGFILE_RECONN_MIN_TIME : Nat)
    (fuel : Nat) (buffer : List Nat) (ctx : LogFileCtx) (w : World) (fp : Nat)
    (hfuel : 2 ≤ fuel) (hfp : ctx.fp = some fp) :
    (∀ e, e = Errno.EAGAIN ∨ e = Errno.EWOULDBLOCK →
        env.sendResult w.sends = SendResult.failed e →
        SCLogFileWriteSocket env LOGFILE_RECONN_MIN_TIME fuel buffer ctx w =
          some (-1, { ctx with dropped := ctx.dropped + 1 },
            { w with sends := w.sends + 1
                     trace := w.trace ++
                       [SysEvent.send fp buffer ctx.send_flags (SendResult.failed e)] })) ∧
      ∃ ret ctx' w' evs,
        SCLogFileWriteSocket env LOGFILE_RECONN_MIN_TIME fuel buffer ctx w =
          some (ret, ctx', w') ∧
        w'.trace = w.trace ++ evs ∧ EndsAtWouldBlock evs ∧
        ∀ ev ∈ evs, ev.wouldBlock = true →
          ret = -1 ∧ ctx'.dropped = ctx.dropped + 1 ∧ ctx'.fp = ev.sendHandle := by
  obtain ⟨f, rfl⟩ : ∃ f, fuel = f + 2 := ⟨fuel - 2, by omega⟩
  constructor
  · intro e he hs
    rcases he with rfl | rfl <;>
      simp [SCLogFileWriteSocket, SCLogFileWriteSocket_tryagain, dropEvent, hfp, hs]
  · have := tryagain_dropsAtWouldBlock env LOGFILE_RECONN_MIN_TIME buffer f ctx ctx w rfl
    unfold SCLogFileWriteSocket
    simpa only [hfp, reduceCtorEq, false_and, if_false] using this

/-- C8 at three writes in the flaky environment: the first is dropped, the next two are
delivered, and the counter ends at 1. -/
theorem SCLogFileWriteSocket_dropped_counts_witness :
    (2 : Nat) ≤ 2 ∧
      ∃ rets ctx' w', socketWrites flakyEnv 500 2 [[1, 2], [3], [4]] connectedCtx startWorld =
          some (rets, ctx', w') ∧
        rets.length = [[1, 2], [3], [4]].length ∧ rets.count 0 + rets.count (-1) = rets.length ∧
        ctx'.dropped = connectedCtx.dropped + rets.count (-1) :=
  ⟨by decide,
    (SCLogFileWriteSocket_dropped_counts flakyEnv 500 2 (by decide)).2 [[1, 2], [3], [4]]
      connectedCtx startWorld⟩

/-- C9 in the flaky environment: the first `send` fails with errno 32, the stream 3 is
closed, the connection gives the stream 10, the second `send` is interrupted and the
event is dropped. -/
theorem SCLogFileWriteSocket_reconnects_once_witness :
    SCLogFileWriteSocket flakyEnv 500 2 [1, 2] connectedCtx startWorld =
      some (-1,
        { connectedCtx with fp := some 10, reconn_timer := 100000, dropped := 1 },
        { sends := 2, connects := 1, clocks := 1
          trace := [SysEvent.send 3 [1, 2] 0 (SendResult.failed (Errno.other 32)),
            SysEvent.fclose 3, SysEvent.gettimeofday 100 0,
            SysEvent.openSocket none 0 (ConnectResult.connected 10),
            SysEvent.send 10 [1, 2] 0 (SendResult.failed Errno.EINTR)] }) :=
  (SCLogFileWriteSocket_reconnects_once flakyEnv 500 2 [1, 2] connectedCtx startWorld 3 32
    (by decide) rfl rfl).1 10 Errno.EINTR rfl rfl

/-- C10 in the blocking environment: one `send`, no reconnection, the stream 3 kept, the
return value -1 and one drop. -/
theorem SCLogFileWriteSocket_would_block_drops_witness :
    SCLogFileWriteSocket blockingEnv 500 2 [1, 2] connectedCtx startWorld =
      some (-1, { connectedCtx with dropped := 1 },
        { sends := 1, connects := 0, clocks := 0
          trace := [SysEvent.send 3 [1, 2] 0 (SendResult.failed Errno.EAGAIN)] }) :=
  (SCLogFileWriteSocket_would_block_drops blockingEnv 500 2 [1, 2] connectedCtx startWorld 3
    (by decide) rfl).1 Errno.EAGAIN (Or.inl rfl) rfl

/-! ## Termination of the option loops -/

theorem optionLoopRounds_bound (mem : Nat → Nat) (len : Nat) (hlen : len + 257 < 2 ^ 32) :
    ∀ (fuel : Nat) (s : OptCursor), 1 ≤ fuel →
      (s.offset ≤ len → (len - s.offset) / 2 + 2 ≤ fuel) →
      ∃ k, optionLoopRounds mem len fuel s = some k ∧
        (len < s.offset → k = 0) ∧ (s.offset ≤ len → k ≤ (len - s.offset) / 2 + 1) := by
  intro fuel
  induction fuel with
  | zero => intro s h; omega
  | succ f ih =>
    intro s _ hf
    unfold optionLoopRounds
    by_cases hend : JsonDHCPOptEnd mem s.dhcp_opt = true
    · exact ⟨0, by rw [if_pos hend], fun _ => rfl, fun _ => by omega⟩
    · by_cases hoff : len < s.offset
      · exact ⟨0, by rw [if_neg hend, if_pos hoff], fun _ => rfl, fun _ => by omega⟩
      · have hle : s.offset ≤ len := Nat.le_of_not_lt hoff
        have hb := optAdvance_bounds mem s.offset
        have hmod : (s.offset + optAdvance mem s.offset) % 2 ^ 32 =
            s.offset + optAdvance mem s.offset := Nat.mod_eq_of_lt (by omega)
        have hfu := hf hle
        obtain ⟨k, hk, hk0, hk1⟩ := ih
          { s with offset := (s.offset + optAdvance mem s.offset) % 2 ^ 32
                   dhcp_opt := s.offset } (by omega)
          (by simp only [hmod]; intro h; omega)
        refine ⟨k + 1, by rw [if_neg hend, if_neg hoff, hk]; rfl, fun h => by omega, fun _ => ?_⟩
        simp only [hmod] at hk0 hk1
        by_cases hnext : len < s.offset + optAdvance mem s.offset
        · have := hk0 hnext; omega
        · have := hk1 (by omega); omega

/-- The loop and its round counter return with the same fuel, whatever the fold. -/
theorem optionLoop_isSome_iff_rounds (fold : (Nat → Nat) → Nat → JsonObject → JsonObject × List Nat)
    (mem : Nat → Nat) (len : Nat) :
    ∀ (fuel : Nat) (s : OptCursor) (js : JsonObject) (rd : List Nat),
      (optionLoop fold mem len fuel s).isSome =
        (optionLoopRounds mem len fuel { s with js := js, reads := rd }).isSome := by
  intro fuel
  induction fuel with
  | zero => intro s js rd; rfl
  | succ f ih =>
    intro s js rd
    unfold optionLoop optionLoopRounds
    by_cases hend : JsonDHCPOptEnd mem s.dhcp_opt = true
    · rw [if_pos hend, if_pos hend]; rfl
    · by_cases hoff : len < s.offset
      · rw [if_neg hend, if_pos hoff, if_neg hend, if_pos hoff]; rfl
      · rw [if_neg hend, if_neg hoff, if_neg hend, if_neg hoff, Option.isSome_map']
        exact ih _ _ _

/-- C20: on a buffer of declared length `n` (below `2 ^ 32 - 257`, so that the 32-bit
offset cannot wrap) each option loop returns: the offset grows by at least 2 in every
round, the body runs at most `n / 2 + 1` times, and once the record just handled
carries the terminator code 255 the loop returns without another round; the switch
itself adds no field for a terminator record. -/
theorem optionLoop_terminates_within (arrayOk : Nat → Bool) (mem : Nat → Nat) (n fuel : Nat)
    (hn : n + 257 < 2 ^ 32) (hfuel : n / 2 + 2 ≤ fuel) :
    (∃ req rsp rounds, requestLoop arrayOk mem n fuel = some req ∧
        responseLoop mem n fuel = some rsp ∧
        optionLoopRounds mem n fuel optStart = some rounds ∧ rounds ≤ n / 2 + 1) ∧
      (∀ s : OptCursor, s.offset ≤ n →
        s.offset + 2 ≤ (s.offset + optAdvance mem s.offset) % 2 ^ 32) ∧
      (∀ (fold : (Nat → Nat) → Nat → JsonObject → JsonObject × List Nat) (f : Nat)
          (s : OptCursor), JsonDHCPOptEnd mem s.dhcp_opt = true →
        optionLoop fold mem n (f + 1) s = some { s with reads := s.reads ++ [s.dhcp_opt] } ∧
        optionLoopRounds mem n (f + 1) s = some 0) ∧
      (∀ (p : Nat) (js : JsonObject), JsonDHCPOptEnd mem p = true →
        (requestOption arrayOk mem p js).1 = js ∧ (responseOption mem p js).1 = js) := by
  obtain ⟨k, hk, _, hk1⟩ := optionLoopRounds_bound mem n hn fuel optStart (by omega)
    (by intro _; simp [optStart]; omega)
  have hk2 : k ≤ n / 2 + 1 := by simpa [optStart] using hk1 (by simp [optStart])
  have hreq : (requestLoop arrayOk mem n fuel).isSome = true := by
    unfold requestLoop
    rw [optionLoop_isSome_iff_rounds (requestOption arrayOk) mem n fuel optStart optStart.js
      optStart.reads]
    simpa [optStart] using congrArg Option.isSome hk
  have hrsp : (responseLoop mem n fuel).isSome = true := by
    unfold responseLoop
    rw [optionLoop_isSome_iff_rounds responseOption mem n fuel optStart optStart.js
      optStart.reads]
    simpa [optStart] using congrArg Option.isSome hk
  obtain ⟨req, hreq⟩ := Option.isSome_iff_exists.mp hreq
  obtain ⟨rsp, hrsp⟩ := Option.isSome_iff_exists.mp hrsp
  refine ⟨⟨req, rsp, k, hreq, hrsp, hk, hk2⟩, ?_, ?_, ?_⟩
  · intro s hs
    have hb := optAdvance_bounds mem s.offset
    rw [Nat.mod_eq_of_lt (by omega)]
    omega
  · intro fold f s hend
    exact ⟨optionLoop_end fold mem n f s hend, by unfold optionLoopRounds; rw [if_pos hend]⟩
  · intro p js hend
    have hc : readByte mem p = 255 := by simpa [JsonDHCPOptEnd] using hend
    constructor
    · simp [requestOption, hc]
    · simp [responseOption, hc]

/-- C20 at the request buffer of the host-name scenario (declared length 10): the loops
return with fuel 7 and the body runs three times. -/
theorem optionLoop_terminates_within_witness :
    (10 : Nat) + 257 < 2 ^ 32 ∧ 10 / 2 + 2 ≤ 7 ∧
      optionLoopRounds (bufferOf (hostNameRequest (cstr "host")) 0) 10 7 optStart = some 3 ∧
      ∃ req rsp rounds,
        requestLoop (fun _ => true) (bufferOf (hostNameRequest (cstr "host")) 0) 10 7 = some req ∧
        responseLoop (bufferOf (hostNameRequest (cstr "host")) 0) 10 7 = some rsp ∧
        optionLoopRounds (bufferOf (hostNameRequest (cstr "host")) 0) 10 7 optStart =
          some rounds ∧
        rounds ≤ 10 / 2 + 1 :=
  ⟨by decide, by decide, by decide,
    (optionLoop_terminates_within (fun _ => true) (bufferOf (hostNameRequest (cstr "host")) 0)
      10 7 (by decide) (by decide)).1⟩

/-! ## The log cursor -/

theorem JsonDHCPLogger_eq_error {σ : Type} (OutputJSONBuffer : Document → σ → σ × Int)
    (alloc : JsonAlloc) (fuel : Nat) (sink : σ) (state : DHCPState) (tx : DHCPTransaction)
    (tx_id : Nat) (hlog : tx.logged = 0) (hid : state.log_id ≤ tx_id)
    (h : alloc.js = none ∨ alloc.dhcpjs = false ∨ alloc.reqjs = false ∨ alloc.rspjs = false) :
    JsonDHCPLogger OutputJSONBuffer alloc fuel sink state tx tx_id =
      some { ret := TmEcode.TM_ECODE_FAILED, tx := tx, state := state, sink := sink,
             request_reads := [], response_reads := [] } := by
  unfold JsonDHCPLogger
  simp only [hlog, Nat.not_lt.mpr hid, gt_iff_lt, ne_eq, not_true_eq_false, if_false]
  cases hjs : alloc.js with
  | none => rfl
  | some js =>
    simp only []
    rcases h with h | h | h | h
    · rw [hjs] at h; exact absurd h (by simp)
    · simp [h]
    · by_cases h1 : alloc.dhcpjs = true <;> simp [h, h1]
    · by_cases h1 : alloc.dhcpjs = true <;> by_cases h2 : alloc.reqjs = true <;> simp [h, h1, h2]

/-- C19: the session's `log_id` never decreases across a call. A call that skips the
transaction (`tx_id < log_id` or `logged` set) or fails on an allocation leaves
`log_id`, the `logged` flag and the sink as they were; a call that emits (not skipped,
allocations succeeding, the loops returning) writes one document and increases
`log_id` by exactly one. -/
theorem JsonDHCPLogger_log_id_monotone {σ : Type} (OutputJSONBuffer : Document → σ → σ × Int)
    (alloc : JsonAlloc) (fuel : Nat) (sink : σ) (state : DHCPState) (tx : DHCPTransaction)
    (tx_id : Nat) :
    (∀ out, JsonDHCPLogger OutputJSONBuffer alloc fuel sink state tx tx_id = some out →
        state.log_id ≤ out.state.log_id ∧
        (out.state.log_id = state.log_id ∨ out.state.log_id = state.log_id + 1)) ∧
      ((tx_id < state.log_id ∨ tx.logged ≠ 0) →
        JsonDHCPLogger OutputJSONBuffer alloc fuel sink state tx tx_id =
          some { ret := TmEcode.TM_ECODE_OK, tx := tx, state := state, sink := sink,
                 request_reads := [], response_reads := [] }) ∧
      (tx.logged = 0 → state.log_id ≤ tx_id →
        (alloc.js = none ∨ alloc.dhcpjs = false ∨ alloc.reqjs = false ∨ alloc.rspjs = false) →
        JsonDHCPLogger OutputJSONBuffer alloc fuel sink state tx tx_id =
          some { ret := TmEcode.TM_ECODE_FAILED, tx := tx, state := state, sink := sink,
                 request_reads := [], response_reads := [] }) ∧
      (∀ js, tx.logged = 0 → state.log_id ≤ tx_id → alloc.Succeeds js →
        tx.request_buffer_len + 257 < 2 ^ 32 → tx.response_buffer_len + 257 < 2 ^ 32 →
        tx.request_buffer_len + 2 ≤ fuel → tx.response_buffer_len + 2 ≤ fuel →
        ∃ out doc, JsonDHCPLogger OutputJSONBuffer alloc fuel sink state tx tx_id = some out ∧
          out.ret = TmEcode.TM_ECODE_OK ∧ out.sink = (OutputJSONBuffer doc sink).1 ∧
          out.tx.logged = 1 ∧ out.state.log_id = state.log_id + 1) := by
  refine ⟨?_, ?_, ?_, ?_⟩
  · intro out h
    rcases JsonDHCPLogger_inv OutputJSONBuffer alloc fuel sink state tx tx_id out h with
      ⟨_, _, h3, _⟩ | ⟨_, _, _, _, h5, _⟩
    · rw [h3]; exact ⟨Nat.le_refl _, Or.inl rfl⟩
    · rw [h5]; exact ⟨Nat.le_succ _, Or.inr rfl⟩
  · exact JsonDHCPLogger_eq_skip OutputJSONBuffer alloc fuel sink state tx tx_id
  · exact JsonDHCPLogger_eq_error OutputJSONBuffer alloc fuel sink state tx tx_id
  · intro js hlog hid halloc hl1 hl2 hf1 hf2
    obtain ⟨req, hr⟩ := optionLoop_terminates (requestOption alloc.parmsjs) tx.request_buffer
      tx.request_buffer_len hl1 fuel optStart (by omega) (by simp [optStart]; omega)
    obtain ⟨rsp, hp⟩ := optionLoop_terminates responseOption tx.response_buffer
      tx.response_buffer_len hl2 fuel optStart (by omega) (by simp [optStart]; omega)
    exact ⟨_, _, JsonDHCPLogger_eq_emit OutputJSONBuffer alloc js fuel sink state tx tx_id
      req rsp hlog hid halloc hr hp, rfl, rfl, rfl, rfl⟩

/-- C19 at a transaction with id 4 in a session whose `log_id` is 2: the call emits one
document to the recording sink and `log_id` becomes 3. -/
theorem JsonDHCPLogger_log_id_monotone_witness :
    ∃ out doc, JsonDHCPLogger recordingSink allocOk 20 [] { log_id := 2 } sampleTx 4 =
        some out ∧
      out.ret = TmEcode.TM_ECODE_OK ∧ out.sink = (recordingSink doc []).1 ∧
      out.tx.logged = 1 ∧ out.state.log_id = 2 + 1 :=
  (JsonDHCPLogger_log_id_monotone recordingSink allocOk 20 [] { log_id := 2 } sampleTx
    4).2.2.2 [] rfl (by decide) ⟨rfl, rfl, rfl, rfl⟩ (by decide) (by decide) (by decide)
    (by decide)

/-! ## The spacing of connection attempts -/

theorem spacedAttempts_append (minTime : Nat) (ex : Bool) :
    ∀ (a b : List SysEvent) (st : AttemptScan),
      SpacedAttempts minTime ex st (a ++ b) ↔
        SpacedAttempts minTime ex st a ∧ SpacedAttempts minTime ex (st.run a) b := by
  intro a
  induction a with
  | nil => intro b st; simp [SpacedAttempts, AttemptScan.run]
  | cons ev a ih =>
    intro b st
    rw [show SpacedAttempts minTime ex st (ev :: a ++ b) =
        (AttemptScan.allows minTime ex st ev ∧
          SpacedAttempts minTime ex (st.step ev) (a ++ b)) from rfl,
      ih b (st.step ev),
      show SpacedAttempts minTime ex st (ev :: a) =
        (AttemptScan.allows minTime ex st ev ∧
          SpacedAttempts minTime ex (st.step ev) a) from rfl,
      and_assoc]
    rfl

theorem attemptScan_run_append (st : AttemptScan) (a b : List SysEvent) :
    st.run (a ++ b) = (st.run a).run b := by
  simp [AttemptScan.run, List.foldl_append]

/-- One call of `SCLogUnixSocketReconnect` keeps the spacing and the link between the
sink and the reader's memory. -/
theorem SCLogUnixSocketReconnect_spaced (env : Env) (m : Nat) (hclock : ClockAdvances env)
    (ctx : LogFileCtx) (w : World) (st : AttemptScan) (h : TimerTracks env ctx w st) :
    ∃ evs, (SCLogUnixSocketReconnect env m ctx w).2.2.trace = w.trace ++ evs ∧
      SpacedAttempts m true st evs ∧
      TimerTracks env (SCLogUnixSocketReconnect env m ctx w).2.1
        (SCLogUnixSocketReconnect env m ctx w).2.2 (st.run evs) := by
  obtain ⟨hmono, hpos⟩ := hclock
  obtain ⟨hcl, hlast⟩ := h
  have hnow : nowMsec (env.timeofday w.clocks) < 2 ^ 64 := Nat.mod_lt _ (by norm_num)
  unfold SCLogUnixSocketReconnect
  simp only [SCLogOpenUnixSocketFp_world]
  cases hfp : ctx.fp with
  | some fp =>
    simp only [ne_eq, not_true_eq_false, false_and, if_false]
    refine ⟨[SysEvent.fclose fp,
      SysEvent.gettimeofday (env.timeofday w.clocks).1 (env.timeofday w.clocks).2,
      SysEvent.openSocket ctx.filename ctx.sock_type (env.connectResult w.connects)],
      by simp, ?_, ?_⟩
    · simp [SpacedAttempts, AttemptScan.allows, AttemptScan.step]
    · refine ⟨by simp [AttemptScan.run, AttemptScan.step], ?_⟩
      intro t ht
      simp only [AttemptScan.run, List.foldl_cons, List.foldl_nil, AttemptScan.step,
        Option.some.injEq] at ht
      subst ht
      exact ⟨rfl, hpos _, fun k hk => hmono _ _ (by simp at hk; omega)⟩
  | none =>
    simp only []
    split
    · rename_i hthr
      refine ⟨[SysEvent.gettimeofday (env.timeofday w.clocks).1 (env.timeofday w.clocks).2],
        rfl, by simp [SpacedAttempts, AttemptScan.allows], ?_⟩
      refine ⟨by simp [AttemptScan.run, AttemptScan.step, hcl], ?_⟩
      intro t ht
      simp only [AttemptScan.run, List.foldl_cons, List.foldl_nil, AttemptScan.step] at ht
      obtain ⟨h1, h2, h3⟩ := hlast t ht
      exact ⟨h1, h2, fun k hk => h3 k (by simp at hk; omega)⟩
    · rename_i hthr
      refine ⟨[SysEvent.gettimeofday (env.timeofday w.clocks).1 (env.timeofday w.clocks).2,
        SysEvent.openSocket ctx.filename ctx.sock_type (env.connectResult w.connects)],
        by simp, ?_, ?_⟩
      · simp only [SpacedAttempts, AttemptScan.allows, AttemptScan.step, true_and, and_true]
        right
        intro t ht
        obtain ⟨h1, h2, h3⟩ := hlast t ht
        have h4 := h3 w.clocks (Nat.le_refl _)
        rw [h1] at hthr
        simp only [ne_eq, h2, not_false_eq_true, true_and, not_lt] at hthr
        have e : (nowMsec (env.timeofday w.clocks) + 2 ^ 64 - t % 2 ^ 64) % 2 ^ 64 =
            nowMsec (env.timeofday w.clocks) - t := by
          rw [Nat.mod_eq_of_lt (by omega : t < 2 ^ 64)]
          omega
        rw [e] at hthr
        show t + m ≤ nowMsec ((env.timeofday w.clocks).1, (env.timeofday w.clocks).2)
        simp only [Prod.mk.eta]
        omega
      · refine ⟨by simp [AttemptScan.run, AttemptScan.step], ?_⟩
        intro t ht
        simp only [AttemptScan.run, List.foldl_cons, List.foldl_nil, AttemptScan.step,
          Option.some.injEq] at ht
        subst ht
        exact ⟨rfl, hpos _, fun k hk => hmono _ _ (by simp at hk; omega)⟩

theorem keepsSpacing_dropEvent (env : Env) (m : Nat) (st : AttemptScan) (c : LogFileCtx)
    (w : World) (h : TimerTracks env c w st) : KeepsSpacing env m st w (dropEvent c w) :=
  ⟨_, _, _, [], rfl, by simp, trivial, h⟩

theorem keepsSpacing_extend (env : Env) (m : Nat) (st : AttemptScan) (w w1 : World)
    (pre : List SysEvent) (r : Option (Int × LogFileCtx × World))
    (hw : w1.trace = w.trace ++ pre) (hpre : SpacedAttempts m true st pre)
    (h : KeepsSpacing env m (st.run pre) w1 r) : KeepsSpacing env m st w r := by
  obtain ⟨ret, c', w', evs, hr, ht, hs, htr⟩ := h
  refine ⟨ret, c', w', pre ++ evs, hr, by rw [ht, hw, List.append_assoc],
    (spacedAttempts_append m true pre evs st).mpr ⟨hpre, hs⟩, ?_⟩
  rw [attemptScan_run_append]
  exact htr

theorem timerTracks_send (env : Env) (c : LogFileCtx) (w : World) (st : AttemptScan)
    (ev : SysEvent) (n : Nat) (h : TimerTracks env c w st) :
    TimerTracks env c { w with sends := n, trace := w.trace ++ [ev] } st := h

theorem tryagain_keepsSpacing_retry (env : Env) (m : Nat) (buffer : List Nat)
    (fuel tries : Nat) (c : LogFileCtx) (w : World) (st : AttemptScan) (ht : tries ≠ 0)
    (h : TimerTracks env c w st) :
    KeepsSpacing env m st w (SCLogFileWriteSocket_tryagain env m buffer (fuel + 1) tries c w) := by
  unfold SCLogFileWriteSocket_tryagain
  cases hfp : c.fp with
  | none => exact keepsSpacing_dropEvent env m st c w h
  | some fp =>
    simp only []
    have hsp : ∀ res, SpacedAttempts m true st [SysEvent.send fp buffer c.send_flags res] :=
      fun res => ⟨trivial, trivial⟩
    cases hs : env.sendResult w.sends with
    | sent n =>
      exact ⟨_, _, _, [SysEvent.send fp buffer c.send_flags (SendResult.sent n)], rfl, rfl,
        hsp _, h⟩
    | failed e =>
      simp only [ht, if_false]
      split_ifs <;>
        exact keepsSpacing_extend env m st w _ [_] _ rfl (hsp _)
          (keepsSpacing_dropEvent env m _ c _ h)

theorem tryagain_keepsSpacing (env : Env) (m : Nat) (hclock : ClockAdvances env)
    (buffer : List Nat) (fuel : Nat) (c : LogFileCtx) (w : World) (st : AttemptScan)
    (h : TimerTracks env c w st) :
    KeepsSpacing env m st w (SCLogFileWriteSocket_tryagain env m buffer (fuel + 2) 0 c w) := by
  unfold SCLogFileWriteSocket_tryagain
  cases hfp : c.fp with
  | none => exact keepsSpacing_dropEvent env m st c w h
  | some fp =>
    simp only []
    have hsp : ∀ res, SpacedAttempts m true st [SysEvent.send fp buffer c.send_flags res] :=
      fun res => ⟨trivial, trivial⟩
    cases hs : env.sendResult w.sends with
    | sent n =>
      exact ⟨_, _, _, [SysEvent.send fp buffer c.send_flags (SendResult.sent n)], rfl, rfl,
        hsp _, h⟩
    | failed e =>
      simp only [if_true]
      split_ifs
      · exact keepsSpacing_extend env m st w _ [_] _ rfl (hsp _)
          (keepsSpacing_dropEvent env m _ c _ h)
      · exact keepsSpacing_extend env m st w _ [_] _ rfl (hsp _)
          (tryagain_keepsSpacing_retry env m buffer fuel 1 c _ _ (by decide) h)
      · obtain ⟨evs, he, hs2, ht2⟩ := SCLogUnixSocketReconnect_spaced env m hclock c
          { w with sends := w.sends + 1
                   trace := w.trace ++ [SysEvent.send fp buffer c.send_flags (SendResult.failed e)] }
          st h
        exact keepsSpacing_extend env m st w _
          (SysEvent.send fp buffer c.send_flags (SendResult.failed e) :: evs) _
          (by rw [he]; simp) ⟨trivial, hs2⟩
          (tryagain_keepsSpacing_retry env m buffer fuel 1 _ _ _ (by decide) ht2)
      · obtain ⟨evs, he, hs2, ht2⟩ := SCLogUnixSocketReconnect_spaced env m hclock c
          { w with sends := w.sends + 1
                   trace := w.trace ++ [SysEvent.send fp buffer c.send_flags (SendResult.failed e)] }
          st h
        exact keepsSpacing_extend env m st w _
          (SysEvent.send fp buffer c.send_flags (SendResult.failed e) :: evs) _
          (by rw [he]; simp) ⟨trivial, hs2⟩
          (keepsSpacing_dropEvent env m _ _ _ ht2)

theorem SCLogFileWriteSocket_keepsSpacing (env : Env) (m : Nat) (hclock : ClockAdvances env)
    (fuel : Nat) (hfuel : 2 ≤ fuel) (buffer : List Nat) (c : LogFileCtx) (w : World)
    (st : AttemptScan) (h : TimerTracks env c w st) :
    KeepsSpacing env m st w (SCLogFileWriteSocket env m fuel buffer c w) := by
  obtain ⟨f, rfl⟩ : ∃ f, fuel = f + 2 := ⟨fuel - 2, by omega⟩
  unfold SCLogFileWriteSocket
  split_ifs
  · obtain ⟨evs, he, hs2, ht2⟩ := SCLogUnixSocketReconnect_spaced env m hclock c w st h
    exact keepsSpacing_extend env m st w _ evs _ he hs2
      (tryagain_keepsSpacing env m hclock buffer f _ _ _ ht2)
  · exact tryagain_keepsSpacing env m hclock buffer f c w st h

theorem socketWrites_keepsSpacing (env : Env) (m : Nat) (hclock : ClockAdvances env)
    (fuel : Nat) (hfuel : 2 ≤ fuel) :
    ∀ (buffers : List (List Nat)) (c : LogFileCtx) (w : World) (st : AttemptScan),
      TimerTracks env c w st →
      ∃ rets ctx' w' evs, socketWrites env m fuel buffers c w = some (rets, ctx', w') ∧
        w'.trace = w.trace ++ evs ∧ SpacedAttempts m true st evs := by
  intro buffers
  induction buffers with
  | nil => intro c w st _; exact ⟨[], c, w, [], rfl, by simp, trivial⟩
  | cons b bs ih =>
    intro c w st h
    obtain ⟨ret, c1, w1, evs, h1, ht, hs, htr⟩ :=
      SCLogFileWriteSocket_keepsSpacing env m hclock fuel hfuel b c w st h
    obtain ⟨rets, c2, w2, evs2, h2, ht2, hs2⟩ := ih c1 w1 (st.run evs) htr
    exact ⟨ret :: rets, c2, w2, evs ++ evs2, by simp [socketWrites, h1, h2],
      by rw [ht2, ht, List.append_assoc], (spacedAttempts_append m true evs evs2 st).mpr ⟨hs, hs2⟩⟩

theorem clockAdvances_burstEnv : ClockAdvances burstEnv := by
  have e : ∀ k, nowMsec (burstEnv.timeofday k) = 100000 + min k 5 := by
    intro k
    simp only [nowMsec, burstEnv]
    rw [Nat.mul_div_cancel_left _ (by norm_num : 0 < 1000)]
    norm_num
    omega
  constructor
  · intro i j hij
    rw [e, e]
    omega
  · intro k
    rw [e]
    omega

/-- C11 as stated fails: with a clock that never goes back, one write on a socket sink
without a stream makes two connection attempts one millisecond apart, the second
right after the stream obtained by the first was closed on a failed `send`; the
minimum time is 500 milliseconds. -/
theorem SCLogUnixSocketReconnect_spacing_counterexample :
    ClockAdvances burstEnv ∧
      socketWrites burstEnv 500 2 [[1, 2]] unconnectedCtx startWorld =
        some ([0], { unconnectedCtx with fp := some 11, reconn_timer := 100001 },
          { sends := 2, connects := 2, clocks := 2
            trace := [SysEvent.gettimeofday 100 0,
              SysEvent.openSocket none 0 (ConnectResult.connected 10),
              SysEvent.send 10 [1, 2] 0 (SendResult.failed (Errno.other 32)),
              SysEvent.fclose 10, SysEvent.gettimeofday 100 1000,
              SysEvent.openSocket none 0 (ConnectResult.connected 11),
              SysEvent.send 11 [1, 2] 0 (SendResult.sent 5)] }) ∧
      ¬ SpacedAttempts 500 false AttemptScan.start
        [SysEvent.gettimeofday 100 0,
          SysEvent.openSocket none 0 (ConnectResult.connected 10),
          SysEvent.send 10 [1, 2] 0 (SendResult.failed (Errno.other 32)),
          SysEvent.fclose 10, SysEvent.gettimeofday 100 1000,
          SysEvent.openSocket none 0 (ConnectResult.connected 11),
          SysEvent.send 11 [1, 2] 0 (SendResult.sent 5)] := by
  refine ⟨clockAdvances_burstEnv, by decide, ?_⟩
  simp [SpacedAttempts, AttemptScan.allows, AttemptScan.step, AttemptScan.start, nowMsec]

/-- C11 as amended: with a clock that never goes back and never reads 0, over every
sequence of socket writes a connection attempt made by `SCLogUnixSocketReconnect` is
at least `LOGFILE_RECONN_MIN_TIME` milliseconds after the attempt before it, unless
it follows the closing of a stream on a failed `send` (then it is made at once); and a
call made with no stream, less than that interval after the attempt recorded in
`reconn_timer`, returns 0 after reading the clock, without attempting to connect and
with the sink unchanged. -/
theorem SCLogUnixSocketReconnect_attempts_spaced (env : Env) (LOGFILE_RECONN_MIN_TIME : Nat)
    (fuel : Nat) (hfuel : 2 ≤ fuel) (hclock : ClockAdvances env) :
    (∀ (buffers : List (List Nat)) (ctx : LogFileCtx) (w : World),
      ∃ rets ctx' w' evs,
        socketWrites env LOGFILE_RECONN_MIN_TIME fuel buffers ctx w = some (rets, ctx', w') ∧
        w'.trace = w.trace ++ evs ∧
        SpacedAttempts LOGFILE_RECONN_MIN_TIME true AttemptScan.start evs) ∧
      (∀ (ctx : LogFileCtx) (w : World), ctx.fp = none → ctx.reconn_timer ≠ 0 →
        ctx.reconn_timer ≤ nowMsec (env.timeofday w.clocks) →
        nowMsec (env.timeofday w.clocks) < ctx.reconn_timer + LOGFILE_RECONN_MIN_TIME →
        SCLogUnixSocketReconnect env LOGFILE_RECONN_MIN_TIME ctx w =
          (0, ctx,
            { w with clocks := w.clocks + 1
                     trace := w.trace ++
                       [SysEvent.gettimeofday (env.timeofday w.clocks).1
                         (env.timeofday w.clocks).2] })) := by
  constructor
  · intro buffers ctx w
    exact socketWrites_keepsSpacing env LOGFILE_RECONN_MIN_TIME hclock fuel hfuel buffers ctx w
      AttemptScan.start ⟨rfl, fun t ht => by simp [AttemptScan.start] at ht⟩
  · intro ctx w hfp hne hle hlt
    have hnow : nowMsec (env.timeofday w.clocks) < 2 ^ 64 := Nat.mod_lt _ (by norm_num)
    have e : (nowMsec (env.timeofday w.clocks) + 2 ^ 64 - ctx.reconn_timer % 2 ^ 64) % 2 ^ 64 =
        nowMsec (env.timeofday w.clocks) - ctx.reconn_timer := by
      rw [Nat.mod_eq_of_lt (by omega : ctx.reconn_timer < 2 ^ 64)]
      omega
    unfold SCLogUnixSocketReconnect
    simp only [hfp, e]
    rw [if_pos ⟨hne, by omega⟩]

/-- C11 as amended, in the burst environment with a minimum time of 500 milliseconds. -/
theorem SCLogUnixSocketReconnect_attempts_spaced_witness :
    (2 : Nat) ≤ 2 ∧ ClockAdvances burstEnv ∧
      ∃ rets ctx' w' evs,
        socketWrites burstEnv 500 2 [[1, 2], [3]] unconnectedCtx startWorld =
          some (rets, ctx', w') ∧
        w'.trace = startWorld.trace ++ evs ∧ SpacedAttempts 500 true AttemptScan.start evs :=
  ⟨by decide, clockAdvances_burstEnv,
    (SCLogUnixSocketReconnect_attempts_spaced burstEnv 500 2 (by decide)
      clockAdvances_burstEnv).1 [[1, 2], [3]] unconnectedCtx startWorld⟩



/-! ## Regular files -/

theorem confValIsTrue_yes : ConfValIsTrue "yes" = true := by decide

theorem SCLogOpenFileFp_eq (fenv : FileEnv) (path a : String) (mode : Nat) (fw : FileWorld) :
    SCLogOpenFileFp fenv path a mode fw =
      ((fenv.openResult fw.opens).stream,
        { fw with opens := fw.opens + 1
                  trace := fw.trace ++
                    [FileEvent.openFile path a (if ConfValIsTrue a then "a" else "w") mode
                      (fenv.openResult fw.opens)] }) := by
  unfold SCLogOpenFileFp
  cases h : fenv.openResult fw.opens <;> simp [OpenFileResult.stream]

theorem SCConfLogReopen_regular (fenv : FileEnv) (c : LogFileCtx) (fw : FileWorld)
    (name : String) (fp : Nat) (hreg : c.is_regular = true) (hname : c.filename = some name)
    (hfp : c.fp = some fp) :
    SCConfLogReopen fenv c fw =
      some (if (fenv.openResult fw.opens).stream = none then -1 else 0,
        { c with fp := (fenv.openResult fw.opens).stream },
        { fw with opens := fw.opens + 1
                  trace := fw.trace ++
                    [FileEvent.fclose fp,
                      FileEvent.openFile name "yes" "a" c.filemode
                        (fenv.openResult fw.opens)] }) := by
  unfold SCConfLogReopen
  rw [if_neg (by simp [hreg])]
  simp only [hname, hfp, SCLogOpenFileFp_eq, confValIsTrue_yes, if_true, List.append_assoc,
    List.singleton_append]

/-- On a regular file with a name and no stream `SCConfLogReopen` reaches
`fclose(NULL)` and does not return, whatever the file system would answer. -/
theorem SCConfLogReopen_null (fenv : FileEnv) (c : LogFileCtx) (fw : FileWorld)
    (name : String) (hreg : c.is_regular = true) (hname : c.filename = some name)
    (hfp : c.fp = none) :
    SCConfLogReopen fenv c fw = none := by
  unfold SCConfLogReopen
  rw [if_neg (by simp [hreg])]
  simp only [hname, hfp]

/-- C15 as stated fails: the regular-file sink `handlelessCtx`, left without a stream by a
reopening that failed, with 4 drops counted, takes a write of three bytes: nothing is
written and the call returns 0, but `dropped` is still 4, not 5. -/
theorem SCLogFileWrite_handleless_counterexample :
    handlelessCtx.is_regular = true ∧ handlelessCtx.fp = none ∧ handlelessCtx.dropped = 4 ∧
      SCLogFileWrite deliveringEnv noOpenEnv 500 4 2 [1, 2, 3] handlelessCtx startWorld
          startFileWorld =
        some (0, handlelessCtx, startWorld, startFileWorld) ∧
      ¬ handlelessCtx.dropped = 4 + 1 := by
  decide

/-- C15 as amended: for every sink that is not a socket and has no stream, a call of
`SCLogFileWrite` made while no rotation is pending (the rotation flag is clear, and
the sink has no interval flag or the time read is before `rotate_time`) returns 0, the
value of a failure, and leaves the sink as it was, `dropped` included; nothing is
written and no file is opened: the events of the call hold no `fwrite`, and there is
no event at all on a sink without the interval flag. -/
theorem SCLogFileWrite_handleless_writes_nothing (env : Env) (fenv : FileEnv)
    (LOGFILE_RECONN_MIN_TIME LOGFILE_ROTATE_INTERVAL fuel : Nat) (buffer : List Nat)
    (log_ctx : LogFileCtx) (w : World) (fw : FileWorld)
    (hsock : log_ctx.is_sock = false) (hfp : log_ctx.fp = none)
    (hflag : log_ctx.rotation_flag = 0)
    (hdue : log_ctx.flags &&& LOGFILE_ROTATE_INTERVAL = 0 ∨
      fenv.time fw.times < log_ctx.rotate_time) :
    ∃ fw',
      SCLogFileWrite env fenv LOGFILE_RECONN_MIN_TIME LOGFILE_ROTATE_INTERVAL fuel buffer
          log_ctx w fw = some (0, log_ctx, w, fw') ∧
        fw'.writes = fw.writes ∧ fw'.opens = fw.opens ∧
        (∃ evs, fw'.trace = fw.trace ++ evs ∧ ∀ e ∈ evs, e.isFwrite = false) ∧
        (log_ctx.flags &&& LOGFILE_ROTATE_INTERVAL = 0 → fw' = fw) := by
  by_cases h : log_ctx.flags &&& LOGFILE_ROTATE_INTERVAL = 0
  · refine ⟨fw, ?_, rfl, rfl, ⟨[], by simp, by simp⟩, fun _ => rfl⟩
    simp [SCLogFileWrite, SCLogFileWrite_file, rotateOnFlag, rotateOnInterval, hsock, hflag, h,
      hfp]
  · have hlt : fenv.time fw.times < log_ctx.rotate_time := hdue.resolve_left h
    refine ⟨{ fw with times := fw.times + 1
                      trace := fw.trace ++ [FileEvent.time (fenv.time fw.times)] },
      ?_, rfl, rfl, ⟨[_], rfl, by simp [FileEvent.isFwrite]⟩, fun h0 => absurd h0 h⟩
    simp [SCLogFileWrite, SCLogFileWrite_file, rotateOnFlag, rotateOnInterval, hsock, hflag, h,
      hfp, Nat.not_le.2 hlt]

/-- C15 as amended, at the sink `handlelessCtx` with no rotation pending, and at the same
sink with the interval flag and the rotation only due at 2000 while the time is 1000:
the write returns 0, the sink and its `dropped` of 4 stay, and nothing is written. -/
theorem SCLogFileWrite_handleless_writes_nothing_witness :
    (handlelessCtx.is_sock = false ∧ handlelessCtx.fp = none ∧
      handlelessCtx.rotation_flag = 0 ∧ handlelessCtx.flags &&& 4 = 0 ∧
      ∃ fw',
        SCLogFileWrite deliveringEnv noOpenEnv 500 4 2 [1, 2, 3] handlelessCtx startWorld
            startFileWorld = some (0, handlelessCtx, startWorld, fw') ∧
          fw'.writes = startFileWorld.writes ∧ fw'.opens = startFileWorld.opens ∧
          (∃ evs, fw'.trace = startFileWorld.trace ++ evs ∧ ∀ e ∈ evs, e.isFwrite = false) ∧
          (handlelessCtx.flags &&& 4 = 0 → fw' = startFileWorld)) ∧
      SCLogFileWrite deliveringEnv fileEnv 500 4 2 [1, 2, 3]
          { handlelessCtx with flags := 4, rotate_interval := 30, rotate_time := 2000 }
          startWorld startFileWorld =
        some (0, { handlelessCtx with flags := 4, rotate_interval := 30, rotate_time := 2000 },
          startWorld,
          { opens := 0, writes := 0, times := 1, kafkaNews := 0
            trace := [FileEvent.time 1000] }) :=
  ⟨⟨rfl, rfl, rfl, by decide,
    SCLogFileWrite_handleless_writes_nothing deliveringEnv noOpenEnv 500 4 2 [1, 2, 3]
      handlelessCtx startWorld startFileWorld rfl rfl rfl (Or.inl (by decide))⟩, by decide⟩

theorem rotateOnFlag_regular (fenv : FileEnv) (c : LogFileCtx) (fw : FileWorld) (name : String)
    (old : Nat) (hreg : c.is_regular = true) (hname : c.filename = some name)
    (hfp : c.fp = some old) (hflag : c.rotation_flag ≠ 0) :
    rotateOnFlag fenv c fw =
      some ({ c with rotation_flag := 0, fp := (fenv.openResult fw.opens).stream },
        { fw with opens := fw.opens + 1
                  trace := fw.trace ++
                    [FileEvent.fclose old,
                      FileEvent.openFile name "yes" "a" c.filemode
                        (fenv.openResult fw.opens)] }) := by
  unfold rotateOnFlag
  rw [if_pos hflag,
    SCConfLogReopen_regular fenv { c with rotation_flag := 0 } fw name old hreg hname hfp]

theorem rotateOnFlag_clear (fenv : FileEnv) (c : LogFileCtx) (fw : FileWorld)
    (hflag : c.rotation_flag = 0) : rotateOnFlag fenv c fw = some (c, fw) := by
  unfold rotateOnFlag
  rw [if_neg (by simp [hflag])]

theorem rotateOnInterval_off (fenv : FileEnv) (m : Nat) (c : LogFileCtx) (fw : FileWorld)
    (h : c.flags &&& m = 0) : rotateOnInterval fenv m c fw = some (c, fw) := by
  unfold rotateOnInterval
  rw [if_neg (by simp [h])]

/-- The last block of the file part, when both reopening blocks return: with a stream,
one `fwrite` of the buffer on it and one `fflush`; without, nothing. -/
theorem SCLogFileWrite_file_eq (fenv : FileEnv) (m : Nat) (buffer : List Nat)
    (c : LogFileCtx) (fw : FileWorld) (c1 c2 : LogFileCtx) (fw1 fw2 : FileWorld)
    (h1 : rotateOnFlag fenv c fw = some (c1, fw1))
    (h2 : rotateOnInterval fenv m c1 fw1 = some (c2, fw2)) :
    SCLogFileWrite_file fenv m buffer c fw =
      some (match c2.fp with
        | some fp =>
          ((fwriteRet (fenv.fwriteOk fw2.writes) buffer.length : Int), c2,
            { fw2 with writes := fw2.writes + 1
                       trace := fw2.trace ++
                         [FileEvent.fwrite fp buffer
                            (fwriteRet (fenv.fwriteOk fw2.writes) buffer.length),
                          FileEvent.fflush fp] })
        | none => (0, c2, fw2)) := by
  unfold SCLogFileWrite_file
  simp only [h1, h2]
  cases c2.fp <;> rfl

/-- Where the code does what C14 says: on a regular file that holds a stream, with the
rotation flag set and no interval flag, `SCLogFileWrite` clears the flag, closes the
stream held and runs `SCLogOpenFileFp` on the file name with the append setting "yes",
so with the mode "a" of `fopen`; when this gives a stream the buffer is written on it
and the value of `fwrite` returned, when it gives none nothing is written and 0 is
returned. -/
theorem SCLogFileWrite_rotation_flag_reopens (env : Env) (fenv : FileEnv)
    (LOGFILE_RECONN_MIN_TIME LOGFILE_ROTATE_INTERVAL fuel : Nat) (buffer : List Nat)
    (log_ctx : LogFileCtx) (w : World) (fw : FileWorld) (name : String) (old : Nat)
    (hsock : log_ctx.is_sock = false) (hreg : log_ctx.is_regular = true)
    (hname : log_ctx.filename = some name) (hfp : log_ctx.fp = some old)
    (hflag : log_ctx.rotation_flag ≠ 0)
    (hint : log_ctx.flags &&& LOGFILE_ROTATE_INTERVAL = 0) :
    SCLogFileWrite env fenv LOGFILE_RECONN_MIN_TIME LOGFILE_ROTATE_INTERVAL fuel buffer
        log_ctx w fw =
      some (match (fenv.openResult fw.opens).stream with
        | some fp =>
          ((fwriteRet (fenv.fwriteOk fw.writes) buffer.length : Int),
            { log_ctx with rotation_flag := 0, fp := some fp }, w,
            { fw with opens := fw.opens + 1, writes := fw.writes + 1
                      trace := fw.trace ++
                        [FileEvent.fclose old,
                          FileEvent.openFile name "yes" "a" log_ctx.filemode
                            (fenv.openResult fw.opens),
                          FileEvent.fwrite fp buffer
                            (fwriteRet (fenv.fwriteOk fw.writes) buffer.length),
                          FileEvent.fflush fp] })
        | none =>
          (0, { log_ctx with rotation_flag := 0, fp := none }, w,
            { fw with opens := fw.opens + 1
                      trace := fw.trace ++
                        [FileEvent.fclose old,
                          FileEvent.openFile name "yes" "a" log_ctx.filemode
                            (fenv.openResult fw.opens)] })) := by
  unfold SCLogFileWrite
  rw [if_neg (by simp [hsock]),
    SCLogFileWrite_file_eq fenv LOGFILE_ROTATE_INTERVAL buffer log_ctx fw _ _ _ _
      (rotateOnFlag_regular fenv log_ctx fw name old hreg hname hfp hflag)
      (rotateOnInterval_off fenv LOGFILE_ROTATE_INTERVAL _ _ hint)]
  cases hs : (fenv.openResult fw.opens).stream <;> simp

/-- C14 fails on a sink that has lost its stream. The write on `rotatingCtx` (stream 5,
rotation flag set) while the file cannot be opened clears the flag, closes the stream
and leaves the sink without one, returning 0. When the rotation flag is set again,
the next write calls `SCConfLogReopen`, which reaches `fclose(NULL)`: the call does
not return, although the file could now be opened, so the file is not reopened and
the bytes are not written; likewise at `rotatingHandlelessCtx`. The same happens
within one call when the file cannot be opened and the rotation on the interval is due
too: the second `SCConfLogReopen` finds no stream. With the file opened, the write on
`rotatingCtx` does what the claim says: stream 5 closed, the file opened with "yes"
and "a", the bytes written on the new stream 20. -/
theorem SCLogFileWrite_rotation_flag_closes_null :
    SCLogFileWrite deliveringEnv noOpenEnv 500 4 2 [1, 2, 3] rotatingCtx startWorld
        startFileWorld =
      some (0, { regularCtx with fp := none }, startWorld,
        { opens := 1, writes := 0, times := 0, kafkaNews := 0
          trace := [FileEvent.fclose 5,
            FileEvent.openFile "/var/log/suricata/dhcp.json" "yes" "a" 0
              OpenFileResult.fopenFailed] }) ∧
    SCLogFileWrite deliveringEnv fileEnv 500 4 2 [4, 5, 6]
        { regularCtx with fp := none, rotation_flag := 1 } startWorld
        { opens := 1, writes := 0, times := 0, kafkaNews := 0, trace := [] } = none ∧
    SCLogFileWrite deliveringEnv fileEnv 500 4 2 [4, 5, 6] rotatingHandlelessCtx startWorld
        startFileWorld = none ∧
    SCLogFileWrite deliveringEnv noOpenEnv 500 4 2 [1, 2, 3]
        { rotatingCtx with flags := 4, rotate_interval := 30, rotate_time := 1000 } startWorld
        startFileWorld = none ∧
    SCLogFileWrite deliveringEnv fileEnv 500 4 2 [1, 2, 3] rotatingCtx startWorld
        startFileWorld =
      some (1, { regularCtx with fp := some 20 }, startWorld,
        { opens := 1, writes := 1, times := 0, kafkaNews := 0
          trace := [FileEvent.fclose 5,
            FileEvent.openFile "/var/log/suricata/dhcp.json" "yes" "a" 0
              (OpenFileResult.opened 20),
            FileEvent.fwrite 20 [1, 2, 3] 1, FileEvent.fflush 20] }) :=
  ⟨by decide, by decide, by decide, by decide, by decide⟩

/-- On a socket sink with a stream, a `send` that delivers the buffer makes
`SCLogFileWrite` return 0. -/
theorem SCLogFileWrite_socket_sent (env : Env) (fenv : FileEnv) (m k fuel : Nat)
    (buffer : List Nat) (c : LogFileCtx) (w : World) (fw : FileWorld) (fp n : Nat)
    (hsock : c.is_sock = true) (hfp : c.fp = some fp)
    (hsend : env.sendResult w.sends = SendResult.sent n) :
    SCLogFileWrite env fenv m k (fuel + 1) buffer c w fw =
      some (0, c,
        { w with sends := w.sends + 1
                 trace := w.trace ++ [SysEvent.send fp buffer c.send_flags (SendResult.sent n)] },
        fw) := by
  unfold SCLogFileWrite
  rw [if_pos hsock]
  simp [SCLogFileWriteSocket, SCLogFileWriteSocket_tryagain, hfp, hsend]

/-- C16 fails on sockets: on the connected socket sink `connectedCtx` a write whose `send`
delivers all three bytes makes `SCLogFileWrite` return 0, the value its comment gives
to a failure, and a write whose `send` fails returns -1; on the regular file
`regularCtx` a write that succeeds returns 1, the value of `fwrite`, and one that fails
returns 0. -/
theorem SCLogFileWrite_socket_returns_zero_on_delivery :
    SCLogFileWrite deliveringEnv fileEnv 500 4 2 [1, 2, 3] connectedCtx startWorld
        startFileWorld =
      some (0, connectedCtx,
        { sends := 1, connects := 0, clocks := 0
          trace := [SysEvent.send 3 [1, 2, 3] 0 (SendResult.sent 3)] }, startFileWorld) ∧
    SCLogFileWrite blockingEnv fileEnv 500 4 2 [1, 2, 3] connectedCtx startWorld
        startFileWorld =
      some (-1, { connectedCtx with dropped := 1 },
        { sends := 1, connects := 0, clocks := 0
          trace := [SysEvent.send 3 [1, 2, 3] 0 (SendResult.failed Errno.EAGAIN)] },
        startFileWorld) ∧
    SCLogFileWrite deliveringEnv fileEnv 500 4 2 [1, 2, 3] regularCtx startWorld
        startFileWorld =
      some (1, regularCtx, startWorld,
        { opens := 0, writes := 1, times := 0, kafkaNews := 0
          trace := [FileEvent.fwrite 5 [1, 2, 3] 1, FileEvent.fflush 5] }) ∧
    SCLogFileWrite deliveringEnv { fileEnv with fwriteOk := fun _ => false } 500 4 2 [1, 2, 3]
        regularCtx startWorld startFileWorld =
      some (0, regularCtx, startWorld,
        { opens := 0, writes := 1, times := 0, kafkaNews := 0
          trace := [FileEvent.fwrite 5 [1, 2, 3] 0, FileEvent.fflush 5] }) := by
  decide

/-! ## `LogFileWrite` -/

/-- The macro as modelled appends the string when it fits with its terminating NUL. -/
theorem memBufferWriteString_fits (dst : MemBuffer) (s : List Nat)
    (h : dst.buffer.length + s.length < dst.size) :
    memBufferWriteString dst s = { dst with buffer := dst.buffer ++ s } := by
  unfold memBufferWriteString
  rw [if_neg (by omega)]

/-- C17 as stated fails: a buffer of size 4 that holds a document of three bytes has room
for one more byte, yet on a sink of type file `LogFileWrite` hands the `Write` function
the three bytes alone, with the length 3: the one free byte takes the terminating NUL
of the string, the newline is cut, and the buffer is as it was. -/
theorem LogFileWrite_newline_counterexample :
    MEMBUFFER_OFFSET { buffer := [123, 125, 0x20], size := 4 } + 1 ≤
        ({ buffer := [123, 125, 0x20], size := 4 } : MemBuffer).size ∧
      LogFileWrite memBufferWriteString (fun _ _ l => l)
          (fun b n (l : List (List Nat × Nat)) => l ++ [(b, n)]) (fun _ _ l => l)
          (fun _ _ l => l)
          { LogFileNewCtx with type := LogFileType.LOGFILE_TYPE_FILE }
          { buffer := [123, 125, 0x20], size := 4 } [] =
        (0, { buffer := [123, 125, 0x20], size := 4 }, [([123, 125, 0x20], 3)]) :=
  ⟨by decide, by decide⟩

/-- C17 as amended: for a sink of type file, UNIX datagram or UNIX stream and a buffer
with room for two more bytes, the newline and the terminating NUL, `LogFileWrite` calls
the `Write` function of the sink once, on the buffered document followed by one
newline byte and with its length plus one, and the buffer holds the newline afterwards; for
every other type `Write` is not called and the buffer is left as it was, the document
going as it is to `syslog`, `LogFileWriteRedis` or `LogFileWriteKafka`; and
`LogFileWrite` returns 0 in every case. -/
theorem LogFileWrite_appends_newline {σ : Type}
    (syslog : Nat → List Nat → σ → σ) (Write : List Nat → Nat → σ → σ)
    (LogFileWriteRedis LogFileWriteKafka : List Nat → Nat → σ → σ) (file_ctx : LogFileCtx)
    (buffer : MemBuffer) (s : σ) :
    (file_ctx.type = LogFileType.LOGFILE_TYPE_FILE ∨
        file_ctx.type = LogFileType.LOGFILE_TYPE_UNIX_DGRAM ∨
        file_ctx.type = LogFileType.LOGFILE_TYPE_UNIX_STREAM →
      MEMBUFFER_OFFSET buffer + 1 < buffer.size →
      LogFileWrite memBufferWriteString syslog Write LogFileWriteRedis LogFileWriteKafka
          file_ctx buffer s =
        (0, { buffer with buffer := buffer.buffer ++ [10] },
          Write (buffer.buffer ++ [10]) (MEMBUFFER_OFFSET buffer + 1) s)) ∧
      (file_ctx.type = LogFileType.LOGFILE_TYPE_SYSLOG →
        LogFileWrite memBufferWriteString syslog Write LogFileWriteRedis LogFileWriteKafka
            file_ctx buffer s =
          (0, buffer, syslog file_ctx.syslog_level buffer.buffer s)) ∧
      (file_ctx.type = LogFileType.LOGFILE_TYPE_REDIS →
        LogFileWrite memBufferWriteString syslog Write LogFileWriteRedis LogFileWriteKafka
            file_ctx buffer s =
          (0, buffer, LogFileWriteRedis buffer.buffer (MEMBUFFER_OFFSET buffer) s)) ∧
      (file_ctx.type = LogFileType.LOGFILE_TYPE_KAFKA →
        LogFileWrite memBufferWriteString syslog Write LogFileWriteRedis LogFileWriteKafka
            file_ctx buffer s =
          (0, buffer, LogFileWriteKafka buffer.buffer (MEMBUFFER_OFFSET buffer) s)) ∧
      (LogFileWrite memBufferWriteString syslog Write LogFileWriteRedis LogFileWriteKafka
        file_ctx buffer s).1 = 0 := by
  refine ⟨?_, ?_, ?_, ?_, ?_⟩
  · intro h hroom
    unfold LogFileWrite
    rw [if_neg (by rcases h with h | h | h <;> rw [h] <;> decide), if_pos h]
    simp only [memBufferWriteString_fits buffer [10] (by simpa [MEMBUFFER_OFFSET] using hroom),
      MEMBUFFER_OFFSET, List.length_append, List.length_singleton]
  · intro h
    unfold LogFileWrite
    rw [if_pos h]
  · intro h
    unfold LogFileWrite
    rw [if_neg (by rw [h]; decide), if_neg (by rw [h]; decide), if_pos h]
  · intro h
    unfold LogFileWrite
    rw [if_neg (by rw [h]; decide), if_neg (by rw [h]; decide), if_neg (by rw [h]; decide),
      if_pos h]
  · unfold LogFileWrite
    split_ifs <;> rfl

/-- C17 as amended, on a stream socket sink with a document of three bytes in a buffer
of eight: the sink receives the four bytes, the last a newline. -/
theorem LogFileWrite_appends_newline_witness :
    MEMBUFFER_OFFSET { buffer := [123, 125, 0x20], size := 8 } + 1 <
        ({ buffer := [123, 125, 0x20], size := 8 } : MemBuffer).size ∧
      LogFileWrite memBufferWriteString (fun _ _ l => l)
          (fun b n (l : List (List Nat × Nat)) => l ++ [(b, n)]) (fun _ _ l => l)
          (fun _ _ l => l)
          { LogFileNewCtx with type := LogFileType.LOGFILE_TYPE_UNIX_STREAM }
          { buffer := [123, 125, 0x20], size := 8 } [] =
        (0, { buffer := [123, 125, 0x20, 10], size := 8 }, [([123, 125, 0x20, 10], 4)]) :=
  ⟨by decide,
    (LogFileWrite_appends_newline (fun _ _ l => l)
      (fun b n (l : List (List Nat × Nat)) => l ++ [(b, n)]) (fun _ _ l => l)
      (fun _ _ l => l) { LogFileNewCtx with type := LogFileType.LOGFILE_TYPE_UNIX_STREAM }
      { buffer := [123, 125, 0x20], size := 8 } []).1 (Or.inr (Or.inr rfl)) (by decide)⟩

/-! ## The broker client -/

/-- A sink whose `tried` is 0 keeps it at 0 through `SCConfLogReopenKafka`, and the call
goes on to `rd_kafka_new` whenever the time is not 0. -/
theorem SCConfLogReopenKafka_never_throttles (fenv : FileEnv) (c : LogFileCtx) (fw : FileWorld)
    (htried : c.kafka_setup.tried = 0) (hnow : 0 < fenv.time fw.times) :
    (SCConfLogReopenKafka fenv c fw).2.1.kafka_setup.tried = 0 ∧
      (SCConfLogReopenKafka fenv c fw).2.2.kafkaNews = fw.kafkaNews + 1 ∧
      (SCConfLogReopenKafka fenv c fw).2.2.times = fw.times + 1 ∧
      (SCConfLogReopenKafka fenv c fw).2.1.kafka = fenv.kafkaNew fw.kafkaNews := by
  unfold SCConfLogReopenKafka
  cases hk : c.kafka <;> cases hn : fenv.kafkaNew fw.kafkaNews <;>
    simp [htried, hn, hk, Nat.not_le.2 hnow]

/-- C18 fails: on the broker sink `kafkaCtx`, with the time 1000 at every reading, two
successive calls of `SCConfLogReopenKafka` both return 0 and both create a client
handle (30, then 31); and when no handle can be created both calls return -1 after
calling `rd_kafka_new` each. The field `tried` is 0 before and after. -/
theorem SCConfLogReopenKafka_same_second_creates_handles :
    kafkaReopens fileEnv 2 kafkaCtx startFileWorld =
      ([0, 0], { kafkaCtx with kafka := some 31 },
        { opens := 0, writes := 0, times := 2, kafkaNews := 2
          trace := [FileEvent.rd_kafka_destroy 7, FileEvent.time 1000,
            FileEvent.rd_kafka_new 2 (some 30), FileEvent.rd_kafka_destroy 30,
            FileEvent.time 1000, FileEvent.rd_kafka_new 2 (some 31)] }) ∧
    kafkaReopens noBrokerEnv 2 kafkaCtx startFileWorld =
      ([-1, -1], { kafkaCtx with kafka := none },
        { opens := 0, writes := 0, times := 2, kafkaNews := 2
          trace := [FileEvent.rd_kafka_destroy 7, FileEvent.time 1000,
            FileEvent.rd_kafka_new 2 none, FileEvent.time 1000,
            FileEvent.rd_kafka_new 2 none] }) ∧
    kafkaCtx.kafka_setup.tried = 0 := by
  decide


/-! ## `SCConfLogOpenGeneric` -/

theorem applyRotateInterval_valid (fenv : FileEnv) (oenv : OpenEnv) (m : Nat)
    (rotate_int : Option String) (c : LogFileCtx) (fw : FileWorld)
    (hrot : ∀ r, rotate_int = some r →
      r = "minute" ∨ r = "hour" ∨ r = "day" ∨ oenv.SCParseTimeSizeString r ≠ 0) :
    ∃ c1 fw1, applyRotateInterval fenv oenv m rotate_int c fw = some (c1, fw1) := by
  cases rotate_int with
  | none => exact ⟨c, fw, rfl⟩
  | some r =>
    unfold applyRotateInterval
    by_cases h1 : r = "minute"
    · simp only [h1, if_true]
      exact ⟨_, _, rfl⟩
    · by_cases h2 : r = "hour"
      · simp only [h1, h2, if_true, if_false]
        exact ⟨_, _, rfl⟩
      · by_cases h3 : r = "day"
        · simp only [h1, h2, h3, if_true, if_false]
          exact ⟨_, _, rfl⟩
        · have h4 : oenv.SCParseTimeSizeString r ≠ 0 := by
            rcases hrot r rfl with h | h | h | h
            · exact absurd h h1
            · exact absurd h h2
            · exact absurd h h3
            · exact h
          simp only [h1, h2, h3, h4, if_false]
          exact ⟨_, _, rfl⟩

theorem SCLogOpenUnixSocketFp_stream (env : Env) (path : Option String) (sock_type : Nat)
    (w : World) :
    ((∀ fp, env.connectResult w.connects ≠ ConnectResult.connected fp) →
        (SCLogOpenUnixSocketFp env path sock_type w).1 = none) ∧
      ∀ fp, env.connectResult w.connects = ConnectResult.connected fp →
        (SCLogOpenUnixSocketFp env path sock_type w).1 = some fp := by
  unfold SCLogOpenUnixSocketFp
  cases h : env.connectResult w.connects <;> simp

/-- C12: for every configuration whose file type is "unix_stream" or "unix_dgram", in any
case of its letters, given with a context that holds no stream, a rotation interval
that is absent or valid, and the copy of the path allocated, `SCConfLogOpenGeneric`
returns 0 whatever the outcome of its one connection attempt; the sink is marked as a
socket, with `SOCK_STREAM` for "unix_stream" and `SOCK_DGRAM` for "unix_dgram", its
file name is the resolved path, and it holds no stream when the attempt failed and
the stream obtained when it succeeded. -/
theorem SCConfLogOpenGeneric_socket_starts_without_stream (env : Env) (fenv : FileEnv)
    (oenv : OpenEnv) (LOGFILE_ROTATE_INTERVAL : Nat) (conf : ConfNode) (log_ctx : LogFileCtx)
    (default_filename : String) (rotate : Int) (w : World) (fw : FileWorld)
    (hfp : log_ctx.fp = none)
    (hrot : ∀ r, conf.rotate_interval = some r →
      r = "minute" ∨ r = "hour" ∨ r = "day" ∨ oenv.SCParseTimeSizeString r ≠ 0)
    (hdup : oenv.SCStrdup = true)
    (hkind : strcasecmpEq (conf.filetype.getD oenv.DEFAULT_LOG_FILETYPE) "unix_stream" = true ∨
      strcasecmpEq (conf.filetype.getD oenv.DEFAULT_LOG_FILETYPE) "unix_dgram" = true) :
    ∃ ctx' fw',
      SCConfLogOpenGeneric env fenv oenv LOGFILE_ROTATE_INTERVAL (some conf) (some log_ctx)
          (some default_filename) rotate w fw =
        OpenOutcome.returned 0 (some ctx')
          { w with connects := w.connects + 1
                   trace := w.trace ++
                     [SysEvent.openSocket
                       (some (resolveLogPath oenv (conf.filename.getD default_filename)))
                       ctx'.sock_type (env.connectResult w.connects)] } fw' ∧
        ctx'.is_sock = true ∧
        ctx'.sock_type =
          (if strcasecmpEq (conf.filetype.getD oenv.DEFAULT_LOG_FILETYPE) "unix_stream" then
            oenv.SOCK_STREAM else oenv.SOCK_DGRAM) ∧
        ctx'.filename = some (resolveLogPath oenv (conf.filename.getD default_filename)) ∧
        ((∀ fp, env.connectResult w.connects ≠ ConnectResult.connected fp) → ctx'.fp = none) ∧
        ∀ fp, env.connectResult w.connects = ConnectResult.connected fp →
          ctx'.fp = some fp := by
  obtain ⟨c1, fw1, h1⟩ := applyRotateInterval_valid fenv oenv LOGFILE_ROTATE_INTERVAL
    conf.rotate_interval log_ctx fw hrot
  unfold SCConfLogOpenGeneric
  simp only [hfp, ne_eq, not_true_eq_false, if_false, h1]
  by_cases hs : strcasecmpEq (conf.filetype.getD oenv.DEFAULT_LOG_FILETYPE) "unix_stream" = true
  · simp only [hs, if_true, finishOpen, hdup, Bool.true_eq_false, if_false,
      SCLogOpenUnixSocketFp_world]
    have k := SCLogOpenUnixSocketFp_stream env
      (some (resolveLogPath oenv (conf.filename.getD default_filename))) oenv.SOCK_STREAM w
    by_cases hoff : oenv.run_mode_offline = false
    · simp only [hoff, and_self, if_true]
      exact ⟨_, _, rfl, rfl, rfl, rfl, k.1, k.2⟩
    · simp only [hoff, and_false, if_false]
      exact ⟨_, _, rfl, rfl, rfl, rfl, k.1, k.2⟩
  · have hd : strcasecmpEq (conf.filetype.getD oenv.DEFAULT_LOG_FILETYPE) "unix_dgram" = true := by
      rcases hkind with h | h
      · exact absurd h hs
      · exact h
    simp only [hs, hd, if_true, if_false, finishOpen, hdup, Bool.true_eq_false,
      SCLogOpenUnixSocketFp_world, Bool.false_eq_true]
    have k := SCLogOpenUnixSocketFp_stream env
      (some (resolveLogPath oenv (conf.filename.getD default_filename))) oenv.SOCK_DGRAM w
    by_cases hoff : oenv.run_mode_offline = false
    · simp only [hoff, and_self, if_true]
      exact ⟨_, _, rfl, rfl, rfl, rfl, k.1, k.2⟩
    · simp only [hoff, and_false, if_false]
      exact ⟨_, _, rfl, rfl, rfl, rfl, k.1, k.2⟩

/-- C12 at the section `streamConf`, file type "Unix_Stream", with no peer to connect to:
the call returns 0 and leaves a stream socket sink without a stream, named
/var/log/suricata/dhcp.sock, with `MSG_DONTWAIT` among its flags. -/
theorem SCConfLogOpenGeneric_socket_starts_without_stream_witness :
    SCConfLogOpenGeneric refusingEnv fileEnv openEnv 4 (some streamConf) (some LogFileNewCtx)
        (some "dhcp.json") 1 startWorld startFileWorld =
      OpenOutcome.returned 0
        (some { LogFileNewCtx with
          is_sock := true, sock_type := 1, fp := none, send_flags := 64
          filename := some "/var/log/suricata/dhcp.sock"
          json_flags :=
            { JSON_PRESERVE_ORDER := true, JSON_COMPACT := true, JSON_ENSURE_ASCII := true,
              JSON_ESCAPE_SLASH := true } })
        { sends := 0, connects := 1, clocks := 0
          trace := [SysEvent.openSocket (some "/var/log/suricata/dhcp.sock") 1
            ConnectResult.connectFailed] }
        startFileWorld ∧
      ∃ ctx' fw',
        SCConfLogOpenGeneric refusingEnv fileEnv openEnv 4 (some streamConf)
            (some LogFileNewCtx) (some "dhcp.json") 1 startWorld startFileWorld =
          OpenOutcome.returned 0 (some ctx')
            { startWorld with
                connects := startWorld.connects + 1
                trace := startWorld.trace ++
                  [SysEvent.openSocket
                    (some (resolveLogPath openEnv (streamConf.filename.getD "dhcp.json")))
                    ctx'.sock_type (refusingEnv.connectResult startWorld.connects)] } fw' ∧
          ctx'.is_sock = true ∧ ctx'.fp = none :=
  ⟨by decide,
    match SCConfLogOpenGeneric_socket_starts_without_stream refusingEnv fileEnv openEnv 4
      streamConf LogFileNewCtx "dhcp.json" 1 startWorld startFileWorld rfl
      (fun r h => by simp [streamConf] at h) rfl (Or.inl (by decide)) with
    | ⟨ctx', fw', h1, h2, _, _, h5, _⟩ =>
      ⟨ctx', fw', h1, h2, h5 (fun fp h => by simp [refusingEnv] at h)⟩⟩

/-- A file type that is none of the kinds the function knows takes the last branch, which
only logs an error: with a context that holds no stream, no rotation interval and the
copy of the path allocated, the call returns 0 and the sink has no stream. -/
theorem SCConfLogOpenGeneric_unsupported (env : Env) (fenv : FileEnv)
    (oenv : OpenEnv) (m : Nat) (conf : ConfNode) (log_ctx : LogFileCtx)
    (default_filename filetype : String) (rotate : Int) (w : World) (fw : FileWorld)
    (hfp : log_ctx.fp = none) (hrot : conf.rotate_interval = none)
    (hdup : oenv.SCStrdup = true) (hsock : log_ctx.is_sock = false)
    (htype : conf.filetype = some filetype)
    (h1 : strcasecmpEq filetype "unix_stream" = false)
    (h2 : strcasecmpEq filetype "unix_dgram" = false)
    (h3 : strcasecmpEq filetype oenv.DEFAULT_LOG_FILETYPE = false)
    (h4 : strcasecmpEq filetype "file" = false)
    (h5 : strcasecmpEq filetype "pcie" = false)
    (h6 : strcasecmpEq filetype "redis" = false) :
    ∃ ctx', SCConfLogOpenGeneric env fenv oenv m (some conf) (some log_ctx)
        (some default_filename) rotate w fw = OpenOutcome.returned 0 (some ctx') w fw ∧
      ctx'.fp = none := by
  unfold SCConfLogOpenGeneric
  simp only [hfp, ne_eq, not_true_eq_false, if_false, hrot, applyRotateInterval]
  cases hm : conf.filemode.bind oenv.ByteExtractStringUint32 <;>
    simp only [hfp, ne_eq, not_true_eq_false, if_false, hrot, applyRotateInterval, htype,
      Option.getD_some, h1, h2, h3, h4, h5, h6, Bool.false_eq_true, or_self, finishOpen, hdup,
      Bool.true_eq_false, hsock, false_and] <;>
    exact ⟨_, rfl, rfl⟩

/-- C13 fails: for the section `bogusConf`, whose file type "bogus" is none of the
supported kinds, `SCConfLogOpenGeneric` returns 0, not -1: the sink it leaves has a
file name and no stream, and is neither a socket nor a regular file. -/
theorem SCConfLogOpenGeneric_unsupported_filetype_returns_zero :
    SCConfLogOpenGeneric refusingEnv fileEnv openEnv 4 (some bogusConf) (some LogFileNewCtx)
        (some "dhcp.json") 1 startWorld startFileWorld =
      OpenOutcome.returned 0
        (some { LogFileNewCtx with
          filename := some "/var/log/suricata/dhcp.json"
          json_flags :=
            { JSON_PRESERVE_ORDER := true, JSON_COMPACT := true, JSON_ENSURE_ASCII := true,
              JSON_ESCAPE_SLASH := true } })
        startWorld startFileWorld ∧
      bogusConf.filetype = some "bogus" := by
  decide


/-! ## Value bytes, time values and the cursor -/

/-- C23 fails: the switches read their value bytes without looking at the length byte.
On a message-type record of declared length 0 the request loop reads value byte 0
(index 2, the terminator behind the record) and sets "type"; on a client-id record
of declared length 1 it reads the value bytes 0 to 6 (indices 2 to 8) and sets
"client_id"; on a lease-time record of declared length 2 the response loop reads the
value bytes 0 to 3 (indices 2 to 5) and sets "lease_time" to a number made of the two
value bytes, the terminator and one byte behind the buffer. -/
theorem JsonDHCPLogger_reads_past_record_length :
    (∃ out, JsonDHCPLogger recordingSink allocOk 4 [] { log_id := 0 } shortTypeTx 0 = some out ∧
        readByte shortTypeTx.request_buffer 1 = 0 ∧
        out.request_reads = [0, 0, 2, 0, 1, 0, 2, 2, 2] ∧
        out.sink.map (fun d => d.client) = [[("type", JsonValue.string [])]]) ∧
      (∃ out, JsonDHCPLogger recordingSink allocOk 4 [] { log_id := 0 } shortClientIdTx 0 =
          some out ∧
        readByte shortClientIdTx.request_buffer 1 = 1 ∧
        out.request_reads = [0, 0, 2, 3, 4, 5, 6, 7, 8, 0, 1, 0, 3, 3, 3] ∧
        out.sink.map (fun d => d.client) =
          [[("client_id", JsonValue.string (cstr "ff:00:00:00:00:00"))]]) ∧
      (∃ out, JsonDHCPLogger recordingSink allocOk 4 [] { log_id := 0 } shortLeaseTx 0 =
          some out ∧
        readByte shortLeaseTx.response_buffer 1 = 2 ∧
        out.response_reads = [0, 0, 2, 3, 4, 5, 0, 1, 0, 4, 4, 4] ∧
        out.sink.map (fun d => d.server) = [[("lease_time", JsonValue.integer 720640)]]) :=
  ⟨⟨_, rfl, rfl, by decide, by decide⟩, ⟨_, rfl, rfl, by decide, by decide⟩,
    ⟨_, rfl, rfl, by decide, by decide⟩⟩

/-- The bit pattern put together from four bytes is their big-endian value. -/
theorem or_shift_eq_bigEndian32 (b0 b1 b2 b3 : Nat) (h1 : b1 < 256) (h2 : b2 < 256)
    (h3 : b3 < 256) :
    (b0 <<< 24) ||| (b1 <<< 16) ||| (b2 <<< 8) ||| b3 = bigEndian32 b0 b1 b2 b3 := by
  have e3 : 2 ^ 8 * b2 + b3 = 2 ^ 8 * b2 ||| b3 := Nat.mul_add_lt_is_or (by omega) b2
  have e2 : 2 ^ 16 * b1 + (2 ^ 8 * b2 + b3) = 2 ^ 16 * b1 ||| (2 ^ 8 * b2 + b3) :=
    Nat.mul_add_lt_is_or (by omega) b1
  have e1 : 2 ^ 24 * b0 + (2 ^ 16 * b1 + (2 ^ 8 * b2 + b3)) =
      2 ^ 24 * b0 ||| (2 ^ 16 * b1 + (2 ^ 8 * b2 + b3)) :=
    Nat.mul_add_lt_is_or (by omega) b0
  rw [Nat.shiftLeft_eq, Nat.shiftLeft_eq, Nat.shiftLeft_eq, Nat.or_assoc, Nat.or_assoc,
    Nat.mul_comm b0, Nat.mul_comm b1, Nat.mul_comm b2, ← e3, ← e2, ← e1]
  unfold bigEndian32
  ring

/-- The time value of a record is the big-endian value of its four bytes when the first
is below 128, and that value less `2 ^ 32`, a negative number, otherwise. -/
theorem timeOfArgs_eq (mem : Nat → Nat) (p : Nat) :
    timeOfArgs mem p =
      if readByte mem (p + 2) < 128 then
        (bigEndian32 (readByte mem (p + 2)) (readByte mem (p + 3)) (readByte mem (p + 4))
          (readByte mem (p + 5)) : Int)
      else
        (bigEndian32 (readByte mem (p + 2)) (readByte mem (p + 3)) (readByte mem (p + 4))
          (readByte mem (p + 5)) : Int) - 2 ^ 32 := by
  have h0 : readByte mem (p + 2) < 256 := Nat.mod_lt _ (by norm_num)
  have h1 : readByte mem (p + 3) < 256 := Nat.mod_lt _ (by norm_num)
  have h2 : readByte mem (p + 4) < 256 := Nat.mod_lt _ (by norm_num)
  have h3 : readByte mem (p + 5) < 256 := Nat.mod_lt _ (by norm_num)
  unfold timeOfArgs toInt32
  rw [or_shift_eq_bigEndian32 _ _ _ _ h1 h2 h3]
  have hlt : bigEndian32 (readByte mem (p + 2)) (readByte mem (p + 3)) (readByte mem (p + 4))
      (readByte mem (p + 5)) < 2 ^ 32 := by
    unfold bigEndian32
    omega
  rw [Nat.mod_eq_of_lt hlt]
  by_cases h : readByte mem (p + 2) < 128
  · rw [if_pos h, if_pos (by unfold bigEndian32; omega)]
  · rw [if_neg h, if_neg (by unfold bigEndian32; omega)]

/-- C26 fails for a first byte of 128 or more: the response with the lease time
`ff ff ff ff`, the infinite lease, and the renewal time `80 00 00 00` is logged with
"lease_time" -1 and "renewal_time" -2147483648, where the unsigned big-endian values
are 4294967295 and 2147483648. -/
theorem JsonDHCPLogger_time_value_negative :
    (∃ out, JsonDHCPLogger recordingSink allocOk 8 [] { log_id := 0 } infiniteLeaseTx 0 =
        some out ∧
      out.sink.map (fun d => d.server) =
        [[("lease_time", JsonValue.integer (-1)),
          ("renewal_time", JsonValue.integer (-2147483648))]]) ∧
      bigEndian32 255 255 255 255 = 4294967295 ∧ bigEndian32 128 0 0 0 = 2147483648 :=
  ⟨⟨_, rfl, by decide⟩, by decide, by decide⟩

/-- C25 as stated fails: a session with `log_id = 2` is given the transaction with id 4;
the call emits it and `log_id` becomes 3, not more than 4; a second call for the same
id 4, with the `logged` flag not set, passes the cursor check and emits once more. -/
theorem JsonDHCPLogger_cursor_counterexample :
    ∃ out1 out2,
      JsonDHCPLogger recordingSink allocOk 20 [] { log_id := 2 } sampleTx 4 = some out1 ∧
      out1.sink.length = 1 ∧ out1.state.log_id = 3 ∧ ¬ 4 < out1.state.log_id ∧
      JsonDHCPLogger recordingSink allocOk 20 out1.sink out1.state sampleTx 4 = some out2 ∧
      out2.sink.length = 2 ∧ out2.state.log_id = 4 :=
  ⟨_, _, rfl, by decide, by decide, by decide, rfl, by decide, by decide⟩

/-- C25 as amended: a call that emits the transaction with id `tx_id` (not logged,
`log_id <= tx_id`, allocations succeeding, buffer lengths that let the loops return)
adds exactly one to the session's `log_id` and sets the `logged` flag; `log_id` is
then greater than `tx_id` exactly when `tx_id` was equal to `log_id` before the call,
and in that case every later call for the same `tx_id` is skipped by the cursor
check alone, whatever the transaction and its flag; in every case a later call on
the emitted transaction is skipped through its `logged` flag. -/
theorem JsonDHCPLogger_cursor_after_emit {σ : Type} (OutputJSONBuffer : Document → σ → σ × Int)
    (alloc : JsonAlloc) (js : JsonObject) (fuel : Nat) (sink : σ) (state : DHCPState)
    (tx : DHCPTransaction) (tx_id : Nat)
    (hlog : tx.logged = 0) (hid : state.log_id ≤ tx_id) (halloc : alloc.Succeeds js)
    (hl1 : tx.request_buffer_len + 257 < 2 ^ 32) (hl2 : tx.response_buffer_len + 257 < 2 ^ 32)
    (hf1 : tx.request_buffer_len + 2 ≤ fuel) (hf2 : tx.response_buffer_len + 2 ≤ fuel) :
    ∃ out, JsonDHCPLogger OutputJSONBuffer alloc fuel sink state tx tx_id = some out ∧
      out.state.log_id = state.log_id + 1 ∧ out.tx.logged = 1 ∧
      (tx_id < out.state.log_id ↔ tx_id = state.log_id) ∧
      (tx_id = state.log_id →
        ∀ (alloc2 : JsonAlloc) (fuel2 : Nat) (tx2 : DHCPTransaction),
          JsonDHCPLogger OutputJSONBuffer alloc2 fuel2 out.sink out.state tx2 tx_id =
            some { ret := TmEcode.TM_ECODE_OK, tx := tx2, state := out.state,
                   sink := out.sink, request_reads := [], response_reads := [] }) ∧
      ∀ (alloc2 : JsonAlloc) (fuel2 : Nat) (tx_id2 : Nat),
        JsonDHCPLogger OutputJSONBuffer alloc2 fuel2 out.sink out.state out.tx tx_id2 =
          some { ret := TmEcode.TM_ECODE_OK, tx := out.tx, state := out.state,
                 sink := out.sink, request_reads := [], response_reads := [] } := by
  obtain ⟨req, hr⟩ := optionLoop_terminates (requestOption alloc.parmsjs) tx.request_buffer
    tx.request_buffer_len hl1 fuel optStart (by omega) (by simp [optStart]; omega)
  obtain ⟨rsp, hp⟩ := optionLoop_terminates responseOption tx.response_buffer
    tx.response_buffer_len hl2 fuel optStart (by omega) (by simp [optStart]; omega)
  refine ⟨_, JsonDHCPLogger_eq_emit OutputJSONBuffer alloc js fuel sink state tx tx_id
    req rsp hlog hid halloc hr hp, rfl, rfl, ?_, ?_, ?_⟩
  · show tx_id < state.log_id + 1 ↔ tx_id = state.log_id
    omega
  · intro h alloc2 fuel2 tx2
    exact JsonDHCPLogger_eq_skip OutputJSONBuffer alloc2 fuel2 _ _ tx2 tx_id
      (Or.inl (by show tx_id < state.log_id + 1; omega))
  · intro alloc2 fuel2 tx_id2
    exact JsonDHCPLogger_eq_skip OutputJSONBuffer alloc2 fuel2 _ _ _ tx_id2
      (Or.inr (by show (1 : Nat) ≠ 0; decide))

/-- C25 as amended, at the transaction with id 4 in a session whose `log_id` is 4: after
the call `log_id` is 5 and a second call for the id 4 with the same, still unflagged
transaction is skipped. -/
theorem JsonDHCPLogger_cursor_after_emit_witness :
    ∃ out, JsonDHCPLogger recordingSink allocOk 20 [] { log_id := 4 } sampleTx 4 = some out ∧
      out.state.log_id = 4 + 1 ∧
      JsonDHCPLogger recordingSink allocOk 20 out.sink out.state sampleTx 4 =
        some { ret := TmEcode.TM_ECODE_OK, tx := sampleTx, state := out.state,
               sink := out.sink, request_reads := [], response_reads := [] } :=
  match JsonDHCPLogger_cursor_after_emit recordingSink allocOk [] 20 [] { log_id := 4 }
    sampleTx 4 rfl (by decide) ⟨rfl, rfl, rfl, rfl⟩ (by decide) (by decide) (by decide)
    (by decide) with
  | ⟨out, h1, h2, _, _, h5, _⟩ => ⟨out, h1, h2, h5 rfl allocOk 20 sampleTx⟩


/-! ## The attempts of one socket write -/

theorem SCLogUnixSocketReconnect_counts (env : Env) (m : Nat) (c : LogFileCtx) (w : World) :
    (SCLogUnixSocketReconnect env m c w).2.2.sends = w.sends ∧
      w.connects ≤ (SCLogUnixSocketReconnect env m c w).2.2.connects ∧
      (SCLogUnixSocketReconnect env m c w).2.2.connects ≤ w.connects + 1 := by
  unfold SCLogUnixSocketReconnect
  simp only [SCLogOpenUnixSocketFp_world]
  cases hfp : c.fp <;> simp only [] <;> split <;> simp

/-- From `tryagain` on with `tries` not 0: at most one `send`, no connection attempt, and
the outcome of that `send` decides the value returned. -/
theorem tryagain_retry_sends (env : Env) (m : Nat) (buffer : List Nat) (fuel tries : Nat)
    (c : LogFileCtx) (w : World) (ht : tries ≠ 0) :
    ∃ ret c' w', SCLogFileWriteSocket_tryagain env m buffer (fuel + 1) tries c w =
        some (ret, c', w') ∧
      w'.connects = w.connects ∧ w'.sends ≤ w.sends + 1 ∧ w.sends ≤ w'.sends ∧
      (c.fp ≠ none → w'.sends = w.sends + 1) ∧
      (ret = 0 → ∃ n, w'.sends = w.sends + 1 ∧ env.sendResult w.sends = SendResult.sent n) ∧
      ∀ e, env.sendResult w.sends = SendResult.failed e → ret = -1 := by
  unfold SCLogFileWriteSocket_tryagain
  cases hfp : c.fp with
  | none =>
    exact ⟨_, _, _, rfl, rfl, by omega, le_refl _, fun h => absurd rfl h,
      fun h => absurd h (by decide), fun _ _ => rfl⟩
  | some fp =>
    simp only []
    cases hs : env.sendResult w.sends with
    | sent n =>
      exact ⟨_, _, _, rfl, rfl, le_refl _, Nat.le_succ _, fun _ => rfl,
        fun _ => ⟨n, rfl, rfl⟩, fun e h => by simp at h⟩
    | failed e =>
      simp only [ht, if_false]
      split_ifs <;>
        exact ⟨_, _, _, rfl, rfl, le_refl _, Nat.le_succ _, fun _ => rfl,
          fun h => absurd h (by decide), fun _ _ => rfl⟩

/-- From `tryagain` on with `tries = 0`: at most two `send` calls and one connection
attempt; a first `send` that is interrupted is followed by exactly one more and by
no connection attempt; after two `send` calls the second decides the value. -/
theorem tryagain_first_sends (env : Env) (m : Nat) (buffer : List Nat) (fuel : Nat)
    (c : LogFileCtx) (w : World) :
    ∃ ret c' w', SCLogFileWriteSocket_tryagain env m buffer (fuel + 2) 0 c w =
        some (ret, c', w') ∧
      w.sends ≤ w'.sends ∧ w'.sends ≤ w.sends + 2 ∧
      w.connects ≤ w'.connects ∧ w'.connects ≤ w.connects + 1 ∧
      (c.fp = none → w'.sends = w.sends) ∧
      (env.sendResult w.sends = SendResult.failed Errno.EINTR → c.fp ≠ none →
        w'.sends = w.sends + 2 ∧ w'.connects = w.connects) ∧
      (w'.sends = w.sends + 2 → ∀ e, env.sendResult (w.sends + 1) = SendResult.failed e →
        ret = -1) ∧
      (ret = 0 → ∃ n, w.sends < w'.sends ∧
        env.sendResult (w'.sends - 1) = SendResult.sent n) := by
  unfold SCLogFileWriteSocket_tryagain
  cases hfp : c.fp with
  | none =>
    exact ⟨_, _, _, rfl, le_refl _, by omega, le_refl _, by omega, fun _ => rfl,
      fun _ h => absurd rfl h, fun h => absurd h (by simp), fun h => absurd h (by decide)⟩
  | some fp =>
    simp only []
    cases hs : env.sendResult w.sends with
    | sent n =>
      refine ⟨_, _, _, rfl, Nat.le_succ _, by simp, le_refl _, Nat.le_succ _,
        fun h => absurd h (by simp), fun h => absurd h (by simp), fun h => ?_,
        fun _ => ⟨n, by simp, by simpa using hs⟩⟩
      simp at h
    | failed e =>
      simp only [if_true]
      split_ifs with h1 h2 h3
      · refine ⟨_, _, _, rfl, Nat.le_succ _, by simp, le_refl _, Nat.le_succ _,
          fun h => absurd h (by simp), fun h => ?_, fun h => ?_,
          fun h => absurd h (by decide)⟩
        · rcases h1 with h1 | h1 <;> simp [h1] at h
        · simp at h
      · obtain ⟨ret, c', w', hr, hc, hle, hge, hone, hz, hf⟩ :=
          tryagain_retry_sends env m buffer fuel 1 c
            { w with sends := w.sends + 1
                     trace := w.trace ++
                       [SysEvent.send fp buffer c.send_flags (SendResult.failed e)] }
            (by decide)
        simp only [zero_add]
        refine ⟨ret, c', w', hr, ?_, ?_, ?_, ?_, fun h => absurd h (by simp), fun _ _ => ?_,
          fun _ e2 he2 => hf e2 he2, fun h => ?_⟩
        · simp only at hge
          omega
        · simp only at hle
          omega
        · simp only at hc
          omega
        · simp only at hc
          omega
        · have := hone (by rw [hfp]; simp)
          simp only at this hc
          exact ⟨by omega, hc⟩
        · obtain ⟨n, hn1, hn2⟩ := hz h
          simp only at hn1 hn2
          exact ⟨n, by omega, by rw [hn1]; simpa using hn2⟩
      · have k := SCLogUnixSocketReconnect_counts env m c
          { w with sends := w.sends + 1
                   trace := w.trace ++
                     [SysEvent.send fp buffer c.send_flags (SendResult.failed e)] }
        obtain ⟨ret, c', w', hr, hc, hle, hge, -, hz, hf⟩ :=
          tryagain_retry_sends env m buffer fuel 1
            (SCLogUnixSocketReconnect env m c
              { w with sends := w.sends + 1
                       trace := w.trace ++
                         [SysEvent.send fp buffer c.send_flags (SendResult.failed e)] }).2.1
            (SCLogUnixSocketReconnect env m c
              { w with sends := w.sends + 1
                       trace := w.trace ++
                         [SysEvent.send fp buffer c.send_flags (SendResult.failed e)] }).2.2
            (by decide)
        simp only [zero_add]
        simp only at k
        rw [k.1] at hle hge hz hf
        refine ⟨ret, c', w', hr, by omega, by omega, by omega, by omega,
          fun h => absurd h (by simp), fun h => ?_, fun _ e2 he2 => hf e2 he2, fun h => ?_⟩
        · rw [SendResult.failed.injEq] at h
          exact absurd h h2
        · obtain ⟨n, hn1, hn2⟩ := hz h
          exact ⟨n, by omega, by rw [hn1]; simpa using hn2⟩
      · have k := SCLogUnixSocketReconnect_counts env m c
          { w with sends := w.sends + 1
                   trace := w.trace ++
                     [SysEvent.send fp buffer c.send_flags (SendResult.failed e)] }
        simp only at k
        refine ⟨_, _, _, rfl, by rw [k.1]; omega, by rw [k.1]; omega, k.2.1, k.2.2,
          fun h => absurd h (by simp), fun h => ?_, fun h => ?_,
          fun h => absurd h (by decide)⟩
        · rw [SendResult.failed.injEq] at h
          exact absurd h h2
        · rw [k.1] at h
          omega

/-- C24: for every socket sink state and every environment of `send` and connection
outcomes a call of `SCLogFileWriteSocket` returns (two units of fuel are enough, one
for each possible `goto`), having made at most two `send` calls and at most two
connection attempts. When its first `send` is interrupted (`EINTR`) it makes exactly
one more `send` and no connection attempt after it. When it has made two `send`
calls and the second fails, with whatever `errno`, the call returns -1 and counts
the event as dropped. It returns 0 only when the last `send` it made succeeded, and
-1 with `dropped` incremented otherwise. -/
theorem SCLogFileWriteSocket_bounded_attempts (env : Env) (LOGFILE_RECONN_MIN_TIME : Nat)
    (fuel : Nat) (buffer : List Nat) (ctx : LogFileCtx) (w : World) (hfuel : 2 ≤ fuel) :
    ∃ ret ctx' w',
      SCLogFileWriteSocket env LOGFILE_RECONN_MIN_TIME fuel buffer ctx w =
          some (ret, ctx', w') ∧
        w.sends ≤ w'.sends ∧ w'.sends ≤ w.sends + 2 ∧
        w.connects ≤ w'.connects ∧ w'.connects ≤ w.connects + 2 ∧
        (env.sendResult w.sends = SendResult.failed Errno.EINTR → w.sends < w'.sends →
          w'.sends = w.sends + 2 ∧ w'.connects ≤ w.connects + 1) ∧
        (w'.sends = w.sends + 2 →
          ∀ e, env.sendResult (w.sends + 1) = SendResult.failed e →
            ret = -1 ∧ ctx'.dropped = ctx.dropped + 1) ∧
        (ret = 0 → ∃ n, w.sends < w'.sends ∧
          env.sendResult (w'.sends - 1) = SendResult.sent n) ∧
        ((ret = 0 ∧ ctx'.dropped = ctx.dropped) ∨
          (ret = -1 ∧ ctx'.dropped = ctx.dropped + 1)) := by
  obtain ⟨ret0, ctx0, w0, hacc, hdrop⟩ :=
    SCLogFileWriteSocket_accounted env LOGFILE_RECONN_MIN_TIME fuel hfuel buffer ctx w
  obtain ⟨f, rfl⟩ : ∃ f, fuel = f + 2 := ⟨fuel - 2, by omega⟩
  have main : ∃ ret ctx' w',
      SCLogFileWriteSocket env LOGFILE_RECONN_MIN_TIME (f + 2) buffer ctx w =
          some (ret, ctx', w') ∧
        w.sends ≤ w'.sends ∧ w'.sends ≤ w.sends + 2 ∧
        w.connects ≤ w'.connects ∧ w'.connects ≤ w.connects + 2 ∧
        (env.sendResult w.sends = SendResult.failed Errno.EINTR → w.sends < w'.sends →
          w'.sends = w.sends + 2 ∧ w'.connects ≤ w.connects + 1) ∧
        (w'.sends = w.sends + 2 →
          ∀ e, env.sendResult (w.sends + 1) = SendResult.failed e → ret = -1) ∧
        (ret = 0 → ∃ n, w.sends < w'.sends ∧
          env.sendResult (w'.sends - 1) = SendResult.sent n) := by
    unfold SCLogFileWriteSocket
    split_ifs with h
    · have k := SCLogUnixSocketReconnect_counts env LOGFILE_RECONN_MIN_TIME ctx w
      obtain ⟨ret, c', w', hr, h1, h2, h3, h4, hnone, hintr, hsecond, hz⟩ :=
        tryagain_first_sends env LOGFILE_RECONN_MIN_TIME buffer f
          (SCLogUnixSocketReconnect env LOGFILE_RECONN_MIN_TIME ctx w).2.1
          (SCLogUnixSocketReconnect env LOGFILE_RECONN_MIN_TIME ctx w).2.2
      rw [k.1] at h1 h2 hnone hintr hsecond hz
      refine ⟨ret, c', w', hr, h1, h2, by omega, by omega, fun he hlt => ?_, hsecond, hz⟩
      have hfp : (SCLogUnixSocketReconnect env LOGFILE_RECONN_MIN_TIME ctx w).2.1.fp ≠ none := by
        intro hn
        have := hnone hn
        omega
      have := hintr he hfp
      exact ⟨this.1, by omega⟩
    · obtain ⟨ret, c', w', hr, h1, h2, h3, h4, hnone, hintr, hsecond, hz⟩ :=
        tryagain_first_sends env LOGFILE_RECONN_MIN_TIME buffer f ctx w
      refine ⟨ret, c', w', hr, h1, h2, h3, by omega, fun he hlt => ?_, hsecond, hz⟩
      have hfp : ctx.fp ≠ none := by
        intro hn
        have := hnone hn
        omega
      have := hintr he hfp
      exact ⟨this.1, by omega⟩
  obtain ⟨ret, ctx', w', hr, h1, h2, h3, h4, hintr, hsecond, hz⟩ := main
  have heq : (ret0, ctx0, w0) = (ret, ctx', w') := Option.some.inj (hacc.symm.trans hr)
  rw [Prod.mk.injEq, Prod.mk.injEq] at heq
  obtain ⟨rfl, rfl, rfl⟩ := heq
  refine ⟨ret0, ctx0, w0, hr, h1, h2, h3, h4, hintr, fun h e he => ?_, hz, hdrop⟩
  have hm := hsecond h e he
  rcases hdrop with ⟨h0, _⟩ | ⟨_, hd⟩
  · rw [h0] at hm
    exact absurd hm (by decide)
  · exact ⟨hm, hd⟩

/-- C24 on the connected sink with a first `send` that is interrupted: the call makes two
`send` calls and no connection attempt, and returns 0 as the second delivers. -/
theorem SCLogFileWriteSocket_bounded_attempts_witness :
    (2 : Nat) ≤ 2 ∧
      SCLogFileWriteSocket interruptedEnv 500 2 [1, 2] connectedCtx startWorld =
        some (0, connectedCtx,
          { sends := 2, connects := 0, clocks := 0
            trace := [SysEvent.send 3 [1, 2] 0 (SendResult.failed Errno.EINTR),
              SysEvent.send 3 [1, 2] 0 (SendResult.sent 2)] }) ∧
      ∃ ret ctx' w',
        SCLogFileWriteSocket interruptedEnv 500 2 [1, 2] connectedCtx startWorld =
          some (ret, ctx', w') ∧
        startWorld.sends ≤ w'.sends ∧ w'.sends ≤ startWorld.sends + 2 ∧
        startWorld.connects ≤ w'.connects ∧ w'.connects ≤ startWorld.connects + 2 :=
  ⟨by decide, by decide,
    match SCLogFileWriteSocket_bounded_attempts interruptedEnv 500 2 [1, 2] connectedCtx
      startWorld (by decide) with
    | ⟨ret, ctx', w', h0, h1, h2, h3, h4, _⟩ => ⟨ret, ctx', w', h0, h1, h2, h3, h4⟩⟩


/-! ## Rotation on a time interval -/

theorem or_and_self_flag (a b : Nat) : (a ||| b) &&& b = b := by
  apply Nat.eq_of_testBit_eq
  intro i
  simp only [Nat.testBit_and, Nat.testBit_or]
  cases a.testBit i <;> cases b.testBit i <;> rfl

theorem rotateOnInterval_due (fenv : FileEnv) (m : Nat) (c : LogFileCtx) (fw : FileWorld)
    (name : String) (old : Nat) (hreg : c.is_regular = true) (hname : c.filename = some name)
    (hfp : c.fp = some old) (hflags : c.flags &&& m ≠ 0)
    (hdue : c.rotate_time ≤ fenv.time fw.times) :
    rotateOnInterval fenv m c fw =
      some ({ c with fp := (fenv.openResult fw.opens).stream
                     rotate_time := fenv.time fw.times + c.rotate_interval },
        { fw with times := fw.times + 1, opens := fw.opens + 1
                  trace := fw.trace ++ [FileEvent.time (fenv.time fw.times)] ++
                    [FileEvent.fclose old,
                      FileEvent.openFile name "yes" "a" c.filemode
                        (fenv.openResult fw.opens)] }) := by
  unfold rotateOnInterval
  simp only [if_pos hflags, ge_iff_le, if_pos hdue,
    SCConfLogReopen_regular fenv c _ name old hreg hname hfp]

theorem rotateOnInterval_not_due (fenv : FileEnv) (m : Nat) (c : LogFileCtx) (fw : FileWorld)
    (hflags : c.flags &&& m ≠ 0) (hdue : fenv.time fw.times < c.rotate_time) :
    rotateOnInterval fenv m c fw =
      some (c, { fw with times := fw.times + 1
                         trace := fw.trace ++ [FileEvent.time (fenv.time fw.times)] }) := by
  unfold rotateOnInterval
  simp only [if_pos hflags, ge_iff_le, if_neg (Nat.not_le.2 hdue)]

/-- On a regular file with a name, the interval flag and no stream, the second block
does not return once the rotation time has come. -/
theorem rotateOnInterval_null (fenv : FileEnv) (m : Nat) (c : LogFileCtx) (fw : FileWorld)
    (name : String) (hreg : c.is_regular = true) (hname : c.filename = some name)
    (hfp : c.fp = none) (hflags : c.flags &&& m ≠ 0)
    (hdue : c.rotate_time ≤ fenv.time fw.times) :
    rotateOnInterval fenv m c fw = none := by
  unfold rotateOnInterval
  simp only [if_pos hflags, ge_iff_le, if_pos hdue,
    SCConfLogReopen_null fenv c _ name hreg hname hfp]

/-- Where the code does what C22 says of a write: on a sink that rotates on an interval,
holds a stream and has no rotation flag set, `SCLogFileWrite` reads the time once; when
that time has reached `rotate_time` the file is opened again and `rotate_time` is put one
interval after it, otherwise neither happens; either way `rotate_time` is after the
time read. -/
theorem SCLogFileWrite_interval_step (env : Env) (fenv : FileEnv) (k m fuel : Nat)
    (buffer : List Nat) (c : LogFileCtx) (w : World) (fw : FileWorld) (old : Nat)
    (h : RotatesOnInterval m c) (hflag : c.rotation_flag = 0) (hfp : c.fp = some old) :
    ∃ ret c' fw', SCLogFileWrite env fenv k m fuel buffer c w fw = some (ret, c', w, fw') ∧
      RotatesOnInterval m c' ∧ c'.rotate_interval = c.rotate_interval ∧
      c'.filename = c.filename ∧ fw'.times = fw.times + 1 ∧
      (c.rotate_time ≤ fenv.time fw.times →
        c'.rotate_time = fenv.time fw.times + c.rotate_interval ∧
        fw'.opens = fw.opens + 1 ∧ c'.fp = (fenv.openResult fw.opens).stream) ∧
      (fenv.time fw.times < c.rotate_time →
        c'.rotate_time = c.rotate_time ∧ fw'.opens = fw.opens ∧ c'.fp = c.fp) ∧
      fenv.time fw.times < c'.rotate_time := by
  obtain ⟨hsock, hreg, hname, hflags, hpos⟩ := h
  obtain ⟨name, hn⟩ := Option.ne_none_iff_exists'.1 hname
  have key : ∃ c2 fw2,
      rotateOnInterval fenv m c fw = some (c2, fw2) ∧
      RotatesOnInterval m c2 ∧ c2.rotate_interval = c.rotate_interval ∧
      c2.filename = c.filename ∧ fw2.times = fw.times + 1 ∧
      (c.rotate_time ≤ fenv.time fw.times →
        c2.rotate_time = fenv.time fw.times + c.rotate_interval ∧
        fw2.opens = fw.opens + 1 ∧ c2.fp = (fenv.openResult fw.opens).stream) ∧
      (fenv.time fw.times < c.rotate_time →
        c2.rotate_time = c.rotate_time ∧ fw2.opens = fw.opens ∧ c2.fp = c.fp) ∧
      fenv.time fw.times < c2.rotate_time := by
    by_cases hdue : c.rotate_time ≤ fenv.time fw.times
    · refine ⟨_, _, rotateOnInterval_due fenv m c fw name old hreg hn hfp hflags hdue,
        ⟨hsock, hreg, hname, hflags, hpos⟩, rfl, rfl, rfl, fun _ => ⟨rfl, rfl, rfl⟩,
        fun hlt => absurd hdue (Nat.not_le.2 hlt), ?_⟩
      show fenv.time fw.times < fenv.time fw.times + c.rotate_interval
      omega
    · have hlt : fenv.time fw.times < c.rotate_time := Nat.not_le.1 hdue
      exact ⟨_, _, rotateOnInterval_not_due fenv m c fw hflags hlt,
        ⟨hsock, hreg, hname, hflags, hpos⟩, rfl, rfl, rfl, fun hle => absurd hle hdue,
        fun _ => ⟨rfl, rfl, rfl⟩, hlt⟩
  obtain ⟨c2, fw2, h2, hinv, hi2, hn2, htimes2, hd, hnd, hafter⟩ := key
  have hw : SCLogFileWrite env fenv k m fuel buffer c w fw =
      match SCLogFileWrite_file fenv m buffer c fw with
      | none => none
      | some r => some (r.1, r.2.1, w, r.2.2) := by
    unfold SCLogFileWrite
    rw [if_neg (by simp [hsock])]
  rw [hw, SCLogFileWrite_file_eq fenv m buffer c fw c c2 fw fw2
    (rotateOnFlag_clear fenv c fw hflag) h2]
  cases hfp2 : c2.fp with
  | some fp => exact ⟨_, _, _, rfl, hinv, hi2, hn2, htimes2, hd, hnd, hafter⟩
  | none => exact ⟨_, _, _, rfl, hinv, hi2, hn2, htimes2, hd, hnd, hafter⟩

theorem applyRotateInterval_some (fenv : FileEnv) (oenv : OpenEnv) (m : Nat) (r : String)
    (c : LogFileCtx) (fw : FileWorld)
    (hvalid : r = "minute" ∨ r = "hour" ∨ r = "day" ∨ oenv.SCParseTimeSizeString r ≠ 0) :
    ∃ c1, applyRotateInterval fenv oenv m (some r) c fw =
        some (c1, { fw with times := fw.times + 1
                            trace := fw.trace ++ [FileEvent.time (fenv.time fw.times)] }) ∧
      c1.flags = c.flags ||| m ∧ c1.rotate_interval = intervalOf oenv r ∧
      0 < intervalOf oenv r ∧ c1.fp = c.fp ∧ c1.is_sock = c.is_sock ∧
      c1.rotate_time = fenv.time fw.times +
        (if r = "minute" ∨ r = "hour" ∨ r = "day" then
          oenv.SCGetSecondsUntil r (fenv.time fw.times)
        else oenv.SCParseTimeSizeString r) := by
  unfold applyRotateInterval intervalOf
  by_cases h1 : r = "minute"
  · simp only [h1, if_true, true_or]
    exact ⟨_, rfl, rfl, rfl, by decide, rfl, rfl, rfl⟩
  · by_cases h2 : r = "hour"
    · simp only [h2, if_true, true_or, or_true]
      exact ⟨_, rfl, rfl, rfl, by decide, rfl, rfl, rfl⟩
    · by_cases h3 : r = "day"
      · simp only [h3, if_true, or_true]
        exact ⟨_, rfl, rfl, rfl, by decide, rfl, rfl, rfl⟩
      · have h4 : oenv.SCParseTimeSizeString r ≠ 0 := by
          rcases hvalid with h | h | h | h
          · exact absurd h h1
          · exact absurd h h2
          · exact absurd h h3
          · exact h
        simp only [h1, h2, h3, h4, if_false, or_self]
        exact ⟨_, rfl, rfl, rfl, Nat.pos_of_ne_zero h4, rfl, rfl, rfl⟩

/-- A regular file opened by `SCConfLogOpenGeneric` with a `rotate-interval` setting. -/
theorem SCConfLogOpenGeneric_interval (env : Env) (fenv : FileEnv) (oenv : OpenEnv)
    (m : Nat) (conf : ConfNode) (log_ctx : LogFileCtx) (default_filename : String)
    (rotate : Int) (w : World) (fw : FileWorld) (r : String) (fp : Nat)
    (hm : m ≠ 0) (hfp : log_ctx.fp = none) (hsock : log_ctx.is_sock = false)
    (hr : conf.rotate_interval = some r)
    (hvalid : r = "minute" ∨ r = "hour" ∨ r = "day" ∨ oenv.SCParseTimeSizeString r ≠ 0)
    (hns : strcasecmpEq (conf.filetype.getD oenv.DEFAULT_LOG_FILETYPE) "unix_stream" = false)
    (hnd : strcasecmpEq (conf.filetype.getD oenv.DEFAULT_LOG_FILETYPE) "unix_dgram" = false)
    (hkind : strcasecmpEq (conf.filetype.getD oenv.DEFAULT_LOG_FILETYPE)
        oenv.DEFAULT_LOG_FILETYPE = true ∨
      strcasecmpEq (conf.filetype.getD oenv.DEFAULT_LOG_FILETYPE) "file" = true)
    (hopen : fenv.openResult fw.opens = OpenFileResult.opened fp)
    (hdup : oenv.SCStrdup = true) :
    ∃ ctx0 fw0,
      SCConfLogOpenGeneric env fenv oenv m (some conf) (some log_ctx) (some default_filename)
          rotate w fw = OpenOutcome.returned 0 (some ctx0) w fw0 ∧
        RotatesOnInterval m ctx0 ∧ ctx0.rotate_interval = intervalOf oenv r ∧
        ctx0.fp = some fp ∧
        ctx0.rotate_time = fenv.time fw.times +
          (if r = "minute" ∨ r = "hour" ∨ r = "day" then
            oenv.SCGetSecondsUntil r (fenv.time fw.times)
          else oenv.SCParseTimeSizeString r) := by
  obtain ⟨c1, h1, hflags, hint, hpos, hfp1, hsock1, htime⟩ :=
    applyRotateInterval_some fenv oenv m r log_ctx fw hvalid
  have hbit : (log_ctx.flags ||| m) &&& m ≠ 0 := by
    rw [or_and_self_flag]
    exact hm
  unfold SCConfLogOpenGeneric
  simp only [hfp, ne_eq, not_true_eq_false, if_false, hr, h1, hns, hnd, Bool.false_eq_true]
  rw [if_pos (by simpa using hkind)]
  simp only [SCLogOpenFileFp_eq, hopen, OpenFileResult.stream]
  cases hmode : conf.filemode.bind oenv.ByteExtractStringUint32 <;>
    simp only [finishOpen, hdup, Bool.true_eq_false, if_false, hsock, hsock1, false_and] <;>
    exact ⟨_, _, rfl, ⟨by first | exact hsock1 | rfl, rfl, by simp, by rw [← hflags] at hbit; exact hbit,
      by rw [← hint] at hpos; exact hpos⟩, hint, rfl, htime⟩

/-- The defect behind the failures of C14 and C22, in general: on a regular file with a
name that holds no stream, a write with the rotation flag set does not return. -/
theorem SCLogFileWrite_flag_null (env : Env) (fenv : FileEnv) (k m fuel : Nat)
    (buffer : List Nat) (c : LogFileCtx) (w : World) (fw : FileWorld) (name : String)
    (hsock : c.is_sock = false) (hreg : c.is_regular = true) (hname : c.filename = some name)
    (hfp : c.fp = none) (hflag : c.rotation_flag ≠ 0) :
    SCLogFileWrite env fenv k m fuel buffer c w fw = none := by
  unfold SCLogFileWrite SCLogFileWrite_file rotateOnFlag
  rw [if_neg (by simp [hsock]), if_pos hflag,
    SCConfLogReopen_null fenv { c with rotation_flag := 0 } fw name hreg hname hfp]

/-- The same on the interval: on a regular file with a name, the interval flag and no
stream, a write made once the rotation time has come does not return. -/
theorem SCLogFileWrite_interval_null (env : Env) (fenv : FileEnv) (k m fuel : Nat)
    (buffer : List Nat) (c : LogFileCtx) (w : World) (fw : FileWorld) (name : String)
    (hsock : c.is_sock = false) (hreg : c.is_regular = true) (hname : c.filename = some name)
    (hfp : c.fp = none) (hflag : c.rotation_flag = 0) (hflags : c.flags &&& m ≠ 0)
    (hdue : c.rotate_time ≤ fenv.time fw.times) :
    SCLogFileWrite env fenv k m fuel buffer c w fw = none := by
  unfold SCLogFileWrite SCLogFileWrite_file
  rw [if_neg (by simp [hsock]), rotateOnFlag_clear fenv c fw hflag]
  simp only [rotateOnInterval_null fenv m c fw name hreg hname hfp hflags hdue]

/-- C22 fails on a sink that has lost its stream. `SCConfLogOpenGeneric` builds the sink
of `rotatingConf` ("30s") at the time 1000: the stream 20, an interval of 30 seconds,
the first rotation at 1030. The write at 1040 finds the rotation due and the file
cannot be opened: the stream is closed, the sink is left without one, `rotate_time`
becomes 1070 and 0 is returned. The write at 1080 finds the rotation due again and
calls `SCConfLogReopen`, which reaches `fclose(NULL)`: the call does not return, so
the file is not reopened and `rotate_time` is not put after the time read. -/
theorem SCLogFileWrite_interval_closes_null :
    SCConfLogOpenGeneric deliveringEnv lostFileEnv openEnv 4 (some rotatingConf)
        (some LogFileNewCtx) (some "dhcp.json") 1 startWorld startFileWorld =
      OpenOutcome.returned 0 (some intervalCtx) startWorld
        { opens := 1, writes := 0, times := 1, kafkaNews := 0
          trace := [FileEvent.time 1000,
            FileEvent.openFile "/var/log/suricata/dhcp.json" "yes" "a" 0
              (OpenFileResult.opened 20)] } ∧
      SCLogFileWrite deliveringEnv lostFileEnv 500 4 2 [1, 2] intervalCtx startWorld
          { opens := 1, writes := 0, times := 1, kafkaNews := 0, trace := [] } =
        some (0, { intervalCtx with fp := none, rotate_time := 1070 }, startWorld,
          { opens := 2, writes := 0, times := 2, kafkaNews := 0
            trace := [FileEvent.time 1040, FileEvent.fclose 20,
              FileEvent.openFile "/var/log/suricata/dhcp.json" "yes" "a" 0
                OpenFileResult.fopenFailed] }) ∧
      lostFileEnv.time 2 = 1080 ∧
      SCLogFileWrite deliveringEnv lostFileEnv 500 4 2 [3]
          { intervalCtx with fp := none, rotate_time := 1070 } startWorld
          { opens := 2, writes := 0, times := 2, kafkaNews := 0, trace := [] } = none := by
  decide


/-! ## The partition of the broker sink -/

/-- Without a `partition` child the partition resolved is 0, whatever the constant
`RD_KAFKA_PARTITION_UA`; the other numbers take their defaults. -/
theorem kafkaSettings_no_partition (kenv : KafkaEnv) (node : KafkaNode)
    (h : node.partition = none) :
    (kafkaSettings kenv node).partition = 0 ∧
      (node.max_retries = none → (kafkaSettings kenv node).max_retries = 1) ∧
      (node.backoff_ms = none → (kafkaSettings kenv node).backoff_ms = 10) ∧
      (node.buffer_max_messages = none →
        (kafkaSettings kenv node).buffer_max_messages = 100000) ∧
      (node.log_level = none → (kafkaSettings kenv node).loglevel = 6) := by
  unfold kafkaSettings ConfGetChildValueInt
  refine ⟨by simp [h], ?_, ?_, ?_, ?_⟩ <;> intro h2 <;> simp [h2]

/-- With every library call succeeding, the context of a section without a `partition`
child gets the partition 0. -/
theorem SCConfLogOpenKafka_no_partition (fenv : FileEnv) (kenv : KafkaEnv) (node : KafkaNode)
    (log_ctx : LogFileCtx) (fw : FileWorld) (conf rk tc rkt : Nat)
    (h : node.partition = none) (hdup : kenv.SCStrdup = true)
    (hconf : kenv.rd_kafka_conf_new = some conf) (hnew : fenv.kafkaNew fw.kafkaNews = some rk)
    (hadd : kenv.rd_kafka_brokers_add ≠ 0) (htc : kenv.rd_kafka_topic_conf_new = some tc)
    (hrkt : kenv.rd_kafka_topic_new = some rkt) :
    ∃ ctx' fw', SCConfLogOpenKafka fenv kenv (some node) log_ctx fw =
        KafkaOpenOutcome.returned 0 ctx' fw' ∧
      ctx'.kafka_setup.partition = 0 ∧ ctx'.kafka = some rk := by
  unfold SCConfLogOpenKafka
  simp only [hdup, Bool.true_eq_false, if_false, hconf, hnew, hadd, htc, hrkt]
  exact ⟨_, _, rfl, (kafkaSettings_no_partition kenv node h).1, rfl⟩

/-- C21 fails: for the broker section `topicOnlyNode`, which has no `partition` child,
with `RD_KAFKA_PARTITION_UA = -1`, `SCConfLogOpenKafka` returns 0 and leaves the
partition 0 in the context, not -1; the other settings of the section take their
defaults; and a section whose `partition` is "-5" does get -1, one whose `partition`
is "3" gets 3. -/
theorem SCConfLogOpenKafka_absent_partition_is_zero :
    SCConfLogOpenKafka fileEnv kafkaEnv (some topicOnlyNode) LogFileNewCtx startFileWorld =
      KafkaOpenOutcome.returned 0
        { LogFileNewCtx with
            kafka := some 30
            kafka_setup :=
              { brokers := some "127.0.0.1:9092", topic := some 9, conf := 2, loglevel := 6
                partition := 0, tried := 0 } }
        { opens := 0, writes := 0, times := 0, kafkaNews := 1
          trace := [FileEvent.rd_kafka_new 2 (some 30)] } ∧
      kafkaEnv.RD_KAFKA_PARTITION_UA = -1 ∧
      kafkaSettings kafkaEnv topicOnlyNode =
        { brokers := "127.0.0.1:9092", compression := "snappy", topic := "dhcp"
          max_retries := 1, backoff_ms := 10, buffer_max_messages := 100000, loglevel := 6
          partition := 0 } ∧
      (kafkaSettings kafkaEnv { topicOnlyNode with partition := some "-5" }).partition = -1 ∧
      (kafkaSettings kafkaEnv { topicOnlyNode with partition := some "3" }).partition = 3 := by
  decide

end Suricata
